import Mathlib

/-!
# Search service (`services/search/pkg/service/grpc/v0/service.go`)

A shallow embedding of the request-facing search service: the cache key, the
`Search` handler with its result cache, and the `IndexSpace` handler.  Go pointers
that may be nil are `Option`s, Go `error` results are explicit values, and every
call the handlers make on a collaborator is recorded in a trace.
-/

namespace Search

/-! ## Messages -/

/-- Modelled from the spec: the `ResourceID` message of
`protogen/gen/opencloud/messages/search/v0` (declared outside the source tree). -/
structure ResourceID where
  StorageId : String
  OpaqueId : String
  SpaceId : String
  deriving DecidableEq, Repr

/-- Modelled from the spec: the `Reference` message of
`protogen/gen/opencloud/messages/search/v0`; `ResourceId` is a pointer. -/
structure Reference where
  ResourceId : Option ResourceID
  Path : String
  deriving DecidableEq, Repr

/-- The `UserId` message of the CS3 identity API (only the fields read here). -/
structure UserId where
  Idp : String
  OpaqueId : String
  deriving DecidableEq, Repr

/-- The `User` message of the CS3 identity API; `Id` is a pointer. -/
structure User where
  Id : Option UserId
  Username : String
  deriving DecidableEq, Repr

/-- Generated getter `(*ResourceID).GetStorageId`: nil-safe. -/
def ResourceID.GetStorageId : Option ResourceID → String
  | some r => r.StorageId
  | none => ""

/-- Generated getter `(*ResourceID).GetSpaceId`: nil-safe. -/
def ResourceID.GetSpaceId : Option ResourceID → String
  | some r => r.SpaceId
  | none => ""

/-- Generated getter `(*ResourceID).GetOpaqueId`: nil-safe. -/
def ResourceID.GetOpaqueId : Option ResourceID → String
  | some r => r.OpaqueId
  | none => ""

/-- Generated getter `(*Reference).GetResourceId`: nil-safe. -/
def Reference.GetResourceId : Option Reference → Option ResourceID
  | some r => r.ResourceId
  | none => none

/-- Generated getter `(*Reference).GetPath`: nil-safe. -/
def Reference.GetPath : Option Reference → String
  | some r => r.Path
  | none => ""

/-- Generated getter `(*User).GetId`: nil-safe. -/
def User.GetId : Option User → Option UserId
  | some u => u.Id
  | none => none

/-- Generated getter `(*UserId).GetOpaqueId`: nil-safe. -/
def UserId.GetOpaqueId : Option UserId → String
  | some i => i.OpaqueId
  | none => ""

/-! ## `fmt.Sprintf` verbs used by `cacheKey` -/

/-- The character of one decimal digit. -/
def digitChar (d : Nat) : Char := Char.ofNat (48 + d)

/-- Decimal digits of `n`, least significant first; `fuel` bounds the recursion and
`n + 1` is always enough. -/
def digitsRev : Nat → Nat → List Char
  | 0, _ => []
  | fuel + 1, n => if n < 10 then [digitChar n] else digitChar (n % 10) :: digitsRev fuel (n / 10)

/-- Decimal rendering of a natural number, most significant digit first. -/
def formatNat (n : Nat) : List Char := (digitsRev (n + 1) n).reverse

/-- The `%d` verb on a signed integer: a minus sign for negatives, then the digits. -/
def formatInt : Int → List Char
  | Int.ofNat n => formatNat n
  | Int.negSucc n => '-' :: formatNat (n + 1)

/-- The function `cacheKey`:
`fmt.Sprintf("%s|%d|%s$%s!%s/%s|%s", query, pagesize, storageId, spaceId, opaqueId, path, userOpaqueId)`
with the ids read through the nil-safe getters. -/
def cacheKey (query : String) (pagesize : Int) (ref : Option Reference) (user : Option User) : String :=
  query ++ "|" ++ String.mk (formatInt pagesize) ++ "|"
    ++ ResourceID.GetStorageId (Reference.GetResourceId ref) ++ "$"
    ++ ResourceID.GetSpaceId (Reference.GetResourceId ref) ++ "!"
    ++ ResourceID.GetOpaqueId (Reference.GetResourceId ref) ++ "/"
    ++ Reference.GetPath ref ++ "|"
    ++ UserId.GetOpaqueId (User.GetId user)

/-- The seven values `cacheKey` renders, in the order of its format string. -/
structure KeyParts where
  query : String
  pageSize : Int
  storageId : String
  spaceId : String
  opaqueId : String
  path : String
  actorId : String
  deriving DecidableEq, Repr

/-- The components of a `cacheKey` input, read the way `cacheKey` reads them. -/
def keyParts (query : String) (pagesize : Int) (ref : Option Reference) (user : Option User) : KeyParts :=
  { query := query
    pageSize := pagesize
    storageId := ResourceID.GetStorageId (Reference.GetResourceId ref)
    spaceId := ResourceID.GetSpaceId (Reference.GetResourceId ref)
    opaqueId := ResourceID.GetOpaqueId (Reference.GetResourceId ref)
    path := Reference.GetPath ref
    actorId := UserId.GetOpaqueId (User.GetId user) }

/-- Number of components in which two inputs differ. -/
def differingParts (a b : KeyParts) : Nat :=
  (if a.query = b.query then 0 else 1) + (if a.pageSize = b.pageSize then 0 else 1)
    + (if a.storageId = b.storageId then 0 else 1) + (if a.spaceId = b.spaceId then 0 else 1)
    + (if a.opaqueId = b.opaqueId then 0 else 1) + (if a.path = b.path then 0 else 1)
    + (if a.actorId = b.actorId then 0 else 1)

/-- No component contains the separator that ends it in the format string: the query
has no `|`, the storage id no `$`, the space id no `!`, the opaque id no `/`, and the
actor id no `|`. -/
def DelimiterFree (p : KeyParts) : Prop :=
  '|' ∉ p.query.data ∧ '$' ∉ p.storageId.data ∧ '!' ∉ p.spaceId.data
    ∧ '/' ∉ p.opaqueId.data ∧ '|' ∉ p.actorId.data

instance (p : KeyParts) : Decidable (DelimiterFree p) := by
  unfold DelimiterFree; infer_instance

/-- Reads back a list of decimal digit characters, least significant first. -/
def readRev : List Char → Nat
  | [] => 0
  | c :: cs => (c.toNat - 48) + 10 * readRev cs

/-! ## Search messages -/

/-- Modelled from the spec: the `Match` message of
`protogen/gen/opencloud/messages/search/v0`; the handlers only copy the slice of
matches, so one match is an opaque payload here. -/
structure Match where
  payload : String
  deriving DecidableEq, Repr

/-- Modelled from the spec: the `SearchRequest` message of
`protogen/gen/opencloud/services/search/v0`. -/
structure SearchRequest where
  PageSize : Int
  PageToken : String
  Query : String
  Ref : Option Reference
  deriving DecidableEq, Repr

/-- Modelled from the spec: the `SearchResponse` message of
`protogen/gen/opencloud/services/search/v0`. -/
structure SearchResponse where
  Matches : List Match
  NextPageToken : String
  TotalMatches : Int
  deriving DecidableEq, Repr

/-- Modelled from the spec: the `IndexSpaceRequest` message of
`protogen/gen/opencloud/services/search/v0`. -/
structure IndexSpaceRequest where
  SpaceId : String
  deriving DecidableEq, Repr

/-- Generated getter `(*IndexSpaceRequest).GetSpaceId`: nil-safe. -/
def IndexSpaceRequest.GetSpaceId : Option IndexSpaceRequest → String
  | some r => r.SpaceId
  | none => ""

/-- The `StorageSpaceId` message of the CS3 storage provider API. -/
structure StorageSpaceId where
  OpaqueId : String
  deriving DecidableEq, Repr

/-- The `StorageSpace` message of the CS3 storage provider API (only the id is read). -/
structure StorageSpace where
  Id : Option StorageSpaceId
  deriving DecidableEq, Repr

/-- Generated getter `(*StorageSpace).GetId`: nil-safe. -/
def StorageSpace.GetId : Option StorageSpace → Option StorageSpaceId
  | some sp => sp.Id
  | none => none

/-- The `Status` message of the CS3 rpc API. -/
structure Status where
  Code : Nat
  Message : String
  deriving DecidableEq, Repr

/-- The enum value `rpc.Code_CODE_OK`. -/
def CODE_OK : Nat := 1

/-- Generated getter `(*Status).GetCode`: nil-safe, `CODE_INVALID` (0) on nil. -/
def Status.GetCode : Option Status → Nat
  | some st => st.Code
  | none => 0

/-- Generated getter `(*Status).GetMessage`: nil-safe. -/
def Status.GetMessage : Option Status → String
  | some st => st.Message
  | none => ""

/-- The `ListStorageSpacesResponse` message of the CS3 storage provider API. -/
structure ListStorageSpacesResponse where
  Status : Option Status
  StorageSpaces : List (Option StorageSpace)
  deriving DecidableEq, Repr

/-- Generated getter `(*ListStorageSpacesResponse).GetStatus`: nil-safe. -/
def ListStorageSpacesResponse.GetStatus :
    Option ListStorageSpacesResponse → Option Search.Status
  | some r => r.Status
  | none => none

/-- Generated getter `(*ListStorageSpacesResponse).GetStorageSpaces`: nil-safe. -/
def ListStorageSpacesResponse.GetStorageSpaces :
    Option ListStorageSpacesResponse → List (Option StorageSpace)
  | some r => r.StorageSpaces
  | none => []

/-! ## Errors -/

/-- A Go `error` value handed to the service by a collaborator or made with
`errors.New`, by dynamic type; `text` is what its `Error()` method returns. -/
inductive Err where
  /-- The value `errors.New(text)`. -/
  | errorString (text : String)
  /-- A value of type `errtypes.BadRequest`. -/
  | badRequest (text : String)
  /-- A go-micro `*errors.Error` made by a collaborator, with its `Code`. -/
  | microError (code : Nat) (text : String)
  /-- A value of any other dynamic type. -/
  | other (goType : String) (text : String)
  deriving DecidableEq, Repr

/-- The method `Error()`. -/
def Err.Error : Err → String
  | .errorString text => text
  | .badRequest text => text
  | .microError _ text => text
  | .other _ text => text

/-- An `error` returned by a handler of the service. -/
inductive HandlerErr where
  /-- An `Err` returned as it is. -/
  | raw (e : Err)
  /-- A go-micro `*errors.Error{Id, Code, Detail, Status}` built by the handler. -/
  | micro (id : String) (code : Nat) (detail : String) (status : String)
  deriving DecidableEq, Repr

/-- The go-micro constructor `merrors.BadRequest(id, "%s", detail)`. -/
def merrorsBadRequest (id detail : String) : HandlerErr :=
  .micro id 400 detail "Bad Request"

/-- The go-micro constructor `merrors.InternalServerError(id, "%s", detail)`. -/
def merrorsInternalServerError (id detail : String) : HandlerErr :=
  .micro id 500 detail "Internal Server Error"

/-- The status code a handler error carries at the RPC boundary: the `Code` of a
go-micro error, nothing for any other error value. -/
def HandlerErr.code : HandlerErr → Option Nat
  | .raw (.microError code _) => some code
  | .raw _ => none
  | .micro _ code _ _ => some code

/-- The RPC status classes of the service. -/
inductive ErrClass where
  | badRequest
  | unauthenticated
  | internal
  deriving DecidableEq, Repr

/-- The class of a handler error, by go-micro status code: 400 bad request,
401 unauthenticated, 500 internal; no class for a value without one of these codes. -/
def HandlerErr.errClass (e : HandlerErr) : Option ErrClass :=
  match e.code with
  | some 400 => some .badRequest
  | some 401 => some .unauthenticated
  | some 500 => some .internal
  | _ => none

/-! ## Result cache (`ttlcache/v2`, as the service uses it)

The service builds the cache with `NewCache`, sets one global TTL and only ever calls
`Get` and `Set`: no loader, no size limit, no `Close`, TTL extension on hit left on.
Expiry is modelled passively: an expired item stays stored and is never returned. -/

/-- A cached `interface{}` value: a `*SearchResponse` (possibly a nil pointer), or a
value of some other dynamic type. -/
inductive CacheValue where
  | searchResponse (res : Option SearchResponse)
  | foreign (goType : String)
  deriving DecidableEq, Repr

/-- One cache item: its data, its own TTL (0: the global one) and its expiry instant. -/
structure Item where
  data : CacheValue
  ttl : Nat
  expireAt : Nat
  deriving DecidableEq, Repr

/-- The method `item.expired`: never when the TTL is not positive, otherwise when the
expiry instant is before now. -/
def Item.expired (it : Item) (now : Nat) : Bool :=
  if it.ttl = 0 then false else decide (it.expireAt < now)

/-- The method `item.touch`: with a positive TTL the expiry instant moves to now + TTL. -/
def Item.touch (it : Item) (now : Nat) : Item :=
  if 0 < it.ttl then { it with expireAt := now + it.ttl } else it

/-- The cache: the item map and the global TTL. Durations and instants are in
nanoseconds. -/
structure Cache where
  items : String → Option Item
  ttl : Nat

/-- The duration `time.Second`. -/
def timeSecond : Nat := 1000000000

/-- The constructor `ttlcache.NewCache()`: empty, no TTL. -/
def Cache.NewCache : Cache := { items := fun _ => none, ttl := 0 }

/-- The method `SetTTL`. -/
def Cache.SetTTL (c : Cache) (ttl : Nat) : Cache := { c with ttl := ttl }

/-- The method `getItem`: a stored, unexpired item, touched unless it never expires. -/
def Cache.getItem (c : Cache) (now : Nat) (key : String) : Option Item × Cache :=
  match c.items key with
  | none => (none, c)
  | some it =>
    if it.expired now then (none, c)
    else if it.ttl = 0 ∧ c.ttl = 0 then (some it, c)
    else
      let it1 := if it.ttl = 0 then { it with ttl := c.ttl } else it
      let it2 := it1.touch now
      (some it2, { c with items := Function.update c.items key (some it2) })

/-- The method `Get`: the data of the item, or nothing (`ErrNotFound`). -/
def Cache.Get (c : Cache) (now : Nat) (key : String) : Option CacheValue × Cache :=
  ((c.getItem now key).1.map Item.data, (c.getItem now key).2)

/-- The method `Set` (`SetWithTTL` with `ItemExpireWithGlobalTTL`): the item for the key
gets the data and the global TTL and is touched. -/
def Cache.Set (c : Cache) (now : Nat) (key : String) (data : CacheValue) : Cache :=
  let found := (c.getItem now key).1
  let c1 := (c.getItem now key).2
  let it : Item :=
    match found with
    | some old => { old with data := data, ttl := 0 }
    | none => { data := data, ttl := 0, expireAt := 0 }
  let it1 := if it.ttl = 0 then { it with ttl := c1.ttl } else it
  let it2 := it1.touch now
  { c1 with items := Function.update c1.items key (some it2) }

/-- What a `Get` at instant `now` finds under a key: the data of the stored item unless
it has expired. -/
def Cache.fresh (c : Cache) (now : Nat) (key : String) : Option CacheValue :=
  match c.items key with
  | none => none
  | some it => if it.expired now then none else some it.data

/-- Every stored value is a `*SearchResponse`: true of the new cache and kept by the
service, whose only write is `Service.Cache`. -/
def Cache.OnlyResponses (c : Cache) : Prop :=
  ∀ key it, c.items key = some it → ∃ sr, it.data = CacheValue.searchResponse sr

/-! ## The service and its collaborators -/

/-- The header `revactx.TokenHeader`. -/
def TokenHeader : String := "x-access-token"

/-- What the handlers read from and add to a `context.Context`: the token in the
go-micro metadata, the outgoing gRPC metadata pairs, and the user. -/
structure Ctx where
  token : Option String
  outgoing : List (String × String)
  user : Option User
  deriving DecidableEq, Repr

/-- The call `grpcmetadata.AppendToOutgoingContext(ctx, revactx.TokenHeader, t)`. -/
def appendToOutgoingContext (ctx : Ctx) (t : String) : Ctx :=
  { ctx with outgoing := ctx.outgoing ++ [(TokenHeader, t)] }

/-- The call `revactx.ContextSetUser(ctx, u)`. -/
def contextSetUser (ctx : Ctx) (u : Option User) : Ctx := { ctx with user := u }

/-- A gateway client handed out by the selector. -/
structure GatewayClient where
  address : String
  deriving DecidableEq, Repr

/-- A call a handler makes on a collaborator, as recorded in the trace. -/
inductive Call where
  | logError (msg : String)
  | dismantleToken (t : String)
  | cacheGet (key : String)
  | cacheSet (key : String) (res : Option SearchResponse)
  | searcherSearch (ctx : Ctx) (req : SearchRequest)
  | searcherIndexSpace (id : Option StorageSpaceId)
  | gatewayNext
  | getServiceUserContext (serviceAccountID : String) (gwc : GatewayClient) (secret : String)
  | listStorageSpaces (gwc : GatewayClient) (ctx : Ctx)
  deriving DecidableEq, Repr

/-- The mutable world of the service: the shared cache and the trace of calls made. -/
structure World where
  cache : Cache
  trace : List Call

/-- Appends one call to the trace. -/
def World.record (w : World) (c : Call) : World := { w with trace := w.trace ++ [c] }

/-- The fields of `Service` the handlers read: `id` and the service account of `cfg`.
The cache lives in the `World`; logger, searcher, token manager and gateway selector
are collaborators. -/
structure Service where
  id : String
  ServiceAccountID : String
  ServiceAccountSecret : String
  deriving DecidableEq, Repr

/-- The collaborators of one `Search` call: the token manager, the searcher, and the
instants at which the cache is read and written. -/
structure SearchEnv where
  DismantleToken : Ctx → String → Except Err (Option User)
  SearcherSearch : Ctx → SearchRequest → Except Err (Option SearchResponse)
  tLookup : Nat
  tStore : Nat

/-- The collaborators of one `IndexSpace` call: the gateway selector, the service-user
login, the space listing, and the searcher, whose result may differ from call to call
(`SearcherIndexSpace n id` is the result of the call number `n` of this request). -/
structure IndexEnv where
  gwsNext : Except Err GatewayClient
  GetServiceUserContext : String → GatewayClient → String → Except Err Ctx
  ListStorageSpaces : GatewayClient → Ctx → Except Err (Option ListStorageSpacesResponse)
  SearcherIndexSpace : Nat → Option StorageSpaceId → Option Err

/-- How a handler call ends: it returns an error (or nil), or it panics. -/
inductive Outcome where
  | returned (err : Option HandlerErr)
  | panicked
  deriving DecidableEq, Repr

/-- The method `Service.FromCache`: the cached value when `Get` succeeds and the value
is a `*SearchResponse`. -/
def Service.FromCache (_s : Service) (now : Nat) (key : String) (w : World) :
    (Option SearchResponse × Bool) × World :=
  let w1 : World := { cache := (w.cache.Get now key).2, trace := w.trace ++ [Call.cacheGet key] }
  match (w.cache.Get now key).1 with
  | none => ((none, false), w1)
  | some (.searchResponse sr) => ((sr, true), w1)
  | some (.foreign _) => ((none, false), w1)

/-- The method `Service.Cache`: `Set`, its error ignored. -/
def Service.Cache (_s : Service) (now : Nat) (key : String) (res : Option SearchResponse)
    (w : World) : World :=
  { cache := w.cache.Set now key (.searchResponse res), trace := w.trace ++ [Call.cacheSet key res] }

/-- The request literal `Search` passes to `searcher.Search`: the `Query`, `PageSize`
and `Ref` of the input; `PageToken` is left at its zero value. -/
def engineRequest (inp : SearchRequest) : SearchRequest :=
  { Query := inp.Query, PageSize := inp.PageSize, Ref := inp.Ref, PageToken := "" }

/-- The last three statements of `Search`: copy the result into `out` and return nil;
reading a field of a nil result panics before anything is written. -/
def copyResult (res : Option SearchResponse) (out : SearchResponse) (w : World) :
    Outcome × SearchResponse × World :=
  match res with
  | none => (.panicked, out, w)
  | some r =>
    (.returned none,
      { out with Matches := r.Matches, TotalMatches := r.TotalMatches, NextPageToken := r.NextPageToken },
      w)

/-- The method `Service.Search`. The request `inp` and the response `out` are the
allocated messages the RPC layer passes; the result is the outcome, `out` after the call
and the world after the call. -/
def Service.Search (s : Service) (env : SearchEnv) (ctx : Ctx) (inp : SearchRequest)
    (out : SearchResponse) (w : World) : Outcome × SearchResponse × World :=
  match ctx.token with
  | none =>
    (.returned (some (.raw (.errorString "could not get token from context"))), out,
      w.record (.logError "Could not get token from context"))
  | some t =>
    let ctx1 := appendToOutgoingContext ctx t
    let w1 := w.record (.dismantleToken t)
    match env.DismantleToken ctx1 t with
    | .error err => (.returned (some (.raw err)), out, w1)
    | .ok u =>
      let ctx2 := contextSetUser ctx1 u
      let key := cacheKey inp.Query inp.PageSize inp.Ref u
      match s.FromCache env.tLookup key w1 with
      | ((res, true), w2) => copyResult res out w2
      | ((_, false), w2) =>
        let w3 := w2.record (.searcherSearch ctx2 (engineRequest inp))
        match env.SearcherSearch ctx2 (engineRequest inp) with
        | .error err =>
          match err with
          | .badRequest _ => (.returned (some (merrorsBadRequest s.id err.Error)), out, w3)
          | _ => (.returned (some (merrorsInternalServerError s.id err.Error)), out, w3)
        | .ok res => copyResult res out (s.Cache env.tStore key res w3)

/-- The loop of `IndexSpace` over the listed spaces: index each in turn, return the
first error; `n` counts the searcher calls already made. -/
def indexSpaces (env : IndexEnv) : Nat → List (Option StorageSpace) → World → Option HandlerErr × World
  | _, [], w => (none, w)
  | n, space :: rest, w =>
    let w1 := w.record (.searcherIndexSpace (StorageSpace.GetId space))
    match env.SearcherIndexSpace n (StorageSpace.GetId space) with
    | some err => (some (.raw err), w1)
    | none => indexSpaces env (n + 1) rest w1

/-- The method `Service.IndexSpace`. -/
def Service.IndexSpace (s : Service) (env : IndexEnv) (inp : Option IndexSpaceRequest) (w : World) :
    Option HandlerErr × World :=
  if IndexSpaceRequest.GetSpaceId inp ≠ "" then
    let id : Option StorageSpaceId := some { OpaqueId := IndexSpaceRequest.GetSpaceId inp }
    ((env.SearcherIndexSpace 0 id).map HandlerErr.raw, w.record (.searcherIndexSpace id))
  else
    let w1 := w.record .gatewayNext
    match env.gwsNext with
    | .error err => (some (.raw err), w1)
    | .ok gwc =>
      let w2 := w1.record (.getServiceUserContext s.ServiceAccountID gwc s.ServiceAccountSecret)
      match env.GetServiceUserContext s.ServiceAccountID gwc s.ServiceAccountSecret with
      | .error err => (some (.raw err), w2)
      | .ok ctx =>
        let w3 := w2.record (.listStorageSpaces gwc ctx)
        match env.ListStorageSpaces gwc ctx with
        | .error err => (some (.raw err), w3)
        | .ok resp =>
          if Status.GetCode (ListStorageSpacesResponse.GetStatus resp) ≠ CODE_OK then
            (some (.raw (.errorString (Status.GetMessage (ListStorageSpacesResponse.GetStatus resp)))), w3)
          else
            indexSpaces env 0 (ListStorageSpacesResponse.GetStorageSpaces resp) w3

/-! ## Sample values

Concrete requests, collaborators and worlds on which the statements below are
evaluated. -/

/-- A service as `NewHandler` builds it. -/
def svc : Service :=
  { id := "eu.opencloud.api.search", ServiceAccountID := "svc-account", ServiceAccountSecret := "svc-secret" }

/-- The world of a freshly built service: a new cache with the TTL of one second. -/
def world0 : World := { cache := Cache.NewCache.SetTTL timeSecond, trace := [] }

/-- A request context carrying the token `tok`. -/
def ctxTok : Ctx := { token := some "tok", outgoing := [], user := none }

/-- The user behind the token `tok`. -/
def alice : User := { Id := some { Idp := "idp", OpaqueId := "alice" }, Username := "alice" }

/-- A search request for page size 10. -/
def req0 : SearchRequest := { PageSize := 10, PageToken := "", Query := "report", Ref := none }

/-- The same query on a later page token. -/
def req1 : SearchRequest := { PageSize := 10, PageToken := "p2", Query := "report", Ref := none }

/-- An empty response message. -/
def out0 : SearchResponse := { Matches := [], NextPageToken := "", TotalMatches := 0 }

/-- An engine response with one match. -/
def resp0 : SearchResponse :=
  { Matches := [{ payload := "report.txt" }], NextPageToken := "n1", TotalMatches := 1 }

/-- A token manager that rejects every token with an error that is no go-micro error
(an `errtypes.InvalidCredentials`, as a JWT check gives); the searcher is never reached. -/
def envRejecting : SearchEnv :=
  { DismantleToken := fun _ _ =>
      .error (.other "errtypes.InvalidCredentials" "error: invalid credentials: invalid token")
    SearcherSearch := fun _ _ => .ok (some resp0)
    tLookup := 5
    tStore := 6 }

/-- A token manager that resolves every token to `alice` and an engine that answers
`resp0`. -/
def envOk : SearchEnv :=
  { DismantleToken := fun _ _ => .ok (some alice)
    SearcherSearch := fun _ _ => .ok (some resp0)
    tLookup := 5
    tStore := 6 }

/-- A later call in which the engine would answer differently. -/
def envLater : SearchEnv :=
  { DismantleToken := fun _ _ => .ok (some alice)
    SearcherSearch := fun _ _ => .ok (some out0)
    tLookup := 900000000
    tStore := 900000001 }

/-- An engine that rejects the query as malformed. -/
def envBadQuery : SearchEnv :=
  { DismantleToken := fun _ _ => .ok (some alice)
    SearcherSearch := fun _ _ => .error (.badRequest "error: bad request: unexpected token")
    tLookup := 5
    tStore := 6 }

/-- The world after `resp0` was cached at instant 0 for the request `req0` of `alice`. -/
def worldCached : World :=
  { cache := (Cache.NewCache.SetTTL timeSecond).Set 0 (cacheKey "report" 10 none (some alice))
      (.searchResponse (some resp0))
    trace := [] }

/-- An `IndexSpace` environment whose searcher accepts every space. -/
def indexEnvOk : IndexEnv :=
  { gwsNext := .ok { address := "gateway" }
    GetServiceUserContext := fun _ _ _ => .ok { token := none, outgoing := [], user := none }
    ListStorageSpaces := fun _ _ => .ok (some { Status := some { Code := 1, Message := "" }, StorageSpaces := [] })
    SearcherIndexSpace := fun _ _ => none }

/-- The call `searcher.IndexSpace` records for a listed space. -/
def indexCall (space : Option StorageSpace) : Call :=
  Call.searcherIndexSpace (StorageSpace.GetId space)

/-- A request for a full reindex: no space id. -/
def reqAllSpaces : Option IndexSpaceRequest := some { SpaceId := "" }

/-- The listed space `space-a`. -/
def spaceA : Option StorageSpace := some { Id := some { OpaqueId := "space-a" } }

/-- The listed space `space-b`. -/
def spaceB : Option StorageSpace := some { Id := some { OpaqueId := "space-b" } }

/-- A listing of `space-a` and `space-b` in which indexing the first space fails and
indexing the second would succeed. -/
def indexEnvFirstFails : IndexEnv :=
  { gwsNext := .ok { address := "gateway" }
    GetServiceUserContext := fun _ _ _ => .ok { token := none, outgoing := [], user := none }
    ListStorageSpaces := fun _ _ =>
      .ok (some { Status := some { Code := 1, Message := "" }, StorageSpaces := [spaceA, spaceB] })
    SearcherIndexSpace := fun n _ => if n = 0 then some (.errorString "index failed") else none }

/-- A listing of `space-a` and `space-b` in which every indexing succeeds. -/
def indexEnvTwo : IndexEnv :=
  { gwsNext := .ok { address := "gateway" }
    GetServiceUserContext := fun _ _ _ => .ok { token := none, outgoing := [], user := none }
    ListStorageSpaces := fun _ _ =>
      .ok (some { Status := some { Code := 1, Message := "" }, StorageSpaces := [spaceA, spaceB] })
    SearcherIndexSpace := fun _ _ => none }

/-- A listing that answers with a status that is not OK. -/
def indexEnvListDenied : IndexEnv :=
  { gwsNext := .ok { address := "gateway" }
    GetServiceUserContext := fun _ _ _ => .ok { token := none, outgoing := [], user := none }
    ListStorageSpaces := fun _ _ =>
      .ok (some { Status := some { Code := 11, Message := "permission denied" }, StorageSpaces := [spaceA] })
    SearcherIndexSpace := fun _ _ => none }

/-! ## `NewHandler` -/

/-- The fields of `config.Config` that `NewHandler` branches on or copies; the
OpenSearch and event-stream settings are only handed on to the constructors. -/
structure Config where
  EngineType : String
  BleveDatapath : String
  RevaAddress : String
  ExtractorType : String
  ServiceName : String
  GRPCNamespace : String
  ServiceAccountID : String
  ServiceAccountSecret : String
  deriving DecidableEq, Repr

/-- The options `NewHandler` reads: the configuration and the JWT secret; logger,
tracer provider and metrics are collaborators. -/
structure Options where
  Config : Config
  JWTSecret : String
  deriving DecidableEq, Repr

/-- A constructor or setup call `NewHandler` makes, as recorded in its trace. -/
inductive StartupCall where
  | newBleveIndex (datapath : String)
  | newBleveEngine
  | opensearchNewClient
  | opensearchNewEngine (index : String)
  | gatewaySelector (address : String)
  | logFatal (msg : String)
  | newBasicExtractor
  | newTikaExtractor
  | searchNewService
  | rawFromConfig (serviceName : String)
  | handleEvents
  | newCache
  | cacheSetTTL (ttl : Nat)
  | jwtNew (secret : String) (expires : Nat)
  deriving DecidableEq, Repr

/-- The outcome of each constructor `NewHandler` calls: nil, or the error it fails with. -/
structure StartupEnv where
  NewBleveIndex : String → Option Err
  OpenSearchNewClient : Option Err
  OpenSearchNewEngine : Option Err
  GatewaySelector : String → Option Err
  NewBasicExtractor : Option Err
  NewTikaExtractor : Option Err
  RawFromConfig : Option Err
  HandleEvents : Option Err
  CacheSetTTL : Nat → Option Err
  JwtNew : String → Option Err

/-- The teardown function `NewHandler` returns: the initial no-op, or the one closing
the bleve index. -/
inductive Teardown where
  | noop
  | closeIndex (datapath : String)
  deriving DecidableEq, Repr

/-- The handler `NewHandler` builds: the `Service` fields and its cache. -/
structure Handler where
  service : Service
  cache : Cache

/-- How `NewHandler` ends: it returns `(handler, teardown, err)`, or the process exits
in `logger.Fatal`. -/
inductive StartupResult where
  | returned (handler : Option Handler) (teardown : Teardown) (err : Option Err)
  | exited

/-- The value `fmt.Errorf(text + ": %w", err)`. -/
def wrapError (text : String) (err : Err) : Err :=
  .other "*fmt.wrapError" (text ++ ": " ++ err.Error)

/-- The first switch of `NewHandler`, on `cfg.Engine.Type`: the teardown to go on with,
or the early return, and the calls made. -/
def initEngine (env : StartupEnv) (cfg : Config) : Except StartupResult Teardown × List StartupCall :=
  if cfg.EngineType = "bleve" then
    match env.NewBleveIndex cfg.BleveDatapath with
    | some err => (.error (.returned none .noop (some err)), [.newBleveIndex cfg.BleveDatapath])
    | none => (.ok (.closeIndex cfg.BleveDatapath), [.newBleveIndex cfg.BleveDatapath, .newBleveEngine])
  else if cfg.EngineType = "open-search" then
    match env.OpenSearchNewClient with
    | some err =>
      (.error (.returned none .noop (some (wrapError "failed to create OpenSearch client" err))),
        [.opensearchNewClient])
    | none =>
      match env.OpenSearchNewEngine with
      | some err =>
        (.error (.returned none .noop (some (wrapError "failed to create OpenSearch engine" err))),
          [.opensearchNewClient, .opensearchNewEngine "opencloud-default-resource"])
      | none => (.ok .noop, [.opensearchNewClient, .opensearchNewEngine "opencloud-default-resource"])
  else
    (.error (.returned none .noop (some (.errorString ("unknown search engine: " ++ cfg.EngineType)))), [])

/-- The second switch of `NewHandler`, on `cfg.Extractor.Type`: nil or the error to
return, and the calls made. -/
def initExtractor (env : StartupEnv) (cfg : Config) : Option Err × List StartupCall :=
  if cfg.ExtractorType = "basic" then (env.NewBasicExtractor, [.newBasicExtractor])
  else if cfg.ExtractorType = "tika" then (env.NewTikaExtractor, [.newTikaExtractor])
  else (some (.errorString ("unknown search extractor: " ++ cfg.ExtractorType)), [])

/-- The function `NewHandler`: the result and the trace of the calls it made. -/
def NewHandler (env : StartupEnv) (options : Options) : StartupResult × List StartupCall :=
  match initEngine env options.Config with
  | (.error r, tr) => (r, tr)
  | (.ok teardown, tr) =>
    let tr1 := tr ++ [StartupCall.gatewaySelector options.Config.RevaAddress]
    match env.GatewaySelector options.Config.RevaAddress with
    | some _ => (.exited, tr1 ++ [.logFatal "could not get reva gateway selector"])
    | none =>
      match initExtractor env options.Config with
      | (some err, tr2) => (.returned none teardown (some err), tr1 ++ tr2)
      | (none, tr2) =>
        let tr3 := tr1 ++ tr2 ++ [.searchNewService, .rawFromConfig options.Config.ServiceName]
        match env.RawFromConfig with
        | some err => (.returned none teardown (some err), tr3)
        | none =>
          let tr4 := tr3 ++ [.handleEvents]
          match env.HandleEvents with
          | some err => (.returned none teardown (some err), tr4)
          | none =>
            let tr5 := tr4 ++ [.newCache, .cacheSetTTL timeSecond]
            match env.CacheSetTTL timeSecond with
            | some err => (.returned none teardown (some err), tr5)
            | none =>
              let tr6 := tr5 ++ [.jwtNew options.JWTSecret (24 * 60 * 60)]
              match env.JwtNew options.JWTSecret with
              | some err => (.returned none teardown (some err), tr6)
              | none =>
                (.returned
                  (some
                    { service :=
                        { id := options.Config.GRPCNamespace ++ "." ++ options.Config.ServiceName
                          ServiceAccountID := options.Config.ServiceAccountID
                          ServiceAccountSecret := options.Config.ServiceAccountSecret }
                      cache := Cache.NewCache.SetTTL timeSecond })
                  teardown none, tr6)

/-- Whether a startup call is `cache.SetTTL`. -/
def StartupCall.isCacheSetTTL : StartupCall → Bool
  | .cacheSetTTL _ => true
  | _ => false

/-- An environment in which every constructor succeeds. -/
def startupEnvOk : StartupEnv :=
  { NewBleveIndex := fun _ => none
    OpenSearchNewClient := none
    OpenSearchNewEngine := none
    GatewaySelector := fun _ => none
    NewBasicExtractor := none
    NewTikaExtractor := none
    RawFromConfig := none
    HandleEvents := none
    CacheSetTTL := fun _ => none
    JwtNew := fun _ => none }

/-- An environment in which only setting the cache TTL fails. -/
def startupEnvTTLFails : StartupEnv :=
  { startupEnvOk with CacheSetTTL := fun _ => some (.other "ttlcache.Error" "cache closed") }

/-- A configuration with the bleve engine and the basic extractor. -/
def cfgBleve : Config :=
  { EngineType := "bleve"
    BleveDatapath := "/var/lib/opencloud/search"
    RevaAddress := "eu.opencloud.api.gateway"
    ExtractorType := "basic"
    ServiceName := "search"
    GRPCNamespace := "eu.opencloud.api"
    ServiceAccountID := "svc-account"
    ServiceAccountSecret := "svc-secret" }

/-- Options with the bleve configuration. -/
def optionsBleve : Options := { Config := cfgBleve, JWTSecret := "jwt-secret" }

/-- Options naming an engine that does not exist. -/
def optionsSolr : Options := { Config := { cfgBleve with EngineType := "solr" }, JWTSecret := "jwt-secret" }

/-- Options naming an extractor that does not exist. -/
def optionsOcr : Options := { Config := { cfgBleve with ExtractorType := "ocr" }, JWTSecret := "jwt-secret" }

/-! ## Event reindexer

The function `search.HandleEvents` is called by `NewHandler` and exercised by
`events_test.go`, but its body is outside the source tree. -/

/-- Modelled from the spec: the kinds of `ChangeEvent` (section 3); `ItemUploaded` is the
`events.FileUploaded` of the tests, `other` is any kind the mapping table does not list. -/
inductive EventKind where
  | ItemTrashed
  | ItemRestored
  | ItemMoved
  | ItemUploaded
  | UploadReady
  | ContainerCreated
  | FileTouched
  | FileVersionRestored
  | TagsAdded
  | TagsRemoved
  | other (name : String)
  deriving DecidableEq, Repr

/-- Modelled from the spec: a `ChangeEvent` (section 3), which carries at least the
space id and the item id. -/
structure ChangeEvent where
  kind : EventKind
  spaceID : String
  itemID : String
  deriving DecidableEq, Repr

/-- Modelled from the spec: the calls of the Engine contract (section 4.1) that the
reindexer issues on the searcher. -/
inductive EngineCall where
  | TrashItem (spaceID itemID : String)
  | MoveItem (spaceID itemID : String)
  | RestoreItem (spaceID itemID : String)
  | UpsertItem (spaceID itemID : String)
  | IndexSpace (spaceID : String)
  deriving DecidableEq, Repr

/-- The method name of an engine call, as the searcher mock of the tests names it. -/
def EngineCall.method : EngineCall → String
  | .TrashItem _ _ => "TrashItem"
  | .MoveItem _ _ => "MoveItem"
  | .RestoreItem _ _ => "RestoreItem"
  | .UpsertItem _ _ => "UpsertItem"
  | .IndexSpace _ => "IndexSpace"

/-- Modelled from the spec: the mapping table of section 4.3, the per-event body of
`search.HandleEvents`, as a pure function from the event to the ordered engine calls;
`asyncUploads` is the process-wide switch, and a kind outside the table issues no call. -/
def eventCalls (asyncUploads : Bool) (e : ChangeEvent) : List EngineCall :=
  match e.kind with
  | .ItemTrashed => [.TrashItem e.spaceID e.itemID, .IndexSpace e.spaceID]
  | .ItemMoved => [.MoveItem e.spaceID e.itemID, .IndexSpace e.spaceID]
  | .ItemRestored => [.RestoreItem e.spaceID e.itemID, .IndexSpace e.spaceID]
  | .ContainerCreated => [.IndexSpace e.spaceID]
  | .FileTouched => [.IndexSpace e.spaceID]
  | .FileVersionRestored => [.IndexSpace e.spaceID]
  | .TagsAdded => [.UpsertItem e.spaceID e.itemID, .IndexSpace e.spaceID]
  | .TagsRemoved => [.UpsertItem e.spaceID e.itemID, .IndexSpace e.spaceID]
  | .ItemUploaded => if asyncUploads then [] else [.IndexSpace e.spaceID]
  | .UploadReady => if asyncUploads then [.IndexSpace e.spaceID] else []
  | .other _ => []

/-- Modelled from the spec: the dispatch loop of `search.HandleEvents` (sections 4.3
and 9): every received event is translated into its engine calls, in order of receipt. -/
def HandleEvents (asyncUploads : Bool) : List ChangeEvent → List EngineCall
  | [] => []
  | e :: rest => eventCalls asyncUploads e ++ HandleEvents asyncUploads rest

/-- One `Entry` of the table in `events_test.go`: the mocked methods expected to be
called, the event sent, and the `AsyncUploads` setting. -/
structure EventsTestEntry where
  name : String
  mcks : List String
  kind : EventKind
  asyncUploads : Bool
  deriving DecidableEq, Repr

/-- The entries of `DescribeTable("events")` in `events_test.go`. -/
def eventsTestTable : List EventsTestEntry :=
  [ { name := "ItemTrashed", mcks := ["TrashItem", "IndexSpace"], kind := .ItemTrashed, asyncUploads := false },
    { name := "ItemMoved", mcks := ["MoveItem", "IndexSpace"], kind := .ItemMoved, asyncUploads := false },
    { name := "ItemRestored", mcks := ["RestoreItem", "IndexSpace"], kind := .ItemRestored, asyncUploads := false },
    { name := "ContainerCreated", mcks := ["IndexSpace"], kind := .ContainerCreated, asyncUploads := false },
    { name := "FileTouched", mcks := ["IndexSpace"], kind := .FileTouched, asyncUploads := false },
    { name := "FileVersionRestored", mcks := ["IndexSpace"], kind := .FileVersionRestored, asyncUploads := false },
    { name := "TagsAdded", mcks := ["UpsertItem", "IndexSpace"], kind := .TagsAdded, asyncUploads := false },
    { name := "TagsRemoved", mcks := ["UpsertItem", "IndexSpace"], kind := .TagsRemoved, asyncUploads := false },
    { name := "FileUploaded", mcks := ["IndexSpace"], kind := .ItemUploaded, asyncUploads := false },
    { name := "UploadReady", mcks := ["IndexSpace"], kind := .UploadReady, asyncUploads := true } ]

/-- What one test entry checks: the methods called for the event are the mocked ones. -/
def EventsTestEntry.passes (t : EventsTestEntry) : Bool :=
  (HandleEvents t.asyncUploads [{ kind := t.kind, spaceID := "", itemID := "" }]).map EngineCall.method
    == t.mcks

end Search

/-! # Collaboration service: `helpers.AppURLs`

The type is an option of the collaboration service (`option.go`) and is exercised by
`discovery_test.go`; its methods are outside the source tree. -/

namespace Collaboration

/-- Modelled from the spec: the Go map `map[string]map[string]string` handed to `Store`,
action to (extension to URL), as association lists; the extension map of an action may
be nil. A Go map has each key once. -/
abbrev URLMap := List (String × Option (List (String × String)))

/-- Modelled from the spec: the type `helpers.AppURLs` (its declaration is outside the
source tree): it holds the map last stored. -/
structure AppURLs where
  urls : URLMap
  deriving DecidableEq, Repr

/-- Modelled from the spec: the constructor `helpers.NewAppURLs`, which the tests expect
to start with an empty map. -/
def NewAppURLs : AppURLs := { urls := [] }

/-- Modelled from the spec: the method `Store`, which replaces the whole map. -/
def AppURLs.Store (_a : AppURLs) (urls : URLMap) : AppURLs := { urls := urls }

/-- Modelled from the spec: the method `GetAppURLFor`: the URL stored for the action and
the extension, the empty string when either lookup fails. -/
def AppURLs.GetAppURLFor (a : AppURLs) (action fileExt : String) : String :=
  match a.urls.lookup action with
  | some (some extensions) =>
    match extensions.lookup fileExt with
    | some url => url
    | none => ""
  | _ => ""

/-- The mime type `GetMimeTypes` skips. -/
def octetStream : String := "application/octet-stream"

/-- The extensions stored under any action, in map order, with repetitions. -/
def storedExtensions (urls : URLMap) : List String :=
  urls.flatMap fun entry =>
    match entry.2 with
    | some extensions => extensions.map Prod.fst
    | none => []

/-- Modelled from the spec: the method `GetMimeTypes`: the mime type detected for every
stored extension, without `application/octet-stream` and without repetitions. The
detection by extension (`detect`) is a function of a library; the order of the result
is not fixed by the tests. -/
def AppURLs.GetMimeTypes (detect : String → String) (a : AppURLs) : List String :=
  (((storedExtensions a.urls).map detect).filter (fun m => m ≠ octetStream)).dedup

/-- A detection table for the extensions of the tests; unknown extensions give
`application/octet-stream`. -/
def detectSample (ext : String) : String :=
  if ext = ".pdf" then "application/pdf"
  else if ext = ".txt" then "text/plain"
  else if ext = ".html" then "text/html"
  else if ext = ".docx" then "application/vnd.openxmlformats-officedocument.wordprocessingml.document"
  else octetStream

/-- The map of the test "should deduplicate mime types across actions". -/
def urlsDedupTest : URLMap :=
  [ ("view", some [(".pdf", "https://example.com/view/pdf"), (".txt", "https://example.com/view/txt")]),
    ("edit", some [(".pdf", "https://example.com/edit/pdf"), (".txt", "https://example.com/edit/txt")]) ]

/-- The map of the test "should handle nil action maps gracefully", with an empty map
added. -/
def urlsNilTest : URLMap := [("view", none), ("edit", some [])]

end Collaboration

/-! # Server commands (`services/search/pkg/command/server.go`,
`services/storage-users/pkg/command/server.go`) -/

namespace Command

/-- Modelled from the spec: the type `runner.Result` of `pkg/runner` (declared outside the
source tree): the id of a runner and the error it ended with, nil when it ended cleanly. -/
structure Result where
  RunnerID : String
  RunnerError : Option Search.Err
  deriving DecidableEq, Repr

/-- The loop that ends the `Action` of both server commands: the first non-nil
`RunnerError` in the order of the results, nil when there is none. -/
def firstRunnerError : List Result → Option Search.Err
  | [] => none
  | grResult :: rest =>
    match grResult.RunnerError with
    | some err => some err
    | none => firstRunnerError rest

/-- What the `Action` of the search command does that is visible outside it. -/
inductive ActionCall where
  | getServiceTraceProvider
  | newClient
  | notifyContext
  | grpcServer
  | logInfo (msg : String)
  | addRunner (name : String)
  | debugServer
  | run
  | teardown
  | cancel
  deriving DecidableEq, Repr

/-- The collaborators of the `Action` of the search command: the outcome of each setup
step (nil or its error), whether `cfg.Context` is already set, and the results the
runner group returns from `Run`. -/
structure ActionEnv where
  GetServiceTraceProvider : Option Search.Err
  NewClient : Option Search.Err
  contextSet : Bool
  grpcServer : Option Search.Err
  debugServer : Option Search.Err
  Run : List Result

/-- The deferred calls of the `Action` once the context and the gRPC server were set up,
in the order they run: `teardown`, then `cancel` when the context was created here. -/
def deferred (env : ActionEnv) : List ActionCall :=
  ActionCall.teardown :: (if env.contextSet then [] else [ActionCall.cancel])

/-- The `Action` of the search `server` command: the error it returns and the calls it
made. -/
def searchAction (env : ActionEnv) : Option Search.Err × List ActionCall :=
  match env.GetServiceTraceProvider with
  | some err => (some err, [.getServiceTraceProvider])
  | none =>
    match env.NewClient with
    | some err => (some err, [.getServiceTraceProvider, .newClient])
    | none =>
      let tr := [ActionCall.getServiceTraceProvider, .newClient]
        ++ (if env.contextSet then [] else [ActionCall.notifyContext]) ++ [.grpcServer]
      match env.grpcServer with
      | some err => (some err, tr ++ [.logInfo "Failed to initialize server"] ++ deferred env)
      | none =>
        let tr1 := tr ++ [.addRunner "search_grpc", .debugServer]
        match env.debugServer with
        | some err => (some err, tr1 ++ [.logInfo "Failed to initialize server"] ++ deferred env)
        | none =>
          (firstRunnerError env.Run, tr1 ++ [.addRunner "search_debug", .run] ++ deferred env)

/-- A run in which the gRPC runner ends cleanly and the debug runner fails. -/
def actionEnvDebugFails : ActionEnv :=
  { GetServiceTraceProvider := none
    NewClient := none
    contextSet := false
    grpcServer := none
    debugServer := none
    Run := [{ RunnerID := "search_grpc", RunnerError := none },
      { RunnerID := "search_debug", RunnerError := some (.errorString "listen: address in use") }] }

end Command

/-! # Storage-users driver tables (`services/storage-users/pkg/revaconfig/user.go`) -/

namespace StorageUsers

/-- The field of `config.Config` the driver tables read themselves; the rest of the
configuration is read by the driver constructors only. -/
structure Config where
  PosixWatchFS : Bool
  deriving DecidableEq, Repr

/-- The driver constructors of the package `revaconfig` (declared outside the source
tree), each giving the configuration of one driver; `δ` is the type of such a
configuration (`map[string]interface{}` in the source). -/
structure Drivers (δ : Type) where
  EOS : Config → δ
  EOSHome : Config → δ
  EOSGRPC : Config → δ
  Local : Config → δ
  LocalHome : Config → δ
  OwnCloudSQL : Config → δ
  Decomposed : Config → δ
  DecomposedNoEvents : Config → δ
  DecomposedS3 : Config → δ
  DecomposedS3NoEvents : Config → δ
  Posix : Config → Bool → Bool → δ

/-- The function `StorageProviderDrivers`: the map literal, entry by entry. -/
def StorageProviderDrivers {δ : Type} (d : Drivers δ) (cfg : Config) : List (String × δ) :=
  [ ("eos", d.EOS cfg),
    ("eoshome", d.EOSHome cfg),
    ("eosgrpc", d.EOSGRPC cfg),
    ("local", d.Local cfg),
    ("localhome", d.LocalHome cfg),
    ("owncloudsql", d.OwnCloudSQL cfg),
    ("decomposed", d.DecomposedNoEvents cfg),
    ("decomposeds3", d.DecomposedS3NoEvents cfg),
    ("posix", d.Posix cfg true cfg.PosixWatchFS),
    ("ocis", d.Decomposed cfg),
    ("s3ng", d.DecomposedS3NoEvents cfg) ]

/-- The function `DataProviderDrivers`: the map literal, entry by entry. -/
def DataProviderDrivers {δ : Type} (d : Drivers δ) (cfg : Config) : List (String × δ) :=
  [ ("eos", d.EOS cfg),
    ("eoshome", d.EOSHome cfg),
    ("eosgrpc", d.EOSGRPC cfg),
    ("local", d.Local cfg),
    ("localhome", d.LocalHome cfg),
    ("owncloudsql", d.OwnCloudSQL cfg),
    ("decomposed", d.Decomposed cfg),
    ("decomposeds3", d.DecomposedS3 cfg),
    ("posix", d.Posix cfg false false),
    ("ocis", d.Decomposed cfg),
    ("s3ng", d.DecomposedS3NoEvents cfg) ]

/-- A driver configuration named by the constructor call that makes it. -/
inductive DriverTerm where
  | EOS (cfg : Config)
  | EOSHome (cfg : Config)
  | EOSGRPC (cfg : Config)
  | Local (cfg : Config)
  | LocalHome (cfg : Config)
  | OwnCloudSQL (cfg : Config)
  | Decomposed (cfg : Config)
  | DecomposedNoEvents (cfg : Config)
  | DecomposedS3 (cfg : Config)
  | DecomposedS3NoEvents (cfg : Config)
  | Posix (cfg : Config) (useSpaceGroups watchFS : Bool)
  deriving DecidableEq, Repr

/-- The constructors read as names: two configurations are the same exactly when the
same constructor made them from the same arguments. -/
def namedDrivers : Drivers DriverTerm :=
  { EOS := .EOS
    EOSHome := .EOSHome
    EOSGRPC := .EOSGRPC
    Local := .Local
    LocalHome := .LocalHome
    OwnCloudSQL := .OwnCloudSQL
    Decomposed := .Decomposed
    DecomposedNoEvents := .DecomposedNoEvents
    DecomposedS3 := .DecomposedS3
    DecomposedS3NoEvents := .DecomposedS3NoEvents
    Posix := .Posix }

/-- A configuration with file-system watching off. -/
def cfg0 : Config := { PosixWatchFS := false }

end StorageUsers

/-! # Configuration validation (`services/graph/pkg/config/parser/parse.go`,
`services/groups/pkg/config/parser/parse.go`) -/

namespace Validation

/-- An `error` returned by a `Validate` function, by the expression that makes it. -/
inductive CfgErr where
  /-- A constructor of the package `shared` (`MissingJWTTokenError`,
  `MissingLDAPBindPassword`, `MissingServiceAccountID`, `MissingServiceAccountSecret`)
  applied to the service name; each returns a non-nil error. -/
  | shared (constructor : String) (service : String)
  /-- The value `fmt.Errorf(text)`, without a wrapped error. -/
  | errorf (text : String)
  /-- The value `fmt.Errorf(text + "%w ", cause)` around the error of a library call. -/
  | wrapf (text : String) (cause : String)
  /-- The value `fmt.Errorf("%w: %s", unifiedrole.ErrUnknownRole, uid)`. -/
  | unknownRole (uid : String)
  /-- The value `errors.Join(nil, next)`: a join of one error. -/
  | joinNil (next : CfgErr)
  /-- The value `errors.Join(prev, next)` with both non-nil: a join of two errors. -/
  | join (prev : CfgErr) (next : CfgErr)
  deriving DecidableEq, Repr

/-- The function `errors.Join(err, next)` as the role loop calls it: `err` may be nil,
`next` never is. -/
def errorsJoin (err : Option CfgErr) (next : CfgErr) : CfgErr :=
  match err with
  | none => .joinNil next
  | some prev => .join prev next

/-- The test `errors.Is(err, unifiedrole.ErrUnknownRole)`: the error tree is walked
through joins and `%w` wraps. -/
def CfgErr.isUnknownRole : CfgErr → Bool
  | .unknownRole _ => true
  | .joinNil next => next.isUnknownRole
  | .join prev next => prev.isUnknownRole || next.isUnknownRole
  | _ => false

/-- The role ids an error reports, in the order its `Error()` text lists them: one per
wrapped `ErrUnknownRole`. -/
def CfgErr.unknownIds : CfgErr → List String
  | .unknownRole uid => [uid]
  | .joinNil next => next.unknownIds
  | .join prev next => prev.unknownIds ++ next.unknownIds
  | _ => []

/-- The method `Error()`; `roleText` is the text of `unifiedrole.ErrUnknownRole`, and a
join lists its errors one per line. -/
def CfgErr.Error (roleText : String) : CfgErr → String
  | .shared constructor service => constructor ++ "(" ++ service ++ ")"
  | .errorf text => text
  | .wrapf text cause => text ++ cause ++ " "
  | .unknownRole uid => roleText ++ ": " ++ uid
  | .joinNil next => next.Error roleText
  | .join prev next => prev.Error roleText ++ "\n" ++ next.Error roleText

end Validation

namespace Graph

open Validation

/-- The LDAP settings `validateLDAPSettings` reads. -/
structure LDAP where
  BindPassword : String
  WriteEnabled : Bool
  GroupCreateBaseDN : String
  GroupBaseDN : String
  deriving DecidableEq, Repr

/-- The fields of the graph `config.Config` that `Validate` reads (the type is declared
outside the source tree); pointer fields are the structures `EnsureDefaults` allocated. -/
structure Config where
  ServiceName : String
  JWTSecret : String
  IdentityBackend : String
  MultiTenantEnabled : Bool
  LDAP : LDAP
  ApplicationID : String
  UsernameMatch : String
  ServiceAccountID : String
  ServiceAccountSecret : String
  AvailableRoles : List String
  deriving DecidableEq, Repr

/-- What `Validate` calls outside the source tree: the DN parser and the ancestor test of
the LDAP library, the table of known unified roles (`knownRole uid` is
`len(unifiedrole.GetRoles(unifiedrole.RoleFilterIDs(uid))) != 0`), and
`defaults.BaseConfigPath()`. A parsed DN is the list of its components. -/
structure Lib where
  ParseDN : String → Except String (List String)
  AncestorOfFold : List String → List String → Bool
  knownRole : String → Bool
  BaseConfigPath : String

/-- The function `validateLDAPSettings`. -/
def validateLDAPSettings (lib : Lib) (cfg : Config) : Option CfgErr :=
  if cfg.LDAP.BindPassword = "" then
    some (.shared "MissingLDAPBindPassword" cfg.ServiceName)
  else if cfg.LDAP.WriteEnabled && cfg.LDAP.GroupCreateBaseDN != cfg.LDAP.GroupBaseDN then
    match lib.ParseDN cfg.LDAP.GroupBaseDN with
    | .error err =>
      some (.wrapf ("Unable to parse the LDAP Group Base DN '" ++ cfg.LDAP.GroupBaseDN ++ "': ") err)
    | .ok baseDN =>
      match lib.ParseDN cfg.LDAP.GroupCreateBaseDN with
      | .error err =>
        some (.wrapf ("Unable to parse the LDAP Group Create Base DN '"
          ++ cfg.LDAP.GroupCreateBaseDN ++ "': ") err)
      | .ok createBaseDN =>
        if !lib.AncestorOfFold baseDN createBaseDN then
          some (.errorf ("The LDAP Group Create Base DN (" ++ cfg.LDAP.GroupCreateBaseDN
            ++ ") must be subordinate to the LDAP Group Base DN (" ++ cfg.LDAP.GroupBaseDN ++ ")"))
        else none
  else none

/-- The loop of `Validate` over `cfg.UnifiedRoles.AvailableRoles`: every unknown role id
joins one error to `err`. -/
def validateRoles (lib : Lib) : List String → Option CfgErr → Option CfgErr
  | [], err => err
  | uid :: rest, err =>
    if lib.knownRole uid then validateRoles lib rest err
    else validateRoles lib rest (some (errorsJoin err (.unknownRole uid)))

/-- The text of the two errors that name the configuration path. -/
def configHint (what : String) (lib : Lib) : String :=
  what ++ " graph. Make sure your " ++ lib.BaseConfigPath
    ++ " config contains the proper values (e.g. by running opencloud init or setting it manually in the config/corresponding environment variable)."

/-- The function `Validate` of the graph service. -/
def Validate (lib : Lib) (cfg : Config) : Option CfgErr :=
  if cfg.JWTSecret = "" then some (.shared "MissingJWTTokenError" cfg.ServiceName)
  else if !(["ldap", "cs3"].contains cfg.IdentityBackend) then
    some (.errorf ("'" ++ cfg.IdentityBackend
      ++ "' is not a valid identity backend\tfor the 'graph' service"))
  else if cfg.MultiTenantEnabled && cfg.IdentityBackend != "cs3" then
    some (.errorf
      "Multi-tenant support is enabled. The identity backend must be set to 'cs3' for the 'graph' service.")
  else
    match (if cfg.IdentityBackend = "ldap" then validateLDAPSettings lib cfg else none) with
    | some err => some err
    | none =>
      if cfg.ApplicationID = "" then
        some (.errorf (configHint "The application ID has not been configured for" lib))
      else if !(cfg.UsernameMatch = "default" || cfg.UsernameMatch = "none") then
        some (.errorf (configHint "The username match validator is invalid for" lib))
      else if cfg.ServiceAccountID = "" then
        some (.shared "MissingServiceAccountID" cfg.ServiceName)
      else if cfg.ServiceAccountSecret = "" then
        some (.shared "MissingServiceAccountSecret" cfg.ServiceName)
      else validateRoles lib cfg.AvailableRoles none

/-- The checks of `Validate` that come before the role loop. -/
def passesEarlierChecks (lib : Lib) (cfg : Config) : Prop :=
  cfg.JWTSecret ≠ "" ∧ (cfg.IdentityBackend = "ldap" ∨ cfg.IdentityBackend = "cs3")
    ∧ (cfg.MultiTenantEnabled = true → cfg.IdentityBackend = "cs3")
    ∧ (cfg.IdentityBackend = "ldap" → validateLDAPSettings lib cfg = none)
    ∧ cfg.ApplicationID ≠ ""
    ∧ (cfg.UsernameMatch = "default" ∨ cfg.UsernameMatch = "none")
    ∧ cfg.ServiceAccountID ≠ "" ∧ cfg.ServiceAccountSecret ≠ ""

/-- A library in which DNs are split at commas, a DN is an ancestor of the DNs that end
with it, and the known roles are `viewer` and `editor`. -/
def libSample : Lib :=
  { ParseDN := fun dn => if dn = "" then .error "empty DN" else .ok (dn.splitOn ",")
    AncestorOfFold := fun base dn => base.isSuffixOf dn
    knownRole := fun uid => uid = "viewer" || uid = "editor"
    BaseConfigPath := "/etc/opencloud" }

/-- A valid single-tenant configuration on the `cs3` backend. -/
def cfgValid : Config :=
  { ServiceName := "graph"
    JWTSecret := "jwt-secret"
    IdentityBackend := "cs3"
    MultiTenantEnabled := false
    LDAP := { BindPassword := "", WriteEnabled := false, GroupCreateBaseDN := "", GroupBaseDN := "" }
    ApplicationID := "app-id"
    UsernameMatch := "default"
    ServiceAccountID := "svc-account"
    ServiceAccountSecret := "svc-secret"
    AvailableRoles := ["viewer", "editor"] }

/-- The valid configuration listing two unknown roles around a known one. -/
def cfgUnknownRoles : Config := { cfgValid with AvailableRoles := ["ghost", "viewer", "phantom"] }

/-- A multi-tenant configuration on the `ldap` backend. -/
def cfgMultiTenantLDAP : Config :=
  { cfgValid with
    IdentityBackend := "ldap"
    MultiTenantEnabled := true
    LDAP := { BindPassword := "pw", WriteEnabled := false, GroupCreateBaseDN := "", GroupBaseDN := "" } }

end Graph

namespace Groups

open Validation

/-- The fields of the groups `config.Config` that `Validate` reads (the type is declared
outside the source tree). -/
structure Config where
  ServiceName : String
  JWTSecret : String
  MultiTenantEnabled : Bool
  Driver : String
  LDAPBindPassword : String
  deriving DecidableEq, Repr

/-- The function `Validate` of the groups service. -/
def Validate (cfg : Config) : Option CfgErr :=
  if cfg.JWTSecret = "" then some (.shared "MissingJWTTokenError" cfg.ServiceName)
  else if cfg.MultiTenantEnabled && cfg.Driver != "null" then
    some (.errorf
      "Multi-tenant support is enabled. Only the 'null'-driver is supported by 'groups' service.")
  else if cfg.LDAPBindPassword = "" && cfg.Driver = "ldap" then
    some (.shared "MissingLDAPBindPassword" cfg.ServiceName)
  else none

/-- An LDAP configuration with a bind password. -/
def cfgLDAP : Config :=
  { ServiceName := "groups", JWTSecret := "jwt-secret", MultiTenantEnabled := false,
    Driver := "ldap", LDAPBindPassword := "pw" }

end Groups

/-! # Proxy: the `CreateHome` middleware (`services/proxy/pkg/middleware/create_home.go`) -/

namespace Proxy

/-- The enum value `rpc.Code_CODE_OK`. -/
def CODE_OK : Nat := 1

/-- The enum value `rpc.Code_CODE_ALREADY_EXISTS`. -/
def CODE_ALREADY_EXISTS : Nat := 7

/-- The message `userv1beta1.UserId`, as far as the middleware reads it. -/
structure UserId where
  OpaqueId : String
  deriving DecidableEq, Repr

/-- The message `userv1beta1.User`: its `Id`, a pointer that may be nil, and what reading
the `roles` entry of its `Opaque` as JSON gives (`utils.ReadJSONFromOpaque`): the role
ids, or an error. -/
structure User where
  Id : Option UserId
  roles : Except Search.Err (List String)

/-- One entry of an `Opaque` map: key, decoder and value. -/
structure OpaqueEntry where
  key : String
  decoder : String
  value : String
  deriving DecidableEq, Repr

/-- The message `provider.CreateHomeRequest`: its `Opaque`, nil when not set. -/
structure CreateHomeRequest where
  Opaque : Option (List OpaqueEntry)
  deriving DecidableEq, Repr

/-- The call `utils.AppendPlainToOpaque(nil, key, value)`: a new opaque with one plain
entry. -/
def appendPlainToOpaque (key value : String) : Option (List OpaqueEntry) :=
  some [{ key := key, decoder := "plain", value := value }]

/-- The call `strconv.FormatUint(limit, 10)`. -/
def formatUint (limit : Nat) : String := String.mk (Search.formatNat limit)

/-- The request as the middleware reads it: method and path, the value of the token
header (empty when absent) and the result of `revactx.ContextGetUser`: `none` when the
context holds no user (`ok` is false), `some none` when it holds a nil `*User`, and
`some (some u)` when it holds the user `u`. -/
structure Request where
  Method : String
  Path : String
  token : String
  user : Option (Option User)

/-- The message `provider.CreateHomeResponse`: its `Status`, a pointer that may be nil. -/
structure CreateHomeResponse where
  Status : Option Search.Status
  deriving DecidableEq, Repr

/-- The middleware and its collaborators: the configured role quotas (a `uint64` per
role id), the order in which Go ranges over the map that deduplicates the role ids, the
gateway selector (the error of `Next`, if any) and the gateway: `CreateHome` returns an
error, or a `*CreateHomeResponse` that may be nil. -/
structure createHome where
  roleQuotas : String → Option Nat
  mapOrder : List String → List String
  gatewayNext : Option Search.Err
  CreateHome : CreateHomeRequest → Except Search.Err (Option CreateHomeResponse)

/-- What `ServeHTTP` does that is visible outside it. -/
inductive Effect where
  | spanStart (name : String)
  | spanEnd
  | next
  | logError (msg : String)
  | render (status : Nat) (msg : String)
  | gatewayNext
  | CreateHome (req : CreateHomeRequest)
  deriving DecidableEq, Repr

/-- How a run of `ServeHTTP` ends: the effects in order, and whether it returned or
panicked on a nil pointer (the deferred `span.End()` runs in both cases). -/
structure Served where
  effects : List Effect
  panicked : Bool
  deriving DecidableEq, Repr

/-- The method `shouldServe`: the request carries a token. -/
def createHome.shouldServe (_m : createHome) (req : Request) : Bool := req.token != ""

/-- The method `getUserRoles` on a user that is not nil: the role ids of the user without
repetitions, in the order the map of ids is ranged over. -/
def createHome.getUserRoles (m : createHome) (user : User) : Except Search.Err (List String) :=
  match user.roles with
  | .error err => .error err
  | .ok roleIDs => .ok (m.mapOrder roleIDs.dedup)

/-- The method `checkRoleQuotaLimit`: the quota of the first role id, if it has one. -/
def createHome.checkRoleQuotaLimit (m : createHome) (roleIDs : List String) : Nat × Bool :=
  match roleIDs with
  | [] => (0, false)
  | id :: _ =>
    match m.roleQuotas id with
    | some quota => (quota, true)
    | none => (0, false)

/-- The request `ServeHTTP` builds for a user with the given role ids. -/
def createHome.requestFor (m : createHome) (roleIDs : List String) : CreateHomeRequest :=
  if (m.checkRoleQuotaLimit roleIDs).2 then
    { Opaque := appendPlainToOpaque "quota" (formatUint (m.checkRoleQuotaLimit roleIDs).1) }
  else { Opaque := none }

/-- The end of `ServeHTTP`, from the gateway selection on: the gateway calls and their
log lines, then `span.End()`, the next handler, and the deferred `span.End()`. The
expression `createHomeRes.Status.Code` is read without a nil check: on a nil response or
a response with a nil `Status` the method panics there, after the `CreateHome` call and
before the next handler, and only the deferred `span.End()` still runs. -/
def createHome.callGateway (m : createHome) (createHomeReq : CreateHomeRequest) : Served :=
  match m.gatewayNext with
  | some _ =>
    { effects := [.gatewayNext, .logError "error selecting next gateway client",
        .spanEnd, .next, .spanEnd]
      panicked := false }
  | none =>
    match m.CreateHome createHomeReq with
    | .error _ =>
      { effects := [.gatewayNext, .CreateHome createHomeReq, .logError "error calling CreateHome",
          .spanEnd, .next, .spanEnd]
        panicked := false }
    | .ok none =>
      { effects := [.gatewayNext, .CreateHome createHomeReq, .spanEnd], panicked := true }
    | .ok (some createHomeRes) =>
      match createHomeRes.Status with
      | none =>
        { effects := [.gatewayNext, .CreateHome createHomeReq, .spanEnd], panicked := true }
      | some st =>
        if st.Code ≠ CODE_OK then
          if st.Code ≠ CODE_ALREADY_EXISTS then
            { effects := [.gatewayNext, .CreateHome createHomeReq,
                .logError "error when calling Createhome", .spanEnd, .next, .spanEnd]
              panicked := false }
          else
            { effects := [.gatewayNext, .CreateHome createHomeReq, .spanEnd, .next, .spanEnd]
              panicked := false }
        else
          { effects := [.gatewayNext, .CreateHome createHomeReq, .spanEnd, .next, .spanEnd]
            panicked := false }

/-- The method `ServeHTTP`: the effects in order, and whether it panicked. With a user in
the context, `getUserRoles` reads `user.Opaque` and panics on a nil user; when the roles
cannot be read, the log line reads `u.Id.OpaqueId` and panics on a nil `Id`, before
anything is logged or rendered. In both cases only the deferred `span.End()` still
runs. -/
def createHome.ServeHTTP (m : createHome) (req : Request) : Served :=
  let start := Effect.spanStart (req.Method ++ " " ++ req.Path)
  if !m.shouldServe req then { effects := [start, .spanEnd, .next, .spanEnd], panicked := false }
  else
    match req.user with
    | some none => { effects := [start, .spanEnd], panicked := true }
    | some (some u) =>
      match m.getUserRoles u with
      | .error _ =>
        match u.Id with
        | none => { effects := [start, .spanEnd], panicked := true }
        | some _ =>
          { effects := [start, .logError "failed to get roles for user",
              .render 500 "Unauthorized", .spanEnd]
            panicked := false }
      | .ok roleIDs =>
        { effects := start :: (m.callGateway (m.requestFor roleIDs)).effects
          panicked := (m.callGateway (m.requestFor roleIDs)).panicked }
    | none =>
      { effects := start :: (m.callGateway { Opaque := none }).effects
        panicked := (m.callGateway { Opaque := none }).panicked }

/-- The request of the `CreateHome` call in a list of effects, if there is one. -/
def sentRequest : List Effect → Option CreateHomeRequest
  | [] => none
  | .CreateHome req :: _ => some req
  | _ :: rest => sentRequest rest

/-- A middleware with a quota of 5 GB for the role `user`, a reachable gateway, and a home
that already exists. -/
def mwSample : createHome :=
  { roleQuotas := fun id => if id = "user" then some 5000000000 else none
    mapOrder := fun ids => ids
    gatewayNext := none
    CreateHome := fun _ => .ok (some { Status := some { Code := 7, Message := "" } }) }

/-- A middleware whose gateway cannot be selected. -/
def mwNoGateway : createHome :=
  { mwSample with gatewayNext := some (.errorString "no gateway") }

/-- A middleware whose gateway answers `CreateHome` with a response without `Status` (and
a nil error). -/
def mwNoStatus : createHome :=
  { mwSample with CreateHome := fun _ => .ok (some { Status := none }) }

/-- A middleware whose gateway answers `CreateHome` with a nil response (and a nil
error). -/
def mwNilResponse : createHome :=
  { mwSample with CreateHome := fun _ => .ok none }

/-- A request with a token of a user who has the role `user` listed twice. -/
def reqUser : Request :=
  { Method := "GET", Path := "/", token := "tok",
    user := some (some { Id := some { OpaqueId := "alice" }, roles := .ok ["user", "user"] }) }

/-- A request without a token. -/
def reqAnonymous : Request := { Method := "GET", Path := "/", token := "", user := none }

/-- A request with a token of a user whose roles cannot be read. -/
def reqBrokenRoles : Request :=
  { Method := "GET", Path := "/", token := "tok",
    user := some (some {
      Id := some { OpaqueId := "alice" }
      roles := .error (.errorString "not found") }) }

/-- A request with a token of a user without `Id` whose roles cannot be read. -/
def reqBrokenRolesNoId : Request :=
  { Method := "GET", Path := "/", token := "tok",
    user := some (some { Id := none, roles := .error (.errorString "not found") }) }

/-- A request with a token whose context holds a nil user. -/
def reqNilUser : Request := { Method := "GET", Path := "/", token := "tok", user := some none }

end Proxy

/-! # Graph: shares received by the user (`services/graph/pkg/service/v0/sharedwithme.go`) -/

namespace Graph

/-- A received share as the gateway lists it; the conversion to drive items reads it, the
function here only hands it on. -/
structure ReceivedShare where
  id : String
  deriving DecidableEq, Repr

/-- The response of `ListReceivedShares` and of `ListReceivedOCMShares`: status and
shares. -/
structure ListSharesResponse where
  Status : Option Search.Status
  Shares : List ReceivedShare
  deriving DecidableEq, Repr

/-- Generated getter `GetStatus` of a list response: nil-safe. -/
def ListSharesResponse.GetStatus : Option ListSharesResponse → Option Search.Status
  | some r => r.Status
  | none => none

/-- Generated getter `GetShares` of a list response: nil-safe. -/
def ListSharesResponse.GetShares : Option ListSharesResponse → List ReceivedShare
  | some r => r.Shares
  | none => []

/-- The type `libregraph.Thumbnail` (only the URL is set here). -/
structure Thumbnail where
  Url : Option String
  deriving DecidableEq, Repr

/-- The type `libregraph.ThumbnailSet`. -/
structure ThumbnailSet where
  Small : Option Thumbnail
  Medium : Option Thumbnail
  Large : Option Thumbnail
  deriving DecidableEq, Repr

/-- The type `libregraph.OpenGraphFile` (only the mime type is read). -/
structure OpenGraphFile where
  MimeType : Option String
  deriving DecidableEq, Repr

/-- The type `libregraph.RemoteItem` (only the id is read). -/
structure RemoteItem where
  Id : Option String
  deriving DecidableEq, Repr

/-- The type `libregraph.DriveItem`: the fields read or written here, and `Name` standing
for the fields that are only carried along. -/
structure DriveItem where
  Name : Option String
  File : Option OpenGraphFile
  RemoteItem : Option RemoteItem
  Thumbnails : List ThumbnailSet
  deriving DecidableEq, Repr

/-- Generated getter `(*DriveItem).GetFile`: the file, the zero value when unset. -/
def DriveItem.GetFile (item : DriveItem) : OpenGraphFile :=
  match item.File with
  | some f => f
  | none => { MimeType := none }

/-- Generated getter `(*RemoteItem).GetId`: nil-safe. -/
def RemoteItem.GetId : Option RemoteItem → String
  | some { Id := some id } => id
  | _ => ""

/-- An `error` returned by `listSharedWithMe`. -/
inductive GraphErr where
  /-- An error of a collaborator returned as it is. -/
  | raw (e : Search.Err)
  /-- The graph error `FromCS3Status` makes from a transport error. -/
  | fromError (msg : String)
  /-- The graph error `FromCS3Status` makes from a status that is not OK. -/
  | fromStatus (code : Nat) (msg : String)
  deriving DecidableEq, Repr

/-- Modelled from the spec: the helper `errorcode.FromCS3Status(status, err)` of the graph
service (declared outside the source tree): a graph error for a transport error, else
nil exactly when the status code is OK, else a graph error for the status. -/
def FromCS3Status (status : Option Search.Status) (inerr : Option Search.Err) : Option GraphErr :=
  match inerr with
  | some err => some (.fromError err.Error)
  | none =>
    if Search.Status.GetCode status = Search.CODE_OK then none
    else some (.fromStatus (Search.Status.GetCode status) (Search.Status.GetMessage status))

/-- The fields of the graph configuration `listSharedWithMe` reads. -/
structure ShareConfig where
  IncludeOCMSharees : Bool
  OpenCloudURL : String
  deriving DecidableEq, Repr

/-- The collaborators of `listSharedWithMe`: the gateway selector, the two listings (a Go
pair of response and error), the two conversions to drive items (functions of the graph
service declared outside the source tree), and the table `thumbnail.SupportedMimeTypes`. -/
structure ShareEnv where
  gatewayNext : Option Search.Err
  ListReceivedShares : Option ListSharesResponse × Option Search.Err
  ListReceivedOCMShares : Option ListSharesResponse × Option Search.Err
  cs3ReceivedSharesToDriveItems : List ReceivedShare → Except Search.Err (List DriveItem)
  cs3ReceivedOCMSharesToDriveItems : List ReceivedShare → Except Search.Err (List DriveItem)
  SupportedMimeTypes : String → Bool

/-- A call or log line of `listSharedWithMe`, as recorded in its trace. -/
inductive ShareCall where
  | gatewayNext
  | ListReceivedShares
  | ListReceivedOCMShares
  | logError (msg : String)
  deriving DecidableEq, Repr

/-- The thumbnail set the loop builds for an item. -/
def thumbnailSet (cfg : ShareConfig) (item : DriveItem) : ThumbnailSet :=
  let baseUrl := cfg.OpenCloudURL ++ "/dav/spaces/" ++ RemoteItem.GetId item.RemoteItem
    ++ "?scalingup=0&preview=1&processor=thumbnail"
  { Small := some { Url := some (baseUrl ++ "&x=36&y=36") }
    Medium := some { Url := some (baseUrl ++ "&x=48&y=48") }
    Large := some { Url := some (baseUrl ++ "&x=96&y=96") } }

/-- The body of the thumbnail loop for one item. -/
def expandItem (cfg : ShareConfig) (env : ShareEnv) (item : DriveItem) : DriveItem :=
  match item.GetFile.MimeType with
  | none => item
  | some mt =>
    if env.SupportedMimeTypes mt then { item with Thumbnails := [thumbnailSet cfg item] }
    else item

/-- The thumbnail loop over the drive items. -/
def expandAll (cfg : ShareConfig) (env : ShareEnv) : List DriveItem → List DriveItem
  | [] => []
  | item :: rest => expandItem cfg env item :: expandAll cfg env rest

/-- The function `listSharedWithMe`: the drive items or the error, and the trace. The
status checked after `ListReceivedOCMShares` is the one of `listReceivedSharesResponse`,
as in the source. -/
def listSharedWithMe (cfg : ShareConfig) (env : ShareEnv) (expandThumbnails : Bool) :
    Except GraphErr (List DriveItem) × List ShareCall :=
  match env.gatewayNext with
  | some err => (.error (.raw err), [.gatewayNext, .logError "could not select next gateway client"])
  | none =>
    let listReceivedSharesResponse := env.ListReceivedShares.1
    match FromCS3Status (ListSharesResponse.GetStatus listReceivedSharesResponse)
        env.ListReceivedShares.2 with
    | some err => (.error err, [.gatewayNext, .ListReceivedShares, .logError "listing shares failed"])
    | none =>
      match env.cs3ReceivedSharesToDriveItems (ListSharesResponse.GetShares listReceivedSharesResponse) with
      | .error err =>
        (.error (.raw err), [.gatewayNext, .ListReceivedShares,
          .logError "could not convert received shares to drive items"])
      | .ok driveItems =>
        if cfg.IncludeOCMSharees then
          let listReceivedOCMSharesResponse := env.ListReceivedOCMShares.1
          match FromCS3Status (ListSharesResponse.GetStatus listReceivedSharesResponse)
              env.ListReceivedOCMShares.2 with
          | some err =>
            (.error err, [.gatewayNext, .ListReceivedShares, .ListReceivedOCMShares,
              .logError "listing shares failed"])
          | none =>
            match env.cs3ReceivedOCMSharesToDriveItems
                (ListSharesResponse.GetShares listReceivedOCMSharesResponse) with
            | .error err =>
              (.error (.raw err), [.gatewayNext, .ListReceivedShares, .ListReceivedOCMShares,
                .logError "could not convert received ocm shares to drive items"])
            | .ok ocmDriveItems =>
              (.ok (if expandThumbnails then expandAll cfg env (driveItems ++ ocmDriveItems)
                  else driveItems ++ ocmDriveItems),
                [.gatewayNext, .ListReceivedShares, .ListReceivedOCMShares])
        else
          (.ok (if expandThumbnails then expandAll cfg env driveItems else driveItems),
            [.gatewayNext, .ListReceivedShares])

/-- A status that is OK. -/
def statusOK : Option Search.Status := some { Code := 1, Message := "" }

/-- A status that is not OK. -/
def statusDenied : Option Search.Status := some { Code := 8, Message := "permission denied" }

/-- A drive item for a PNG image of a remote item. -/
def itemImage : DriveItem :=
  { Name := some "photo.png", File := some { MimeType := some "image/png" },
    RemoteItem := some { Id := some "st$sp!img" }, Thumbnails := [] }

/-- A drive item for a folder: no file facet. -/
def itemFolder : DriveItem :=
  { Name := some "docs", File := none, RemoteItem := some { Id := some "st$sp!dir" }, Thumbnails := [] }

/-- A configuration with OCM sharees included. -/
def shareCfg : ShareConfig := { IncludeOCMSharees := true, OpenCloudURL := "https://cloud.example" }

/-- Both listings succeed with an OK status; the local shares convert to the image, the
OCM shares to the folder; images have thumbnails. -/
def shareEnvOk : ShareEnv :=
  { gatewayNext := none
    ListReceivedShares := (some { Status := statusOK, Shares := [{ id := "s1" }] }, none)
    ListReceivedOCMShares := (some { Status := statusOK, Shares := [{ id := "o1" }] }, none)
    cs3ReceivedSharesToDriveItems := fun shares => .ok (shares.map fun _ => itemImage)
    cs3ReceivedOCMSharesToDriveItems := fun shares => .ok (shares.map fun _ => itemFolder)
    SupportedMimeTypes := fun mt => mt = "image/png" || mt = "image/jpeg" }

/-- The OCM listing answers without a transport error but with a status that is not OK. -/
def shareEnvOCMDenied : ShareEnv :=
  { shareEnvOk with ListReceivedOCMShares := (some { Status := statusDenied, Shares := [] }, none) }

/-- The local listing answers without a transport error but with a status that is not OK. -/
def shareEnvLocalDenied : ShareEnv :=
  { shareEnvOk with ListReceivedShares := (some { Status := statusDenied, Shares := [] }, none) }

end Graph

namespace Search

/-! ### Lemmas on the rendering -/

theorem digitChar_toNat (d : Nat) (h : d < 10) : (digitChar d).toNat = 48 + d := by
  interval_cases d <;> rfl

theorem readRev_digitsRev (fuel : Nat) : ∀ n, n < fuel → readRev (digitsRev fuel n) = n := by
  induction fuel with
  | zero => intro n h; omega
  | succ f ih =>
    intro n h
    unfold digitsRev
    split
    · rename_i h10
      simp [readRev, digitChar_toNat n h10]
    · rename_i h10
      have hd : n % 10 < 10 := Nat.mod_lt _ (by decide)
      have hq : n / 10 < f := by omega
      simp only [readRev, digitChar_toNat _ hd, ih _ hq]
      omega

theorem digitsRev_isDigit (fuel : Nat) :
    ∀ n, ∀ c ∈ digitsRev fuel n, 48 ≤ c.toNat ∧ c.toNat ≤ 57 := by
  induction fuel with
  | zero => intro n c hc; simp [digitsRev] at hc
  | succ f ih =>
    intro n c hc
    unfold digitsRev at hc
    split at hc
    · rename_i h10
      simp only [List.mem_singleton] at hc
      subst hc
      rw [digitChar_toNat n h10]; omega
    · have hd : n % 10 < 10 := Nat.mod_lt _ (by decide)
      rcases List.mem_cons.mp hc with rfl | hc
      · rw [digitChar_toNat _ hd]; omega
      · exact ih _ c hc

theorem formatNat_isDigit (n : Nat) : ∀ c ∈ formatNat n, 48 ≤ c.toNat ∧ c.toNat ≤ 57 := by
  intro c hc
  exact digitsRev_isDigit _ n c (List.mem_reverse.mp hc)

theorem formatNat_injective (n m : Nat) (h : formatNat n = formatNat m) : n = m := by
  have h1 : digitsRev (n + 1) n = digitsRev (m + 1) m := List.reverse_injective h
  have h2 := congrArg readRev h1
  rwa [readRev_digitsRev _ n (Nat.lt_succ_self n), readRev_digitsRev _ m (Nat.lt_succ_self m)] at h2

theorem formatInt_no_bar (i : Int) : '|' ∉ formatInt i := by
  intro h
  cases i with
  | ofNat n =>
    have := formatNat_isDigit n _ h
    have h124 : ('|' : Char).toNat = 124 := rfl
    omega
  | negSucc n =>
    rcases List.mem_cons.mp h with h | h
    · exact absurd h (by decide)
    · have := formatNat_isDigit _ _ h
      have h124 : ('|' : Char).toNat = 124 := rfl
      omega

theorem formatNat_no_minus (n : Nat) : '-' ∉ formatNat n := by
  intro h
  have := formatNat_isDigit n _ h
  have h45 : ('-' : Char).toNat = 45 := rfl
  omega

theorem formatInt_injective (i j : Int) (h : formatInt i = formatInt j) : i = j := by
  cases i with
  | ofNat n =>
    cases j with
    | ofNat m => exact congrArg Int.ofNat (formatNat_injective n m h)
    | negSucc m =>
      exfalso
      apply formatNat_no_minus n
      show '-' ∈ formatNat n
      have h' : formatNat n = '-' :: formatNat (m + 1) := h
      rw [h']; exact List.mem_cons_self _ _
  | negSucc n =>
    cases j with
    | ofNat m =>
      exfalso
      apply formatNat_no_minus m
      have h' : '-' :: formatNat (n + 1) = formatNat m := h
      rw [← h']; exact List.mem_cons_self _ _
    | negSucc m =>
      have h' : '-' :: formatNat (n + 1) = '-' :: formatNat (m + 1) := h
      have := formatNat_injective _ _ (List.cons.inj h').2
      have : n = m := by omega
      rw [this]

/-- Two lists cut at the first occurrence of a separator agree piecewise. -/
theorem split_first (c : Char) : ∀ (a a' r r' : List Char), c ∉ a → c ∉ a' →
    a ++ c :: r = a' ++ c :: r' → a = a' ∧ r = r' := by
  intro a
  induction a with
  | nil =>
    intro a' r r' _ ha' h
    cases a' with
    | nil => simpa using h
    | cons x xs =>
      simp only [List.nil_append, List.cons_append, List.cons.injEq] at h
      exact absurd (h.1 ▸ List.mem_cons_self _ _) ha'
  | cons y ys ih =>
    intro a' r r' ha ha' h
    cases a' with
    | nil =>
      simp only [List.nil_append, List.cons_append, List.cons.injEq] at h
      exact absurd (h.1 ▸ List.mem_cons_self _ _) ha
    | cons x xs =>
      simp only [List.cons_append, List.cons.injEq] at h
      have := ih xs r r' (fun hm => ha (List.mem_cons_of_mem _ hm))
        (fun hm => ha' (List.mem_cons_of_mem _ hm)) h.2
      exact ⟨by rw [h.1, this.1], this.2⟩

/-- Two lists cut at the last occurrence of a separator agree piecewise. -/
theorem split_last (c : Char) (a a' r r' : List Char) (hr : c ∉ r) (hr' : c ∉ r')
    (h : a ++ c :: r = a' ++ c :: r') : a = a' ∧ r = r' := by
  have h' := congrArg List.reverse h
  simp only [List.reverse_append, List.reverse_cons, List.append_assoc, List.singleton_append] at h'
  have := split_first c r.reverse r'.reverse a.reverse a'.reverse
    (by simpa using hr) (by simpa using hr') h'
  exact ⟨List.reverse_injective this.2, List.reverse_injective this.1⟩

/-- The characters of a cache key. -/
theorem cacheKey_data (query : String) (pagesize : Int) (ref : Option Reference) (user : Option User) :
    (cacheKey query pagesize ref user).data =
      (keyParts query pagesize ref user).query.data ++ '|' ::
        (formatInt (keyParts query pagesize ref user).pageSize ++ '|' ::
        ((keyParts query pagesize ref user).storageId.data ++ '$' ::
          ((keyParts query pagesize ref user).spaceId.data ++ '!' ::
            ((keyParts query pagesize ref user).opaqueId.data ++ '/' ::
              ((keyParts query pagesize ref user).path.data ++ '|' ::
                (keyParts query pagesize ref user).actorId.data))))) := by
  simp [cacheKey, keyParts, String.data_append]

/-- Keys are equal exactly when their characters are. -/
theorem cacheKey_eq_iff_data (a b : String) : a = b ↔ a.data = b.data :=
  ⟨fun h => congrArg String.data h, fun h => String.ext h⟩

/-! ## The cache key -/

/-- C1 (counterexample): for one actor `u1`, the input with query `a|1`, page size 2 and
an empty storage id and the input with query `a`, page size 1 and storage id `2|`
differ in query, page size and storage id, and `cacheKey` gives both the key
`a|1|2|$!/|u1`. -/
theorem cacheKey_collision :
    keyParts "a|1" 2
        (some { ResourceId := some { StorageId := "", OpaqueId := "", SpaceId := "" }, Path := "" })
        (some { Id := some { Idp := "", OpaqueId := "u1" }, Username := "" })
      ≠ keyParts "a" 1
        (some { ResourceId := some { StorageId := "2|", OpaqueId := "", SpaceId := "" }, Path := "" })
        (some { Id := some { Idp := "", OpaqueId := "u1" }, Username := "" })
    ∧ cacheKey "a|1" 2
        (some { ResourceId := some { StorageId := "", OpaqueId := "", SpaceId := "" }, Path := "" })
        (some { Id := some { Idp := "", OpaqueId := "u1" }, Username := "" })
      = "a|1|2|$!/|u1"
    ∧ cacheKey "a" 1
        (some { ResourceId := some { StorageId := "2|", OpaqueId := "", SpaceId := "" }, Path := "" })
        (some { Id := some { Idp := "", OpaqueId := "u1" }, Username := "" })
      = "a|1|2|$!/|u1" := by
  decide

/-- C1 (amended): on inputs whose components do not contain the separator that follows
them (no `|` in the query, no `$` in the storage id, no `!` in the space id, no `/` in
the opaque id, no `|` in the actor id), `cacheKey` is injective: two such inputs that
differ in at least one component get different keys. -/
theorem cacheKey_injective_of_delimiterFree
    (query query' : String) (pagesize pagesize' : Int) (ref ref' : Option Reference)
    (user user' : Option User)
    (hfree : DelimiterFree (keyParts query pagesize ref user))
    (hfree' : DelimiterFree (keyParts query' pagesize' ref' user'))
    (hne : keyParts query pagesize ref user ≠ keyParts query' pagesize' ref' user') :
    cacheKey query pagesize ref user ≠ cacheKey query' pagesize' ref' user' := by
  intro hk
  apply hne
  have hd := congrArg String.data hk
  rw [cacheKey_data, cacheKey_data] at hd
  generalize keyParts query pagesize ref user = A at hd hfree
  generalize keyParts query' pagesize' ref' user' = B at hd hfree'
  obtain ⟨hq, hst, hsp, hop, hu⟩ := hfree
  obtain ⟨hq', hst', hsp', hop', hu'⟩ := hfree'
  obtain ⟨e1, hd⟩ := split_first '|' _ _ _ _ hq hq' hd
  obtain ⟨e2, hd⟩ := split_first '|' _ _ _ _ (formatInt_no_bar _) (formatInt_no_bar _) hd
  obtain ⟨e3, hd⟩ := split_first '$' _ _ _ _ hst hst' hd
  obtain ⟨e4, hd⟩ := split_first '!' _ _ _ _ hsp hsp' hd
  obtain ⟨e5, hd⟩ := split_first '/' _ _ _ _ hop hop' hd
  obtain ⟨e6, e7⟩ := split_last '|' _ _ _ _ hu hu' hd
  cases A; cases B
  simp only [KeyParts.mk.injEq]
  exact ⟨String.ext e1, formatInt_injective _ _ e2, String.ext e3, String.ext e4,
    String.ext e5, String.ext e6, String.ext e7⟩

/-- Witness of `cacheKey_injective_of_delimiterFree`: two actors, same request. -/
theorem cacheKey_injective_of_delimiterFree_witness :
    cacheKey "report" 25 (some ⟨some ⟨"st1", "op1", "sp1"⟩, "/docs"⟩) (some ⟨some ⟨"idp", "alice"⟩, "a"⟩)
      ≠ cacheKey "report" 25 (some ⟨some ⟨"st1", "op1", "sp1"⟩, "/docs"⟩) (some ⟨some ⟨"idp", "bob"⟩, "b"⟩) :=
  cacheKey_injective_of_delimiterFree _ _ _ _ _ _ _ _ (by decide) (by decide) (by decide)

/-- C2: `cacheKey` is injective in each component separately: two inputs that differ in
exactly one of query, page size, storage id, space id, opaque id, path and actor opaque
id (and agree on the six others) get different keys. -/
theorem cacheKey_injective_each_component
    (query query' : String) (pagesize pagesize' : Int) (ref ref' : Option Reference)
    (user user' : Option User)
    (hone : differingParts (keyParts query pagesize ref user)
      (keyParts query' pagesize' ref' user') = 1) :
    cacheKey query pagesize ref user ≠ cacheKey query' pagesize' ref' user' := by
  intro hk
  have hd := congrArg String.data hk
  rw [cacheKey_data, cacheKey_data] at hd
  generalize keyParts query pagesize ref user = A at hd hone
  generalize keyParts query' pagesize' ref' user' = B at hd hone
  have hfi : ∀ i j : Int, formatInt i = formatInt j ↔ i = j :=
    fun i j => ⟨formatInt_injective i j, fun h => by rw [h]⟩
  unfold differingParts at hone
  by_cases h1 : A.query = B.query <;> by_cases h2 : A.pageSize = B.pageSize <;>
    by_cases h3 : A.storageId = B.storageId <;> by_cases h4 : A.spaceId = B.spaceId <;>
    by_cases h5 : A.opaqueId = B.opaqueId <;> by_cases h6 : A.path = B.path <;>
    by_cases h7 : A.actorId = B.actorId <;>
    simp only [h1, h2, h3, h4, h5, h6, h7, if_true, if_false] at hone <;>
    first
    | omega
    | (simp only [h1, h2, h3, h4, h5, h6, h7, List.append_cancel_left_eq,
        List.append_cancel_right_eq, List.cons.injEq, true_and, and_true, hfi,
        ← cacheKey_eq_iff_data] at hd)

/-- Witness of `cacheKey_injective_each_component`: two actors issuing the same query
with the same page size and reference. -/
theorem cacheKey_injective_each_component_witness :
    cacheKey "a|1" 2 (some ⟨some ⟨"2|", "", "x"⟩, "/p"⟩) (some ⟨some ⟨"idp", "alice"⟩, "a"⟩)
      ≠ cacheKey "a|1" 2 (some ⟨some ⟨"2|", "", "x"⟩, "/p"⟩) (some ⟨some ⟨"idp", "al|ice"⟩, "a"⟩) :=
  cacheKey_injective_each_component _ _ _ _ _ _ _ _ (by decide)

/-! ## Lemmas on the cache -/

theorem Cache.getItem_fst_data (c : Cache) (now : Nat) (key : String) :
    (c.getItem now key).1.map Item.data = c.fresh now key := by
  unfold Cache.getItem Cache.fresh
  cases h : c.items key with
  | none => rfl
  | some it =>
    simp only
    by_cases hex : it.expired now = true
    · simp [hex]
    · by_cases hz : it.ttl = 0 ∧ c.ttl = 0
      · simp [hex, hz]
      · simp only [hex, hz, if_false, Option.map_some', Bool.false_eq_true]
        by_cases ht : it.ttl = 0 <;> simp only [ht, if_true, if_false, Item.touch] <;> split <;> rfl

theorem Cache.Get_fst (c : Cache) (now : Nat) (key : String) :
    (c.Get now key).1 = c.fresh now key := by
  simp [Cache.Get, Cache.getItem_fst_data]

theorem Cache.getItem_snd_of_fresh_none (c : Cache) (now : Nat) (key : String)
    (h : c.fresh now key = none) : (c.getItem now key).2 = c := by
  unfold Cache.fresh at h
  unfold Cache.getItem
  cases hi : c.items key with
  | none => rfl
  | some it =>
    rw [hi] at h
    simp only at h ⊢
    by_cases hex : it.expired now = true
    · simp [hex]
    · simp [hex] at h

theorem Cache.Get_snd_of_fresh_none (c : Cache) (now : Nat) (key : String)
    (h : c.fresh now key = none) : (c.Get now key).2 = c := by
  simp [Cache.Get, Cache.getItem_snd_of_fresh_none c now key h]

theorem Cache.getItem_snd_ttl (c : Cache) (now : Nat) (key : String) :
    (c.getItem now key).2.ttl = c.ttl := by
  unfold Cache.getItem
  cases c.items key with
  | none => rfl
  | some it =>
    simp only
    split_ifs <;> rfl

theorem Cache.getItem_snd_other (c : Cache) (now : Nat) (key k : String) (hk : k ≠ key) :
    (c.getItem now key).2.items k = c.items k := by
  unfold Cache.getItem
  cases c.items key with
  | none => rfl
  | some it =>
    simp only
    split_ifs <;> simp [Function.update_noteq hk]

theorem Cache.Set_ttl (c : Cache) (now : Nat) (key : String) (d : CacheValue) :
    (c.Set now key d).ttl = c.ttl := by
  simp [Cache.Set, Cache.getItem_snd_ttl]

theorem Cache.Set_other (c : Cache) (now : Nat) (key k : String) (d : CacheValue) (hk : k ≠ key) :
    (c.Set now key d).items k = c.items k := by
  simp [Cache.Set, Function.update_noteq hk, Cache.getItem_snd_other c now key k hk]

/-- After `Set` the key holds an item with the new data and the global TTL, expiring
one TTL after the write when the TTL is positive. -/
theorem Cache.Set_self (c : Cache) (now : Nat) (key : String) (d : CacheValue) :
    ∃ it, (c.Set now key d).items key = some it ∧ it.data = d ∧ it.ttl = c.ttl
      ∧ (0 < c.ttl → it.expireAt = now + c.ttl) := by
  simp only [Cache.Set, Function.update_same, Cache.getItem_snd_ttl]
  refine ⟨_, rfl, ?_, ?_, ?_⟩
  · cases (c.getItem now key).1 <;> simp [Item.touch] <;> split <;> rfl
  · cases (c.getItem now key).1 <;> simp [Item.touch] <;> split <;> rfl
  · intro hpos
    cases (c.getItem now key).1 <;> simp [Item.touch, hpos]

/-- A value written at `t` is found by a later read up to one TTL after the write. -/
theorem Cache.fresh_Set (c : Cache) (t t' : Nat) (key : String) (d : CacheValue)
    (h : t' ≤ t + c.ttl) : (c.Set t key d).fresh t' key = some d := by
  obtain ⟨it, hit, hdata, httl, hexp⟩ := Cache.Set_self c t key d
  unfold Cache.fresh
  rw [hit]
  simp only [Item.expired, httl]
  by_cases hz : c.ttl = 0
  · simp [hz, hdata]
  · have := hexp (Nat.pos_of_ne_zero hz)
    simp only [hz, if_false, this]
    have : ¬ (t + c.ttl < t') := by omega
    simp [this, hdata]

theorem Cache.OnlyResponses_NewCache : Cache.NewCache.OnlyResponses := by
  intro key it h
  simp [Cache.NewCache] at h

theorem Cache.getItem_snd_items (c : Cache) (now : Nat) (key k : String) (it' : Item)
    (h : (c.getItem now key).2.items k = some it') :
    ∃ it, c.items k = some it ∧ it'.data = it.data := by
  by_cases hk : k = key
  · subst hk
    unfold Cache.getItem at h
    cases hi : c.items k with
    | none => rw [hi] at h; simp only at h; rw [hi] at h; exact absurd h (by simp)
    | some it =>
      rw [hi] at h
      simp only at h
      refine ⟨it, rfl, ?_⟩
      split_ifs at h with h1 h2 h3
      · rw [hi] at h; rw [Option.some.inj h]
      · rw [hi] at h; rw [Option.some.inj h]
      · simp only [Function.update_same, Option.some.injEq] at h
        rw [← h]; simp only [Item.touch]; split <;> rfl
      · simp only [Function.update_same, Option.some.injEq] at h
        rw [← h]; simp only [Item.touch]; split <;> rfl
  · rw [Cache.getItem_snd_other c now key k hk] at h
    exact ⟨it', h, rfl⟩

/-- Reading a key changes no stored value: at most the expiry of the item read. -/
theorem Cache.getItem_snd_data (c : Cache) (now : Nat) (key k : String) :
    ((c.getItem now key).2.items k).map Item.data = (c.items k).map Item.data := by
  cases h : (c.getItem now key).2.items k with
  | some it' =>
    obtain ⟨it, hit, hdata⟩ := Cache.getItem_snd_items c now key k it' h
    rw [hit]; simp [hdata]
  | none =>
    by_cases hk : k = key
    · subst hk
      unfold Cache.getItem at h
      cases hi : c.items k with
      | none => rfl
      | some it =>
        exfalso
        rw [hi] at h
        simp only at h
        split_ifs at h
        · rw [hi] at h; cases h
        · rw [hi] at h; cases h
        · simp at h
        · simp at h
    · rw [Cache.getItem_snd_other c now key k hk] at h
      rw [h]

theorem Cache.OnlyResponses_getItem (c : Cache) (now : Nat) (key : String)
    (h : c.OnlyResponses) : (c.getItem now key).2.OnlyResponses := by
  intro k it' hk
  obtain ⟨it, hit, hdata⟩ := Cache.getItem_snd_items c now key k it' hk
  obtain ⟨sr, hsr⟩ := h k it hit
  exact ⟨sr, by rw [hdata, hsr]⟩

theorem Cache.OnlyResponses_Set (c : Cache) (now : Nat) (key : String) (res : Option SearchResponse)
    (h : c.OnlyResponses) : (c.Set now key (.searchResponse res)).OnlyResponses := by
  intro k it' hk
  by_cases hkk : k = key
  · subst hkk
    obtain ⟨it, hit, hdata, _⟩ := Cache.Set_self c now k (.searchResponse res)
    rw [hit] at hk
    exact ⟨res, by rw [← Option.some.inj hk, hdata]⟩
  · rw [Cache.Set_other c now key k _ hkk] at hk
    exact h k it' hk

/-- Under the invariant, a key without a cached response is absent or expired. -/
theorem Cache.fresh_none_of_miss (c : Cache) (now : Nat) (key : String) (h : c.OnlyResponses)
    (hmiss : ∀ sr, c.fresh now key ≠ some (.searchResponse sr)) : c.fresh now key = none := by
  cases hf : c.fresh now key with
  | none => rfl
  | some d =>
    exfalso
    unfold Cache.fresh at hf
    cases hi : c.items key with
    | none => rw [hi] at hf; simp at hf
    | some it =>
      rw [hi] at hf
      simp only at hf
      split_ifs at hf
      obtain ⟨sr, hsr⟩ := h key it hi
      apply hmiss sr
      unfold Cache.fresh
      rw [hi]
      simp only [*, if_false, Bool.false_eq_true]

/-! ## Lemmas on `FromCache` -/

theorem FromCache_hit (s : Service) (now : Nat) (key : String) (w : World)
    (sr : Option SearchResponse)
    (h : w.cache.fresh now key = some (.searchResponse sr)) :
    s.FromCache now key w
      = ((sr, true), { cache := (w.cache.Get now key).2, trace := w.trace ++ [Call.cacheGet key] }) := by
  simp only [Service.FromCache, Cache.Get_fst, h]

theorem FromCache_miss (s : Service) (now : Nat) (key : String) (w : World)
    (h : ∀ sr, w.cache.fresh now key ≠ some (.searchResponse sr)) :
    s.FromCache now key w
      = ((none, false), { cache := (w.cache.Get now key).2, trace := w.trace ++ [Call.cacheGet key] }) := by
  simp only [Service.FromCache, Cache.Get_fst]
  cases hf : w.cache.fresh now key with
  | none => rfl
  | some d =>
    cases d with
    | searchResponse sr => exact absurd hf (h sr)
    | foreign g => rfl

theorem cacheKey_congr_actor (query : String) (pagesize : Int) (ref : Option Reference)
    (u u' : Option User)
    (h : UserId.GetOpaqueId (User.GetId u') = UserId.GetOpaqueId (User.GetId u)) :
    cacheKey query pagesize ref u' = cacheKey query pagesize ref u := by
  simp only [cacheKey, h]

/-! ## Equations of `Service.Search`, one per path -/

theorem Search_eq_no_token (s : Service) (env : SearchEnv) (ctx : Ctx) (inp : SearchRequest)
    (out : SearchResponse) (w : World) (h : ctx.token = none) :
    s.Search env ctx inp out w
      = (.returned (some (.raw (.errorString "could not get token from context"))), out,
          w.record (.logError "Could not get token from context")) := by
  simp only [Service.Search, h]

theorem Search_eq_token_error (s : Service) (env : SearchEnv) (ctx : Ctx) (inp : SearchRequest)
    (out : SearchResponse) (w : World) (t : String) (e : Err) (ht : ctx.token = some t)
    (he : env.DismantleToken (appendToOutgoingContext ctx t) t = .error e) :
    s.Search env ctx inp out w = (.returned (some (.raw e)), out, w.record (.dismantleToken t)) := by
  simp only [Service.Search, ht, he]

theorem Search_eq_hit (s : Service) (env : SearchEnv) (ctx : Ctx) (inp : SearchRequest)
    (out : SearchResponse) (w : World) (t : String) (u : Option User) (sr : Option SearchResponse)
    (ht : ctx.token = some t)
    (hu : env.DismantleToken (appendToOutgoingContext ctx t) t = .ok u)
    (hhit : w.cache.fresh env.tLookup (cacheKey inp.Query inp.PageSize inp.Ref u)
      = some (.searchResponse sr)) :
    s.Search env ctx inp out w
      = copyResult sr out
          { cache := (w.cache.Get env.tLookup (cacheKey inp.Query inp.PageSize inp.Ref u)).2
            trace := w.trace ++ [Call.dismantleToken t,
              Call.cacheGet (cacheKey inp.Query inp.PageSize inp.Ref u)] } := by
  have hf := FromCache_hit s env.tLookup (cacheKey inp.Query inp.PageSize inp.Ref u)
    (w.record (.dismantleToken t)) sr hhit
  simp only [Service.Search, ht, hu, hf]
  simp only [World.record, List.append_assoc, List.singleton_append]

theorem Search_eq_miss_error (s : Service) (env : SearchEnv) (ctx : Ctx) (inp : SearchRequest)
    (out : SearchResponse) (w : World) (t : String) (u : Option User) (e : Err)
    (ht : ctx.token = some t)
    (hu : env.DismantleToken (appendToOutgoingContext ctx t) t = .ok u)
    (hmiss : ∀ sr, w.cache.fresh env.tLookup (cacheKey inp.Query inp.PageSize inp.Ref u)
      ≠ some (.searchResponse sr))
    (he : env.SearcherSearch (contextSetUser (appendToOutgoingContext ctx t) u) (engineRequest inp)
      = .error e) :
    s.Search env ctx inp out w
      = (.returned (some (match e with
            | .badRequest _ => merrorsBadRequest s.id e.Error
            | _ => merrorsInternalServerError s.id e.Error)), out,
          { cache := (w.cache.Get env.tLookup (cacheKey inp.Query inp.PageSize inp.Ref u)).2
            trace := w.trace ++ [Call.dismantleToken t,
              Call.cacheGet (cacheKey inp.Query inp.PageSize inp.Ref u),
              Call.searcherSearch (contextSetUser (appendToOutgoingContext ctx t) u)
                (engineRequest inp)] }) := by
  have hf := FromCache_miss s env.tLookup (cacheKey inp.Query inp.PageSize inp.Ref u)
    (w.record (.dismantleToken t)) hmiss
  simp only [Service.Search, ht, hu, hf, he]
  cases e <;> simp only [World.record, List.append_assoc, List.singleton_append, List.cons_append,
    List.nil_append]

theorem Search_eq_miss_ok (s : Service) (env : SearchEnv) (ctx : Ctx) (inp : SearchRequest)
    (out : SearchResponse) (w : World) (t : String) (u : Option User) (res : Option SearchResponse)
    (ht : ctx.token = some t)
    (hu : env.DismantleToken (appendToOutgoingContext ctx t) t = .ok u)
    (hmiss : ∀ sr, w.cache.fresh env.tLookup (cacheKey inp.Query inp.PageSize inp.Ref u)
      ≠ some (.searchResponse sr))
    (hs : env.SearcherSearch (contextSetUser (appendToOutgoingContext ctx t) u) (engineRequest inp)
      = .ok res) :
    s.Search env ctx inp out w
      = copyResult res out
          { cache := ((w.cache.Get env.tLookup (cacheKey inp.Query inp.PageSize inp.Ref u)).2).Set
              env.tStore (cacheKey inp.Query inp.PageSize inp.Ref u) (.searchResponse res)
            trace := w.trace ++ [Call.dismantleToken t,
              Call.cacheGet (cacheKey inp.Query inp.PageSize inp.Ref u),
              Call.searcherSearch (contextSetUser (appendToOutgoingContext ctx t) u)
                (engineRequest inp),
              Call.cacheSet (cacheKey inp.Query inp.PageSize inp.Ref u) res] } := by
  have hf := FromCache_miss s env.tLookup (cacheKey inp.Query inp.PageSize inp.Ref u)
    (w.record (.dismantleToken t)) hmiss
  simp only [Service.Search, ht, hu, hf, hs]
  simp only [Service.Cache, World.record, List.append_assoc, List.singleton_append, List.cons_append,
    List.nil_append]

theorem copyResult_world (res : Option SearchResponse) (out : SearchResponse) (w : World) :
    (copyResult res out w).2.2 = w := by
  cases res <;> rfl

/-- The invariant of the cache is kept by `Search` on every path. -/
theorem Search_preserves_OnlyResponses (s : Service) (env : SearchEnv) (ctx : Ctx)
    (inp : SearchRequest) (out : SearchResponse) (w : World) (h : w.cache.OnlyResponses) :
    (s.Search env ctx inp out w).2.2.cache.OnlyResponses := by
  cases ht : ctx.token with
  | none => rw [Search_eq_no_token s env ctx inp out w ht]; exact h
  | some t =>
    cases hu : env.DismantleToken (appendToOutgoingContext ctx t) t with
    | error e => rw [Search_eq_token_error s env ctx inp out w t e ht hu]; exact h
    | ok u =>
      by_cases hhit : ∃ sr, w.cache.fresh env.tLookup (cacheKey inp.Query inp.PageSize inp.Ref u)
          = some (.searchResponse sr)
      · obtain ⟨sr, hsr⟩ := hhit
        rw [Search_eq_hit s env ctx inp out w t u sr ht hu hsr, copyResult_world]
        exact Cache.OnlyResponses_getItem _ _ _ h
      · have hmiss : ∀ sr, w.cache.fresh env.tLookup (cacheKey inp.Query inp.PageSize inp.Ref u)
            ≠ some (.searchResponse sr) := fun sr hsr => hhit ⟨sr, hsr⟩
        cases hs : env.SearcherSearch (contextSetUser (appendToOutgoingContext ctx t) u)
            (engineRequest inp) with
        | error e =>
          rw [Search_eq_miss_error s env ctx inp out w t u e ht hu hmiss hs]
          exact Cache.OnlyResponses_getItem _ _ _ h
        | ok res =>
          rw [Search_eq_miss_ok s env ctx inp out w t u res ht hu hmiss hs, copyResult_world]
          exact Cache.OnlyResponses_Set _ _ _ _ (Cache.OnlyResponses_getItem _ _ _ h)

theorem world0_OnlyResponses : world0.cache.OnlyResponses := by
  intro key it h
  simp [world0, Cache.NewCache, Cache.SetTTL] at h

/-! ## `Service.Search` -/

/-- C3: when the token is absent from the context, or `DismantleToken` fails on it,
`Search` returns an error, leaves the output response and the cache as they were, and
makes no `searcher.Search` call and no cache read or write. -/
theorem Search_unauthenticated_no_effects (s : Service) (env : SearchEnv) (ctx : Ctx)
    (inp : SearchRequest) (out : SearchResponse) (w : World)
    (h : ctx.token = none ∨
      ∃ t e, ctx.token = some t ∧ env.DismantleToken (appendToOutgoingContext ctx t) t = .error e) :
    (∃ e, (s.Search env ctx inp out w).1 = .returned (some e))
      ∧ (s.Search env ctx inp out w).2.1 = out
      ∧ (s.Search env ctx inp out w).2.2.cache = w.cache
      ∧ ∃ new, (s.Search env ctx inp out w).2.2.trace = w.trace ++ new
          ∧ ∀ c ∈ new, (∀ cx rq, c ≠ Call.searcherSearch cx rq)
              ∧ (∀ k, c ≠ Call.cacheGet k) ∧ (∀ k v, c ≠ Call.cacheSet k v) := by
  rcases h with h | ⟨t, e, ht, he⟩
  · rw [Search_eq_no_token s env ctx inp out w h]
    refine ⟨⟨_, rfl⟩, rfl, rfl, [Call.logError "Could not get token from context"], rfl, ?_⟩
    intro c hc
    rw [List.mem_singleton] at hc
    subst hc
    exact ⟨fun _ _ hx => (by cases hx), fun _ hx => (by cases hx), fun _ _ hx => (by cases hx)⟩
  · rw [Search_eq_token_error s env ctx inp out w t e ht he]
    refine ⟨⟨_, rfl⟩, rfl, rfl, [Call.dismantleToken t], rfl, ?_⟩
    intro c hc
    rw [List.mem_singleton] at hc
    subst hc
    exact ⟨fun _ _ hx => (by cases hx), fun _ hx => (by cases hx), fun _ _ hx => (by cases hx)⟩

/-- Witness of `Search_unauthenticated_no_effects`: a garbage token on a fresh service. -/
theorem Search_unauthenticated_no_effects_witness :
    (svc.Search envRejecting ctxTok req0 out0 world0).1
        = .returned (some (.raw (.other "errtypes.InvalidCredentials"
            "error: invalid credentials: invalid token")))
      ∧ (svc.Search envRejecting ctxTok req0 out0 world0).2.1 = out0
      ∧ (svc.Search envRejecting ctxTok req0 out0 world0).2.2.cache = world0.cache :=
  have h := Search_unauthenticated_no_effects svc envRejecting ctxTok req0 out0 world0
    (Or.inr ⟨"tok", _, rfl, rfl⟩)
  ⟨rfl, h.2.1, h.2.2.1⟩

/-- C4 (counterexample): the token manager rejects the token with an
`errtypes.InvalidCredentials`; `Search` returns that very value, which carries no
go-micro status code and so is not of the unauthenticated class. -/
theorem Search_token_error_not_unauthenticated :
    envRejecting.DismantleToken (appendToOutgoingContext ctxTok "tok") "tok"
        = .error (.other "errtypes.InvalidCredentials" "error: invalid credentials: invalid token")
      ∧ (svc.Search envRejecting ctxTok req0 out0 world0).1
        = .returned (some (.raw (.other "errtypes.InvalidCredentials"
            "error: invalid credentials: invalid token")))
      ∧ (HandlerErr.raw (.other "errtypes.InvalidCredentials"
            "error: invalid credentials: invalid token")).errClass ≠ some ErrClass.unauthenticated := by
  refine ⟨rfl, rfl, ?_⟩
  decide

/-- C4 (amended): when `DismantleToken` fails with error `e`, `Search` returns exactly
`e`, unchanged; the returned error is of the unauthenticated class only when `e` itself
is a go-micro error with code 401. -/
theorem Search_token_error_passthrough (s : Service) (env : SearchEnv) (ctx : Ctx)
    (inp : SearchRequest) (out : SearchResponse) (w : World) (t : String) (e : Err)
    (ht : ctx.token = some t)
    (he : env.DismantleToken (appendToOutgoingContext ctx t) t = .error e) :
    (s.Search env ctx inp out w).1 = .returned (some (.raw e))
      ∧ ((HandlerErr.raw e).errClass = some ErrClass.unauthenticated ↔ ∃ text, e = .microError 401 text) := by
  constructor
  · rw [Search_eq_token_error s env ctx inp out w t e ht he]
  · cases e with
    | errorString text => simp [HandlerErr.errClass, HandlerErr.code]
    | badRequest text => simp [HandlerErr.errClass, HandlerErr.code]
    | other g text => simp [HandlerErr.errClass, HandlerErr.code]
    | microError code text =>
      simp only [HandlerErr.errClass, HandlerErr.code, Err.microError.injEq, exists_eq_right']
      constructor
      · intro h
        split at h <;> simp_all
      · intro h
        subst h
        rfl

/-- Witness of `Search_token_error_passthrough`. -/
theorem Search_token_error_passthrough_witness :
    (svc.Search envRejecting ctxTok req0 out0 world0).1
      = .returned (some (.raw (.other "errtypes.InvalidCredentials"
          "error: invalid credentials: invalid token"))) :=
  (Search_token_error_passthrough svc envRejecting ctxTok req0 out0 world0 "tok" _ rfl rfl).1

/-- C5: an authenticated request whose cache key holds an unexpired search response
returns nil, copies `Matches`, `TotalMatches` and `NextPageToken` of the cached response
into the output, and makes exactly the calls `DismantleToken` and the cache read, so no
`searcher.Search` call. -/
theorem Search_cache_hit (s : Service) (env : SearchEnv) (ctx : Ctx) (inp : SearchRequest)
    (out : SearchResponse) (w : World) (t : String) (u : Option User) (r : SearchResponse)
    (ht : ctx.token = some t)
    (hu : env.DismantleToken (appendToOutgoingContext ctx t) t = .ok u)
    (hhit : w.cache.fresh env.tLookup (cacheKey inp.Query inp.PageSize inp.Ref u)
      = some (.searchResponse (some r))) :
    (s.Search env ctx inp out w).1 = .returned none
      ∧ (s.Search env ctx inp out w).2.1.Matches = r.Matches
      ∧ (s.Search env ctx inp out w).2.1.TotalMatches = r.TotalMatches
      ∧ (s.Search env ctx inp out w).2.1.NextPageToken = r.NextPageToken
      ∧ (s.Search env ctx inp out w).2.2.trace
        = w.trace ++ [Call.dismantleToken t,
            Call.cacheGet (cacheKey inp.Query inp.PageSize inp.Ref u)] := by
  rw [Search_eq_hit s env ctx inp out w t u (some r) ht hu hhit]
  exact ⟨rfl, rfl, rfl, rfl, rfl⟩

/-- Witness of `Search_cache_hit`: the engine would now answer differently, the cached
response is returned. -/
theorem Search_cache_hit_witness :
    (svc.Search envLater ctxTok req0 out0 worldCached).1 = .returned none
      ∧ (svc.Search envLater ctxTok req0 out0 worldCached).2.1.Matches = resp0.Matches :=
  have h := Search_cache_hit svc envLater ctxTok req0 out0 worldCached "tok" (some alice) resp0
    rfl rfl (by decide)
  ⟨h.1, h.2.1⟩

/-- C6: on a cache miss where `searcher.Search` fails with `e`, `Search` returns a
go-micro error carrying the text of `e`: a bad request (code 400) when `e` is an
`errtypes.BadRequest`, an internal server error (code 500) for every other `e`; the
class of the returned error is always one of these two. -/
theorem Search_engine_error_classes (s : Service) (env : SearchEnv) (ctx : Ctx)
    (inp : SearchRequest) (out : SearchResponse) (w : World) (t : String) (u : Option User) (e : Err)
    (ht : ctx.token = some t)
    (hu : env.DismantleToken (appendToOutgoingContext ctx t) t = .ok u)
    (hmiss : ∀ sr, w.cache.fresh env.tLookup (cacheKey inp.Query inp.PageSize inp.Ref u)
      ≠ some (.searchResponse sr))
    (he : env.SearcherSearch (contextSetUser (appendToOutgoingContext ctx t) u) (engineRequest inp)
      = .error e) :
    ((∃ text, e = .badRequest text) →
        (s.Search env ctx inp out w).1 = .returned (some (.micro s.id 400 e.Error "Bad Request"))
          ∧ (HandlerErr.micro s.id 400 e.Error "Bad Request").errClass = some ErrClass.badRequest)
      ∧ ((∀ text, e ≠ .badRequest text) →
        (s.Search env ctx inp out w).1
            = .returned (some (.micro s.id 500 e.Error "Internal Server Error"))
          ∧ (HandlerErr.micro s.id 500 e.Error "Internal Server Error").errClass
            = some ErrClass.internal)
      ∧ ∃ err, (s.Search env ctx inp out w).1 = .returned (some err)
          ∧ (err.errClass = some ErrClass.badRequest ∨ err.errClass = some ErrClass.internal) := by
  rw [Search_eq_miss_error s env ctx inp out w t u e ht hu hmiss he]
  cases e with
  | badRequest text =>
    refine ⟨fun _ => ⟨rfl, rfl⟩, fun h => absurd rfl (h text), _, rfl, Or.inl rfl⟩
  | errorString text =>
    refine ⟨fun ⟨x, hx⟩ => (by cases hx), fun _ => ⟨rfl, rfl⟩, _, rfl, Or.inr rfl⟩
  | microError code text =>
    refine ⟨fun ⟨x, hx⟩ => (by cases hx), fun _ => ⟨rfl, rfl⟩, _, rfl, Or.inr rfl⟩
  | other g text =>
    refine ⟨fun ⟨x, hx⟩ => (by cases hx), fun _ => ⟨rfl, rfl⟩, _, rfl, Or.inr rfl⟩

/-- Witness of `Search_engine_error_classes`: a malformed query on a fresh service. -/
theorem Search_engine_error_classes_witness :
    (svc.Search envBadQuery ctxTok req0 out0 world0).1
      = .returned (some (.micro "eu.opencloud.api.search" 400
          "error: bad request: unexpected token" "Bad Request")) :=
  ((Search_engine_error_classes svc envBadQuery ctxTok req0 out0 world0 "tok" (some alice)
    (.badRequest "error: bad request: unexpected token") rfl rfl
    (fun sr h => by
      have h2 : (none : Option CacheValue) = some (.searchResponse sr) := h
      cases h2)
    rfl).1 ⟨_, rfl⟩).1

/-- C7: a result is cached only on success: when `searcher.Search` is reached (the key
holds no cached response) and returns an error, `Search` returns an error, the output
response is unmodified, no cache write is made and every key holds the value it held
before the call; on a cache the service wrote (every stored value a search response) the cache after the call
equals the cache before the call. -/
theorem Search_engine_error_keeps_cache (s : Service) (env : SearchEnv) (ctx : Ctx)
    (inp : SearchRequest) (out : SearchResponse) (w : World) (t : String) (u : Option User) (e : Err)
    (ht : ctx.token = some t)
    (hu : env.DismantleToken (appendToOutgoingContext ctx t) t = .ok u)
    (hmiss : ∀ sr, w.cache.fresh env.tLookup (cacheKey inp.Query inp.PageSize inp.Ref u)
      ≠ some (.searchResponse sr))
    (he : env.SearcherSearch (contextSetUser (appendToOutgoingContext ctx t) u) (engineRequest inp)
      = .error e) :
    (∃ err, (s.Search env ctx inp out w).1 = .returned (some err))
      ∧ (s.Search env ctx inp out w).2.1 = out
      ∧ (∀ k, ((s.Search env ctx inp out w).2.2.cache.items k).map Item.data
          = (w.cache.items k).map Item.data)
      ∧ (s.Search env ctx inp out w).2.2.trace
        = w.trace ++ [Call.dismantleToken t,
            Call.cacheGet (cacheKey inp.Query inp.PageSize inp.Ref u),
            Call.searcherSearch (contextSetUser (appendToOutgoingContext ctx t) u) (engineRequest inp)]
      ∧ (w.cache.OnlyResponses → (s.Search env ctx inp out w).2.2.cache = w.cache) := by
  rw [Search_eq_miss_error s env ctx inp out w t u e ht hu hmiss he]
  refine ⟨⟨_, rfl⟩, rfl, fun k => Cache.getItem_snd_data _ _ _ k, rfl, fun hinv => ?_⟩
  exact Cache.Get_snd_of_fresh_none _ _ _ (Cache.fresh_none_of_miss _ _ _ hinv hmiss)

/-- Witness of `Search_engine_error_keeps_cache`. -/
theorem Search_engine_error_keeps_cache_witness :
    (svc.Search envBadQuery ctxTok req0 out0 world0).2.2.cache = world0.cache
      ∧ (svc.Search envBadQuery ctxTok req0 out0 world0).2.1 = out0 :=
  have h := Search_engine_error_keeps_cache svc envBadQuery ctxTok req0 out0 world0 "tok"
    (some alice) (.badRequest "error: bad request: unexpected token") rfl rfl
    (fun sr h => by
      have h2 : (none : Option CacheValue) = some (.searchResponse sr) := h
      cases h2)
    rfl
  ⟨h.2.2.2.2 world0_OnlyResponses, h.2.1⟩

/-- C8: on a cache miss where `searcher.Search` succeeds with response `r`, `Search`
calls `searcher.Search` exactly once, with a request carrying the `Query`, `PageSize`
and `Ref` of the input, stores `r` under `cacheKey(query, pageSize, ref, user)` and
touches no other key, sets `Matches`, `TotalMatches` and `NextPageToken` of the output
to those of `r`, and returns nil. -/
theorem Search_miss_engine_success (s : Service) (env : SearchEnv) (ctx : Ctx)
    (inp : SearchRequest) (out : SearchResponse) (w : World) (t : String) (u : Option User)
    (r : SearchResponse)
    (ht : ctx.token = some t)
    (hu : env.DismantleToken (appendToOutgoingContext ctx t) t = .ok u)
    (hmiss : ∀ sr, w.cache.fresh env.tLookup (cacheKey inp.Query inp.PageSize inp.Ref u)
      ≠ some (.searchResponse sr))
    (hs : env.SearcherSearch (contextSetUser (appendToOutgoingContext ctx t) u) (engineRequest inp)
      = .ok (some r)) :
    (s.Search env ctx inp out w).1 = .returned none
      ∧ (s.Search env ctx inp out w).2.1.Matches = r.Matches
      ∧ (s.Search env ctx inp out w).2.1.TotalMatches = r.TotalMatches
      ∧ (s.Search env ctx inp out w).2.1.NextPageToken = r.NextPageToken
      ∧ (s.Search env ctx inp out w).2.2.trace
        = w.trace ++ [Call.dismantleToken t,
            Call.cacheGet (cacheKey inp.Query inp.PageSize inp.Ref u),
            Call.searcherSearch (contextSetUser (appendToOutgoingContext ctx t) u) (engineRequest inp),
            Call.cacheSet (cacheKey inp.Query inp.PageSize inp.Ref u) (some r)]
      ∧ (engineRequest inp).Query = inp.Query
      ∧ (engineRequest inp).PageSize = inp.PageSize
      ∧ (engineRequest inp).Ref = inp.Ref
      ∧ (∃ it, (s.Search env ctx inp out w).2.2.cache.items (cacheKey inp.Query inp.PageSize inp.Ref u)
            = some it ∧ it.data = .searchResponse (some r))
      ∧ (s.Search env ctx inp out w).2.2.cache.fresh env.tStore
          (cacheKey inp.Query inp.PageSize inp.Ref u) = some (.searchResponse (some r))
      ∧ ∀ k, k ≠ cacheKey inp.Query inp.PageSize inp.Ref u →
          (s.Search env ctx inp out w).2.2.cache.items k = w.cache.items k := by
  rw [Search_eq_miss_ok s env ctx inp out w t u (some r) ht hu hmiss hs]
  refine ⟨rfl, rfl, rfl, rfl, rfl, rfl, rfl, rfl, ?_, ?_, ?_⟩
  · obtain ⟨it, hit, hdata, _⟩ := Cache.Set_self
      (w.cache.Get env.tLookup (cacheKey inp.Query inp.PageSize inp.Ref u)).2 env.tStore
      (cacheKey inp.Query inp.PageSize inp.Ref u) (.searchResponse (some r))
    exact ⟨it, hit, hdata⟩
  · exact Cache.fresh_Set _ _ _ _ _ (Nat.le_add_right _ _)
  · intro k hk
    show (Cache.Set _ _ _ _).items k = _
    rw [Cache.Set_other _ _ _ _ _ hk]
    exact Cache.getItem_snd_other _ _ _ _ hk

/-- Witness of `Search_miss_engine_success`: the first query on a fresh service. -/
theorem Search_miss_engine_success_witness :
    (svc.Search envOk ctxTok req0 out0 world0).1 = .returned none
      ∧ (svc.Search envOk ctxTok req0 out0 world0).2.1.Matches = resp0.Matches :=
  have h := Search_miss_engine_success svc envOk ctxTok req0 out0 world0 "tok" (some alice) resp0
    rfl rfl
    (fun sr h => by
      have h2 : (none : Option CacheValue) = some (.searchResponse sr) := h
      cases h2)
    rfl
  ⟨h.1, h.2.1⟩

/-- C9: two consecutive `Search` calls with the same query, page size, reference and
actor, the first missing the cache with the engine succeeding, the second made no later
than one TTL after the first wrote the cache: the second returns nil with the same
`Matches`, `TotalMatches` and `NextPageToken` as the first, and makes only the calls
`DismantleToken` and the cache read, so no second `searcher.Search` call. -/
theorem Search_repeat_served_from_cache (s : Service) (env env' : SearchEnv) (ctx ctx' : Ctx)
    (inp inp' : SearchRequest) (out out' : SearchResponse) (w : World) (t t' : String)
    (u u' : Option User) (r : SearchResponse)
    (ht : ctx.token = some t)
    (hu : env.DismantleToken (appendToOutgoingContext ctx t) t = .ok u)
    (hmiss : ∀ sr, w.cache.fresh env.tLookup (cacheKey inp.Query inp.PageSize inp.Ref u)
      ≠ some (.searchResponse sr))
    (hs : env.SearcherSearch (contextSetUser (appendToOutgoingContext ctx t) u) (engineRequest inp)
      = .ok (some r))
    (hq : inp'.Query = inp.Query) (hp : inp'.PageSize = inp.PageSize) (hr : inp'.Ref = inp.Ref)
    (ht' : ctx'.token = some t')
    (hu' : env'.DismantleToken (appendToOutgoingContext ctx' t') t' = .ok u')
    (hactor : UserId.GetOpaqueId (User.GetId u') = UserId.GetOpaqueId (User.GetId u))
    (hfresh : env'.tLookup ≤ env.tStore + w.cache.ttl) :
    (s.Search env' ctx' inp' out' (s.Search env ctx inp out w).2.2).1 = .returned none
      ∧ (s.Search env' ctx' inp' out' (s.Search env ctx inp out w).2.2).2.1.Matches
        = (s.Search env ctx inp out w).2.1.Matches
      ∧ (s.Search env' ctx' inp' out' (s.Search env ctx inp out w).2.2).2.1.TotalMatches
        = (s.Search env ctx inp out w).2.1.TotalMatches
      ∧ (s.Search env' ctx' inp' out' (s.Search env ctx inp out w).2.2).2.1.NextPageToken
        = (s.Search env ctx inp out w).2.1.NextPageToken
      ∧ (s.Search env' ctx' inp' out' (s.Search env ctx inp out w).2.2).2.2.trace
        = (s.Search env ctx inp out w).2.2.trace
          ++ [Call.dismantleToken t', Call.cacheGet (cacheKey inp.Query inp.PageSize inp.Ref u)] := by
  have hkey : cacheKey inp'.Query inp'.PageSize inp'.Ref u'
      = cacheKey inp.Query inp.PageSize inp.Ref u := by
    rw [hq, hp, hr]; exact cacheKey_congr_actor _ _ _ _ _ hactor
  have hfirst := Search_eq_miss_ok s env ctx inp out w t u (some r) ht hu hmiss hs
  have hhit : (s.Search env ctx inp out w).2.2.cache.fresh env'.tLookup
      (cacheKey inp'.Query inp'.PageSize inp'.Ref u') = some (.searchResponse (some r)) := by
    rw [hfirst, hkey]
    apply Cache.fresh_Set
    show env'.tLookup ≤ env.tStore + (w.cache.getItem _ _).2.ttl
    rw [Cache.getItem_snd_ttl]
    exact hfresh
  rw [Search_eq_hit s env' ctx' inp' out' _ t' u' (some r) ht' hu' hhit, hkey]
  rw [hfirst]
  exact ⟨rfl, rfl, rfl, rfl, rfl⟩

/-- Witness of `Search_repeat_served_from_cache`: the same query 0.9 s later on another
page token, the engine meanwhile answering differently. -/
theorem Search_repeat_served_from_cache_witness :
    (svc.Search envLater ctxTok req1 out0 (svc.Search envOk ctxTok req0 out0 world0).2.2).1
        = .returned none
      ∧ (svc.Search envLater ctxTok req1 out0 (svc.Search envOk ctxTok req0 out0 world0).2.2).2.1.Matches
        = (svc.Search envOk ctxTok req0 out0 world0).2.1.Matches :=
  have h := Search_repeat_served_from_cache svc envOk envLater ctxTok ctxTok req0 req1 out0 out0
    world0 "tok" "tok" (some alice) (some alice) resp0 rfl rfl
    (fun sr h => by
      have h2 : (none : Option CacheValue) = some (.searchResponse sr) := h
      cases h2)
    rfl rfl rfl rfl rfl rfl rfl (by decide)
  ⟨h.1, h.2.1⟩

/-! ## `Service.IndexSpace` -/

/-- C10: with a non-empty space id `IndexSpace` makes exactly one call,
`searcher.IndexSpace` on a storage space id whose opaque id is the given id, returns
exactly the result of that call, and so performs no gateway selection, no service-user
login and no space listing; the cache is untouched. -/
theorem IndexSpace_single_space (s : Service) (env : IndexEnv) (inp : Option IndexSpaceRequest)
    (w : World) (h : IndexSpaceRequest.GetSpaceId inp ≠ "") :
    (s.IndexSpace env inp w).1
        = (env.SearcherIndexSpace 0 (some { OpaqueId := IndexSpaceRequest.GetSpaceId inp })).map
            HandlerErr.raw
      ∧ (s.IndexSpace env inp w).2.trace
        = w.trace ++ [Call.searcherIndexSpace (some { OpaqueId := IndexSpaceRequest.GetSpaceId inp })]
      ∧ (s.IndexSpace env inp w).2.cache = w.cache := by
  simp only [Service.IndexSpace, h, ne_eq, not_false_eq_true, if_true, World.record, and_self]

/-- Witness of `IndexSpace_single_space`: reindexing the space `space-1`. -/
theorem IndexSpace_single_space_witness :
    (svc.IndexSpace indexEnvOk (some { SpaceId := "space-1" }) world0).1 = none
      ∧ (svc.IndexSpace indexEnvOk (some { SpaceId := "space-1" }) world0).2.trace
        = [Call.searcherIndexSpace (some { OpaqueId := "space-1" })] :=
  have h := IndexSpace_single_space svc indexEnvOk (some { SpaceId := "space-1" }) world0 (by decide)
  ⟨h.1, h.2.1⟩

/-! ### Lemmas on the enumeration branch -/

theorem indexSpaces_cache (env : IndexEnv) (spaces : List (Option StorageSpace)) :
    ∀ (n : Nat) (w : World), (indexSpaces env n spaces w).2.cache = w.cache := by
  induction spaces with
  | nil => intro n w; rfl
  | cons sp rest ih =>
    intro n w
    simp only [indexSpaces]
    cases env.SearcherIndexSpace n (StorageSpace.GetId sp) with
    | some e => rfl
    | none => simp only [ih, World.record]

/-- When every call succeeds the loop indexes every listed space, in order. -/
theorem indexSpaces_all_ok (env : IndexEnv) (spaces : List (Option StorageSpace)) :
    ∀ (n : Nat) (w : World),
      (∀ i sp, spaces[i]? = some sp → env.SearcherIndexSpace (n + i) (StorageSpace.GetId sp) = none) →
      indexSpaces env n spaces w
        = (none, { cache := w.cache, trace := w.trace ++ spaces.map indexCall }) := by
  induction spaces with
  | nil => intro n w _; simp [indexSpaces]
  | cons sp rest ih =>
    intro n w h
    have h0 := h 0 sp (by simp)
    simp only [Nat.add_zero] at h0
    simp only [indexSpaces, h0]
    rw [ih (n + 1) _ (fun i x hx => by
      have := h (i + 1) x (by simpa using hx)
      rwa [show n + (i + 1) = n + 1 + i by omega] at this)]
    simp [World.record, indexCall]

/-- The loop stops at the first failing call: the spaces before it and the failing one
are indexed, the spaces after it are not. -/
theorem indexSpaces_first_failure (env : IndexEnv) (pre : List (Option StorageSpace))
    (sp : Option StorageSpace) (post : List (Option StorageSpace)) (e : Err) :
    ∀ (n : Nat) (w : World),
      (∀ i x, pre[i]? = some x → env.SearcherIndexSpace (n + i) (StorageSpace.GetId x) = none) →
      env.SearcherIndexSpace (n + pre.length) (StorageSpace.GetId sp) = some e →
      indexSpaces env n (pre ++ sp :: post) w
        = (some (.raw e), { cache := w.cache, trace := w.trace ++ (pre ++ [sp]).map indexCall }) := by
  induction pre with
  | nil =>
    intro n w _ he
    simp only [List.length_nil, Nat.add_zero] at he
    simp [indexSpaces, he, World.record, indexCall]
  | cons p rest ih =>
    intro n w h he
    have h0 := h 0 p (by simp)
    simp only [Nat.add_zero] at h0
    simp only [List.cons_append, indexSpaces, h0, List.append_eq]
    rw [ih (n + 1) _ (fun i x hx => by
      have := h (i + 1) x (by simpa using hx)
      rwa [show n + (i + 1) = n + 1 + i by omega] at this)
      (by rwa [show n + 1 + rest.length = n + (p :: rest).length by simp; omega])]
    simp [World.record, indexCall]

/-- A nil result of the loop means every call succeeded. -/
theorem indexSpaces_none (env : IndexEnv) (spaces : List (Option StorageSpace)) :
    ∀ (n : Nat) (w : World), (indexSpaces env n spaces w).1 = none →
      ∀ i sp, spaces[i]? = some sp → env.SearcherIndexSpace (n + i) (StorageSpace.GetId sp) = none := by
  induction spaces with
  | nil => intro n w _ i sp h; simp at h
  | cons p rest ih =>
    intro n w hres i sp hi
    simp only [indexSpaces] at hres
    cases hp : env.SearcherIndexSpace n (StorageSpace.GetId p) with
    | some e => rw [hp] at hres; simp at hres
    | none =>
      rw [hp] at hres
      cases i with
      | zero =>
        simp only [List.getElem?_cons_zero, Option.some.injEq] at hi
        subst hi; simpa using hp
      | succ j =>
        have := ih (n + 1) _ hres j sp (by simpa using hi)
        rwa [show n + 1 + j = n + (j + 1) by omega] at this

/-- An error result of the loop is the error of the first failing call. -/
theorem indexSpaces_some (env : IndexEnv) (spaces : List (Option StorageSpace)) :
    ∀ (n : Nat) (w : World) (he : HandlerErr), (indexSpaces env n spaces w).1 = some he →
      ∃ i sp e, spaces[i]? = some sp ∧ env.SearcherIndexSpace (n + i) (StorageSpace.GetId sp) = some e
        ∧ he = .raw e
        ∧ ∀ j x, j < i → spaces[j]? = some x →
            env.SearcherIndexSpace (n + j) (StorageSpace.GetId x) = none := by
  induction spaces with
  | nil => intro n w he h; simp [indexSpaces] at h
  | cons p rest ih =>
    intro n w he hres
    simp only [indexSpaces] at hres
    cases hp : env.SearcherIndexSpace n (StorageSpace.GetId p) with
    | some e =>
      rw [hp] at hres
      simp only [Option.some.injEq] at hres
      exact ⟨0, p, e, by simp, by simpa using hp, hres.symm, fun j x hj _ => absurd hj (by omega)⟩
    | none =>
      rw [hp] at hres
      obtain ⟨i, sp, e, hi, hie, hhe, hbefore⟩ := ih (n + 1) _ he hres
      refine ⟨i + 1, sp, e, by simpa using hi, ?_, hhe, ?_⟩
      · rwa [show n + (i + 1) = n + 1 + i by omega]
      · intro j x hj hx
        cases j with
        | zero =>
          simp only [List.getElem?_cons_zero, Option.some.injEq] at hx
          subst hx; simpa using hp
        | succ k =>
          have := hbefore k x (by omega) (by simpa using hx)
          rwa [show n + 1 + k = n + (k + 1) by omega] at this

theorem IndexSpace_eq_no_gateway (s : Service) (env : IndexEnv) (inp : Option IndexSpaceRequest)
    (w : World) (e : Err) (hempty : IndexSpaceRequest.GetSpaceId inp = "")
    (hg : env.gwsNext = .error e) :
    s.IndexSpace env inp w = (some (.raw e), { cache := w.cache, trace := w.trace ++ [Call.gatewayNext] }) := by
  simp only [Service.IndexSpace, hempty, hg, ne_eq, not_true_eq_false, if_false, World.record]

theorem IndexSpace_eq_no_login (s : Service) (env : IndexEnv) (inp : Option IndexSpaceRequest)
    (w : World) (gwc : GatewayClient) (e : Err) (hempty : IndexSpaceRequest.GetSpaceId inp = "")
    (hg : env.gwsNext = .ok gwc)
    (hc : env.GetServiceUserContext s.ServiceAccountID gwc s.ServiceAccountSecret = .error e) :
    s.IndexSpace env inp w
      = (some (.raw e), { cache := w.cache, trace := w.trace ++ [Call.gatewayNext,
          Call.getServiceUserContext s.ServiceAccountID gwc s.ServiceAccountSecret] }) := by
  simp only [Service.IndexSpace, hempty, hg, hc, ne_eq, not_true_eq_false, if_false, World.record,
    List.append_assoc, List.singleton_append]

theorem IndexSpace_eq_list_error (s : Service) (env : IndexEnv) (inp : Option IndexSpaceRequest)
    (w : World) (gwc : GatewayClient) (ctx : Ctx) (e : Err)
    (hempty : IndexSpaceRequest.GetSpaceId inp = "")
    (hg : env.gwsNext = .ok gwc)
    (hc : env.GetServiceUserContext s.ServiceAccountID gwc s.ServiceAccountSecret = .ok ctx)
    (hl : env.ListStorageSpaces gwc ctx = .error e) :
    s.IndexSpace env inp w
      = (some (.raw e), { cache := w.cache, trace := w.trace ++ [Call.gatewayNext,
          Call.getServiceUserContext s.ServiceAccountID gwc s.ServiceAccountSecret,
          Call.listStorageSpaces gwc ctx] }) := by
  simp only [Service.IndexSpace, hempty, hg, hc, hl, ne_eq, not_true_eq_false, if_false,
    World.record, List.append_assoc, List.singleton_append, List.cons_append, List.nil_append]

theorem IndexSpace_eq_status_not_ok (s : Service) (env : IndexEnv) (inp : Option IndexSpaceRequest)
    (w : World) (gwc : GatewayClient) (ctx : Ctx) (resp : Option ListStorageSpacesResponse)
    (hempty : IndexSpaceRequest.GetSpaceId inp = "")
    (hg : env.gwsNext = .ok gwc)
    (hc : env.GetServiceUserContext s.ServiceAccountID gwc s.ServiceAccountSecret = .ok ctx)
    (hl : env.ListStorageSpaces gwc ctx = .ok resp)
    (hcode : Status.GetCode (ListStorageSpacesResponse.GetStatus resp) ≠ CODE_OK) :
    s.IndexSpace env inp w
      = (some (.raw (.errorString (Status.GetMessage (ListStorageSpacesResponse.GetStatus resp)))),
          { cache := w.cache, trace := w.trace ++ [Call.gatewayNext,
            Call.getServiceUserContext s.ServiceAccountID gwc s.ServiceAccountSecret,
            Call.listStorageSpaces gwc ctx] }) := by
  simp only [Service.IndexSpace, hempty, hg, hc, hl, hcode, ne_eq, not_true_eq_false, if_false,
    not_false_eq_true, if_true, World.record, List.append_assoc, List.singleton_append,
    List.cons_append, List.nil_append]

theorem IndexSpace_eq_listed (s : Service) (env : IndexEnv) (inp : Option IndexSpaceRequest)
    (w : World) (gwc : GatewayClient) (ctx : Ctx) (resp : Option ListStorageSpacesResponse)
    (hempty : IndexSpaceRequest.GetSpaceId inp = "")
    (hg : env.gwsNext = .ok gwc)
    (hc : env.GetServiceUserContext s.ServiceAccountID gwc s.ServiceAccountSecret = .ok ctx)
    (hl : env.ListStorageSpaces gwc ctx = .ok resp)
    (hcode : Status.GetCode (ListStorageSpacesResponse.GetStatus resp) = CODE_OK) :
    s.IndexSpace env inp w
      = indexSpaces env 0 (ListStorageSpacesResponse.GetStorageSpaces resp)
          { cache := w.cache, trace := w.trace ++ [Call.gatewayNext,
            Call.getServiceUserContext s.ServiceAccountID gwc s.ServiceAccountSecret,
            Call.listStorageSpaces gwc ctx] } := by
  simp only [Service.IndexSpace, hempty, hg, hc, hl, hcode, ne_eq, not_true_eq_false, if_false,
    World.record, List.append_assoc, List.singleton_append, List.cons_append, List.nil_append]

/-! ### Full enumeration -/

/-- C11: with an empty space id, when enumeration fails at any step (no gateway client,
no service-user context, `ListStorageSpaces` returns an error, or its status code is not
OK), `IndexSpace` returns a non-nil error and makes no `searcher.IndexSpace` call; for a
status that is not OK the error is `errors.New` of the status message. -/
theorem IndexSpace_enumeration_failure (s : Service) (env : IndexEnv)
    (inp : Option IndexSpaceRequest) (w : World)
    (hempty : IndexSpaceRequest.GetSpaceId inp = "")
    (hfail : (∃ e, env.gwsNext = .error e)
      ∨ (∃ gwc e, env.gwsNext = .ok gwc
          ∧ env.GetServiceUserContext s.ServiceAccountID gwc s.ServiceAccountSecret = .error e)
      ∨ (∃ gwc ctx e, env.gwsNext = .ok gwc
          ∧ env.GetServiceUserContext s.ServiceAccountID gwc s.ServiceAccountSecret = .ok ctx
          ∧ env.ListStorageSpaces gwc ctx = .error e)
      ∨ (∃ gwc ctx resp, env.gwsNext = .ok gwc
          ∧ env.GetServiceUserContext s.ServiceAccountID gwc s.ServiceAccountSecret = .ok ctx
          ∧ env.ListStorageSpaces gwc ctx = .ok resp
          ∧ Status.GetCode (ListStorageSpacesResponse.GetStatus resp) ≠ CODE_OK)) :
    (∃ e, (s.IndexSpace env inp w).1 = some e)
      ∧ (∃ new, (s.IndexSpace env inp w).2.trace = w.trace ++ new
          ∧ ∀ c ∈ new, ∀ id, c ≠ Call.searcherIndexSpace id)
      ∧ (∀ gwc ctx resp, env.gwsNext = .ok gwc →
          env.GetServiceUserContext s.ServiceAccountID gwc s.ServiceAccountSecret = .ok ctx →
          env.ListStorageSpaces gwc ctx = .ok resp →
          Status.GetCode (ListStorageSpacesResponse.GetStatus resp) ≠ CODE_OK →
          (s.IndexSpace env inp w).1
              = some (.raw (.errorString (Status.GetMessage (ListStorageSpacesResponse.GetStatus resp))))
            ∧ (Err.errorString (Status.GetMessage (ListStorageSpacesResponse.GetStatus resp))).Error
              = Status.GetMessage (ListStorageSpacesResponse.GetStatus resp)) := by
  refine ⟨?_, ?_, ?_⟩
  · rcases hfail with ⟨e, hg⟩ | ⟨gwc, e, hg, hc⟩ | ⟨gwc, ctx, e, hg, hc, hl⟩ | ⟨gwc, ctx, resp, hg, hc, hl, hcode⟩
    · rw [IndexSpace_eq_no_gateway s env inp w e hempty hg]; exact ⟨_, rfl⟩
    · rw [IndexSpace_eq_no_login s env inp w gwc e hempty hg hc]; exact ⟨_, rfl⟩
    · rw [IndexSpace_eq_list_error s env inp w gwc ctx e hempty hg hc hl]; exact ⟨_, rfl⟩
    · rw [IndexSpace_eq_status_not_ok s env inp w gwc ctx resp hempty hg hc hl hcode]; exact ⟨_, rfl⟩
  · rcases hfail with ⟨e, hg⟩ | ⟨gwc, e, hg, hc⟩ | ⟨gwc, ctx, e, hg, hc, hl⟩ | ⟨gwc, ctx, resp, hg, hc, hl, hcode⟩
    · rw [IndexSpace_eq_no_gateway s env inp w e hempty hg]
      refine ⟨_, rfl, ?_⟩
      intro c hc id
      simp only [List.mem_singleton] at hc
      subst hc
      exact fun hx => (by cases hx)
    · rw [IndexSpace_eq_no_login s env inp w gwc e hempty hg hc]
      refine ⟨_, rfl, ?_⟩
      intro c hmem id
      simp only [List.mem_cons, List.mem_singleton, List.mem_nil_iff, or_false] at hmem
      rcases hmem with rfl | rfl <;> exact fun hx => (by cases hx)
    · rw [IndexSpace_eq_list_error s env inp w gwc ctx e hempty hg hc hl]
      refine ⟨_, rfl, ?_⟩
      intro c hmem id
      simp only [List.mem_cons, List.mem_singleton, List.mem_nil_iff, or_false] at hmem
      rcases hmem with rfl | rfl | rfl <;> exact fun hx => (by cases hx)
    · rw [IndexSpace_eq_status_not_ok s env inp w gwc ctx resp hempty hg hc hl hcode]
      refine ⟨_, rfl, ?_⟩
      intro c hmem id
      simp only [List.mem_cons, List.mem_singleton, List.mem_nil_iff, or_false] at hmem
      rcases hmem with rfl | rfl | rfl <;> exact fun hx => (by cases hx)
  · intro gwc ctx resp hg hc hl hcode
    rw [IndexSpace_eq_status_not_ok s env inp w gwc ctx resp hempty hg hc hl hcode]
    exact ⟨rfl, rfl⟩

/-- Witness of `IndexSpace_enumeration_failure`: the listing answers permission denied. -/
theorem IndexSpace_enumeration_failure_witness :
    (svc.IndexSpace indexEnvListDenied reqAllSpaces world0).1
      = some (.raw (.errorString "permission denied")) :=
  ((IndexSpace_enumeration_failure svc indexEnvListDenied reqAllSpaces world0 rfl
    (Or.inr (Or.inr (Or.inr ⟨_, _, _, rfl, rfl, rfl, by decide⟩)))).2.2
      _ _ _ rfl rfl rfl (by decide)).1

/-- C12 (counterexample): the listing gives `space-a` then `space-b` and indexing
`space-a` fails; `IndexSpace` returns that error after the one call for `space-a` and
never calls `searcher.IndexSpace` for `space-b`. -/
theorem IndexSpace_failure_stops_later_spaces :
    (svc.IndexSpace indexEnvFirstFails reqAllSpaces world0).1
        = some (.raw (.errorString "index failed"))
      ∧ (svc.IndexSpace indexEnvFirstFails reqAllSpaces world0).2.trace
        = [Call.gatewayNext,
            Call.getServiceUserContext "svc-account" { address := "gateway" } "svc-secret",
            Call.listStorageSpaces { address := "gateway" } { token := none, outgoing := [], user := none },
            Call.searcherIndexSpace (some { OpaqueId := "space-a" })]
      ∧ Call.searcherIndexSpace (some { OpaqueId := "space-b" })
        ∉ (svc.IndexSpace indexEnvFirstFails reqAllSpaces world0).2.trace := by
  refine ⟨rfl, rfl, ?_⟩
  decide

/-- C12 (amended): with an empty space id and a successful enumeration,
`searcher.IndexSpace` is called for the listed spaces in order up to and including the
first space whose indexing fails, and for no space listed after it. -/
theorem IndexSpace_stops_at_first_failure (s : Service) (env : IndexEnv)
    (inp : Option IndexSpaceRequest) (w : World) (gwc : GatewayClient) (ctx : Ctx)
    (resp : Option ListStorageSpacesResponse)
    (pre : List (Option StorageSpace)) (sp : Option StorageSpace) (post : List (Option StorageSpace))
    (e : Err)
    (hempty : IndexSpaceRequest.GetSpaceId inp = "")
    (hg : env.gwsNext = .ok gwc)
    (hc : env.GetServiceUserContext s.ServiceAccountID gwc s.ServiceAccountSecret = .ok ctx)
    (hl : env.ListStorageSpaces gwc ctx = .ok resp)
    (hcode : Status.GetCode (ListStorageSpacesResponse.GetStatus resp) = CODE_OK)
    (hspaces : ListStorageSpacesResponse.GetStorageSpaces resp = pre ++ sp :: post)
    (hpre : ∀ i x, pre[i]? = some x → env.SearcherIndexSpace i (StorageSpace.GetId x) = none)
    (hsp : env.SearcherIndexSpace pre.length (StorageSpace.GetId sp) = some e) :
    (s.IndexSpace env inp w).2.trace
      = w.trace ++ [Call.gatewayNext,
          Call.getServiceUserContext s.ServiceAccountID gwc s.ServiceAccountSecret,
          Call.listStorageSpaces gwc ctx]
        ++ (pre ++ [sp]).map indexCall := by
  rw [IndexSpace_eq_listed s env inp w gwc ctx resp hempty hg hc hl hcode, hspaces,
    indexSpaces_first_failure env pre sp post e 0 _
      (fun i x hx => by rw [Nat.zero_add]; exact hpre i x hx)
      (by rw [Nat.zero_add]; exact hsp)]

/-- Witness of `IndexSpace_stops_at_first_failure`: `space-a` fails, `space-b` is skipped. -/
theorem IndexSpace_stops_at_first_failure_witness :
    (svc.IndexSpace indexEnvFirstFails reqAllSpaces world0).2.trace
      = world0.trace ++ [Call.gatewayNext,
          Call.getServiceUserContext svc.ServiceAccountID { address := "gateway" } svc.ServiceAccountSecret,
          Call.listStorageSpaces { address := "gateway" } { token := none, outgoing := [], user := none }]
        ++ ([] ++ [spaceA]).map indexCall :=
  IndexSpace_stops_at_first_failure svc indexEnvFirstFails reqAllSpaces world0 _ _ _ [] spaceA
    [spaceB] (.errorString "index failed") rfl rfl rfl rfl rfl rfl
    (fun i x hx => by simp at hx) rfl

/-- C13: with an empty space id and a successful enumeration, when `searcher.IndexSpace`
fails for some listed space, `IndexSpace` returns a non-nil error: the error of the first
failing space, every space before it having been indexed without error. -/
theorem IndexSpace_reports_first_index_failure (s : Service) (env : IndexEnv)
    (inp : Option IndexSpaceRequest) (w : World) (gwc : GatewayClient) (ctx : Ctx)
    (resp : Option ListStorageSpacesResponse)
    (hempty : IndexSpaceRequest.GetSpaceId inp = "")
    (hg : env.gwsNext = .ok gwc)
    (hc : env.GetServiceUserContext s.ServiceAccountID gwc s.ServiceAccountSecret = .ok ctx)
    (hl : env.ListStorageSpaces gwc ctx = .ok resp)
    (hcode : Status.GetCode (ListStorageSpacesResponse.GetStatus resp) = CODE_OK)
    (hfail : ∃ i sp, (ListStorageSpacesResponse.GetStorageSpaces resp)[i]? = some sp
      ∧ env.SearcherIndexSpace i (StorageSpace.GetId sp) ≠ none) :
    ∃ i sp e, (ListStorageSpacesResponse.GetStorageSpaces resp)[i]? = some sp
      ∧ env.SearcherIndexSpace i (StorageSpace.GetId sp) = some e
      ∧ (s.IndexSpace env inp w).1 = some (.raw e)
      ∧ ∀ j x, j < i → (ListStorageSpacesResponse.GetStorageSpaces resp)[j]? = some x →
          env.SearcherIndexSpace j (StorageSpace.GetId x) = none := by
  rw [IndexSpace_eq_listed s env inp w gwc ctx resp hempty hg hc hl hcode]
  cases hres : (indexSpaces env 0 (ListStorageSpacesResponse.GetStorageSpaces resp)
      { cache := w.cache, trace := w.trace ++ [Call.gatewayNext,
        Call.getServiceUserContext s.ServiceAccountID gwc s.ServiceAccountSecret,
        Call.listStorageSpaces gwc ctx] }).1 with
  | none =>
    exfalso
    obtain ⟨i, sp, hi, hne⟩ := hfail
    have := indexSpaces_none env _ 0 _ hres i sp hi
    rw [Nat.zero_add] at this
    exact hne this
  | some he =>
    obtain ⟨i, sp, e, hi, hie, hhe, hbefore⟩ := indexSpaces_some env _ 0 _ he hres
    rw [Nat.zero_add] at hie
    refine ⟨i, sp, e, hi, hie, by rw [hhe], ?_⟩
    intro j x hj hx
    have := hbefore j x hj hx
    rwa [Nat.zero_add] at this

/-- Witness of `IndexSpace_reports_first_index_failure`: the failure of `space-a` is
returned. -/
theorem IndexSpace_reports_first_index_failure_witness :
    ∃ i sp e, [spaceA, spaceB][i]? = some sp
      ∧ indexEnvFirstFails.SearcherIndexSpace i (StorageSpace.GetId sp) = some e
      ∧ (svc.IndexSpace indexEnvFirstFails reqAllSpaces world0).1 = some (.raw e)
      ∧ ∀ j x, j < i → [spaceA, spaceB][j]? = some x →
          indexEnvFirstFails.SearcherIndexSpace j (StorageSpace.GetId x) = none :=
  IndexSpace_reports_first_index_failure svc indexEnvFirstFails reqAllSpaces world0 _ _ _
    rfl rfl rfl rfl rfl ⟨0, spaceA, rfl, by decide⟩

/-- C14: with an empty space id, a successful enumeration and every per-space indexing
succeeding, `IndexSpace` calls `searcher.IndexSpace` exactly once per listed space, in
listing order, with that space's id, and returns nil; for an empty listing it makes no
such call and returns nil. -/
theorem IndexSpace_all_spaces_indexed (s : Service) (env : IndexEnv)
    (inp : Option IndexSpaceRequest) (w : World) (gwc : GatewayClient) (ctx : Ctx)
    (resp : Option ListStorageSpacesResponse)
    (hempty : IndexSpaceRequest.GetSpaceId inp = "")
    (hg : env.gwsNext = .ok gwc)
    (hc : env.GetServiceUserContext s.ServiceAccountID gwc s.ServiceAccountSecret = .ok ctx)
    (hl : env.ListStorageSpaces gwc ctx = .ok resp)
    (hcode : Status.GetCode (ListStorageSpacesResponse.GetStatus resp) = CODE_OK)
    (hok : ∀ i sp, (ListStorageSpacesResponse.GetStorageSpaces resp)[i]? = some sp →
      env.SearcherIndexSpace i (StorageSpace.GetId sp) = none) :
    (s.IndexSpace env inp w).1 = none
      ∧ (s.IndexSpace env inp w).2.trace
        = w.trace ++ [Call.gatewayNext,
            Call.getServiceUserContext s.ServiceAccountID gwc s.ServiceAccountSecret,
            Call.listStorageSpaces gwc ctx]
          ++ (ListStorageSpacesResponse.GetStorageSpaces resp).map
              (fun space => Call.searcherIndexSpace (StorageSpace.GetId space))
      ∧ (ListStorageSpacesResponse.GetStorageSpaces resp = [] →
          (s.IndexSpace env inp w).2.trace
            = w.trace ++ [Call.gatewayNext,
                Call.getServiceUserContext s.ServiceAccountID gwc s.ServiceAccountSecret,
                Call.listStorageSpaces gwc ctx]) := by
  rw [IndexSpace_eq_listed s env inp w gwc ctx resp hempty hg hc hl hcode,
    indexSpaces_all_ok env _ 0 _ (fun i x hx => by rw [Nat.zero_add]; exact hok i x hx)]
  refine ⟨rfl, rfl, ?_⟩
  intro hnil
  simp [hnil]

/-- Witness of `IndexSpace_all_spaces_indexed`: `space-a` then `space-b`. -/
theorem IndexSpace_all_spaces_indexed_witness :
    (svc.IndexSpace indexEnvTwo reqAllSpaces world0).1 = none
      ∧ (svc.IndexSpace indexEnvTwo reqAllSpaces world0).2.trace
        = [Call.gatewayNext,
            Call.getServiceUserContext "svc-account" { address := "gateway" } "svc-secret",
            Call.listStorageSpaces { address := "gateway" } { token := none, outgoing := [], user := none },
            Call.searcherIndexSpace (some { OpaqueId := "space-a" }),
            Call.searcherIndexSpace (some { OpaqueId := "space-b" })] :=
  have h := IndexSpace_all_spaces_indexed svc indexEnvTwo reqAllSpaces world0 _ _ _
    rfl rfl rfl rfl rfl (fun _ _ _ => rfl)
  ⟨h.1, h.2.1⟩

/-! ## Event reindexer -/

/-- C15: the event mapping holds exactly: for a received event `HandleEvents` issues
`TrashItem` then `IndexSpace` for `ItemTrashed`, `MoveItem` then `IndexSpace` for
`ItemMoved`, `RestoreItem` then `IndexSpace` for `ItemRestored`, `UpsertItem` then
`IndexSpace` for `TagsAdded` and for `TagsRemoved`, only `IndexSpace` for
`ContainerCreated`, `FileTouched` and `FileVersionRestored`, and no other call (so
`ItemMoved` never issues `UpsertItem`); every entry of the test table passes. -/
theorem HandleEvents_mapping (asyncUploads : Bool) (spaceID itemID : String) :
    HandleEvents asyncUploads [{ kind := .ItemTrashed, spaceID := spaceID, itemID := itemID }]
        = [.TrashItem spaceID itemID, .IndexSpace spaceID]
      ∧ HandleEvents asyncUploads [{ kind := .ItemMoved, spaceID := spaceID, itemID := itemID }]
        = [.MoveItem spaceID itemID, .IndexSpace spaceID]
      ∧ HandleEvents asyncUploads [{ kind := .ItemRestored, spaceID := spaceID, itemID := itemID }]
        = [.RestoreItem spaceID itemID, .IndexSpace spaceID]
      ∧ HandleEvents asyncUploads [{ kind := .TagsAdded, spaceID := spaceID, itemID := itemID }]
        = [.UpsertItem spaceID itemID, .IndexSpace spaceID]
      ∧ HandleEvents asyncUploads [{ kind := .TagsRemoved, spaceID := spaceID, itemID := itemID }]
        = [.UpsertItem spaceID itemID, .IndexSpace spaceID]
      ∧ HandleEvents asyncUploads [{ kind := .ContainerCreated, spaceID := spaceID, itemID := itemID }]
        = [.IndexSpace spaceID]
      ∧ HandleEvents asyncUploads [{ kind := .FileTouched, spaceID := spaceID, itemID := itemID }]
        = [.IndexSpace spaceID]
      ∧ HandleEvents asyncUploads [{ kind := .FileVersionRestored, spaceID := spaceID, itemID := itemID }]
        = [.IndexSpace spaceID]
      ∧ ((HandleEvents asyncUploads
            [{ kind := .ItemMoved, spaceID := spaceID, itemID := itemID }]).map EngineCall.method).contains
          "UpsertItem" = false
      ∧ eventsTestTable.all EventsTestEntry.passes = true := by
  refine ⟨rfl, rfl, rfl, rfl, rfl, rfl, rfl, rfl, ?_, ?_⟩
  · simp [HandleEvents, eventCalls, EngineCall.method]
  · decide

/-- C16: the upload policy: with asynchronous uploads disabled an uploaded-file event
issues `IndexSpace` and `UploadReady` issues no call; with them enabled `UploadReady`
issues `IndexSpace` and the uploaded-file event issues no call; so under either mode the
two events of one upload lead to exactly one `IndexSpace` call. -/
theorem HandleEvents_upload_policy (spaceID itemID : String) :
    HandleEvents false [{ kind := .ItemUploaded, spaceID := spaceID, itemID := itemID }]
        = [.IndexSpace spaceID]
      ∧ HandleEvents false [{ kind := .UploadReady, spaceID := spaceID, itemID := itemID }] = []
      ∧ HandleEvents true [{ kind := .UploadReady, spaceID := spaceID, itemID := itemID }]
        = [.IndexSpace spaceID]
      ∧ HandleEvents true [{ kind := .ItemUploaded, spaceID := spaceID, itemID := itemID }] = []
      ∧ ∀ asyncUploads : Bool,
          HandleEvents asyncUploads
              [{ kind := .ItemUploaded, spaceID := spaceID, itemID := itemID },
                { kind := .UploadReady, spaceID := spaceID, itemID := itemID }]
            = [.IndexSpace spaceID] := by
  refine ⟨rfl, rfl, rfl, rfl, ?_⟩
  intro asyncUploads
  cases asyncUploads <;> rfl

/-! ## `NewHandler` -/

theorem initEngine_error (env : StartupEnv) (cfg : Config) (r : StartupResult)
    (h : (initEngine env cfg).1 = .error r) : ∃ err, r = .returned none .noop (some err) := by
  unfold initEngine at h
  split_ifs at h
  · cases hb : env.NewBleveIndex cfg.BleveDatapath with
    | none => rw [hb] at h; cases h
    | some err => rw [hb] at h; simp only [Except.error.injEq] at h; exact ⟨_, h.symm⟩
  · cases hc : env.OpenSearchNewClient with
    | some err => rw [hc] at h; simp only [Except.error.injEq] at h; exact ⟨_, h.symm⟩
    | none =>
      rw [hc] at h
      cases he : env.OpenSearchNewEngine with
      | some err => rw [he] at h; simp only [Except.error.injEq] at h; exact ⟨_, h.symm⟩
      | none => rw [he] at h; cases h
  · simp only [Except.error.injEq] at h; exact ⟨_, h.symm⟩

theorem initEngine_no_setTTL (env : StartupEnv) (cfg : Config) :
    (initEngine env cfg).2.filter StartupCall.isCacheSetTTL = [] := by
  unfold initEngine
  split_ifs
  · cases env.NewBleveIndex cfg.BleveDatapath <;> rfl
  · cases env.OpenSearchNewClient with
    | some err => rfl
    | none => cases env.OpenSearchNewEngine <;> rfl
  · rfl

theorem initExtractor_no_setTTL (env : StartupEnv) (cfg : Config) :
    (initExtractor env cfg).2.filter StartupCall.isCacheSetTTL = [] := by
  unfold initExtractor
  split_ifs <;> rfl

theorem initEngine_no_setTTL_mem (env : StartupEnv) (cfg : Config) (ttl : Nat) :
    StartupCall.cacheSetTTL ttl ∉ (initEngine env cfg).2 := by
  intro h
  have : StartupCall.cacheSetTTL ttl ∈ (initEngine env cfg).2.filter StartupCall.isCacheSetTTL :=
    List.mem_filter.mpr ⟨h, rfl⟩
  rw [initEngine_no_setTTL] at this
  cases this

theorem initExtractor_no_setTTL_mem (env : StartupEnv) (cfg : Config) (ttl : Nat) :
    StartupCall.cacheSetTTL ttl ∉ (initExtractor env cfg).2 := by
  intro h
  have : StartupCall.cacheSetTTL ttl ∈ (initExtractor env cfg).2.filter StartupCall.isCacheSetTTL :=
    List.mem_filter.mpr ⟨h, rfl⟩
  rw [initExtractor_no_setTTL] at this
  cases this

/-- The cache TTL is the same after every `Search` call as before it. -/
theorem Search_preserves_ttl (s : Service) (env : SearchEnv) (ctx : Ctx)
    (inp : SearchRequest) (out : SearchResponse) (w : World) :
    (s.Search env ctx inp out w).2.2.cache.ttl = w.cache.ttl := by
  cases ht : ctx.token with
  | none => rw [Search_eq_no_token s env ctx inp out w ht]; rfl
  | some t =>
    cases hu : env.DismantleToken (appendToOutgoingContext ctx t) t with
    | error e => rw [Search_eq_token_error s env ctx inp out w t e ht hu]; rfl
    | ok u =>
      by_cases hhit : ∃ sr, w.cache.fresh env.tLookup (cacheKey inp.Query inp.PageSize inp.Ref u)
          = some (.searchResponse sr)
      · obtain ⟨sr, hsr⟩ := hhit
        rw [Search_eq_hit s env ctx inp out w t u sr ht hu hsr, copyResult_world]
        exact Cache.getItem_snd_ttl _ _ _
      · have hmiss : ∀ sr, w.cache.fresh env.tLookup (cacheKey inp.Query inp.PageSize inp.Ref u)
            ≠ some (.searchResponse sr) := fun sr hsr => hhit ⟨sr, hsr⟩
        cases hs : env.SearcherSearch (contextSetUser (appendToOutgoingContext ctx t) u)
            (engineRequest inp) with
        | error e =>
          rw [Search_eq_miss_error s env ctx inp out w t u e ht hu hmiss hs]
          exact Cache.getItem_snd_ttl _ _ _
        | ok res =>
          rw [Search_eq_miss_ok s env ctx inp out w t u res ht hu hmiss hs, copyResult_world]
          show (Cache.Set _ _ _ _).ttl = _
          rw [Cache.Set_ttl]
          exact Cache.getItem_snd_ttl _ _ _

/-- C19: `NewHandler` accepts only the fixed variants: with an engine type that is
neither `bleve` nor `open-search` it returns a nil handler and the error
`unknown search engine: <type>` before making any call (no gateway selector, extractor,
event stream or cache); once a valid engine is built and the gateway selector obtained,
an extractor type that is neither `basic` nor `tika` gives a nil handler and the error
`unknown search extractor: <type>`; with such an extractor type no handler is ever
returned. -/
theorem NewHandler_rejects_unknown_variants (env : StartupEnv) (options : Options) :
    ((options.Config.EngineType ≠ "bleve" ∧ options.Config.EngineType ≠ "open-search") →
        NewHandler env options
          = (.returned none .noop
              (some (.errorString ("unknown search engine: " ++ options.Config.EngineType))), []))
      ∧ (((options.Config.EngineType = "bleve"
              ∧ env.NewBleveIndex options.Config.BleveDatapath = none)
            ∨ (options.Config.EngineType = "open-search" ∧ env.OpenSearchNewClient = none
              ∧ env.OpenSearchNewEngine = none)) →
          env.GatewaySelector options.Config.RevaAddress = none →
          (options.Config.ExtractorType ≠ "basic" ∧ options.Config.ExtractorType ≠ "tika") →
          ∃ teardown, (NewHandler env options).1
            = .returned none teardown
                (some (.errorString ("unknown search extractor: " ++ options.Config.ExtractorType))))
      ∧ ((options.Config.ExtractorType ≠ "basic" ∧ options.Config.ExtractorType ≠ "tika") →
          ∀ h teardown err, (NewHandler env options).1 ≠ .returned (some h) teardown err) := by
  refine ⟨?_, ?_, ?_⟩
  · rintro ⟨h1, h2⟩
    simp only [NewHandler, initEngine, h1, h2, if_false]
  · rintro hengine hsel ⟨h1, h2⟩
    rcases hengine with ⟨hb, hidx⟩ | ⟨ho, hc, he⟩
    · refine ⟨Teardown.closeIndex options.Config.BleveDatapath, ?_⟩
      simp only [NewHandler, initEngine, initExtractor, hb, hidx, hsel, h1, h2, if_true, if_false]
    · have hd : ("open-search" : String) ≠ "bleve" := by decide
      refine ⟨Teardown.noop, ?_⟩
      simp only [NewHandler, initEngine, initExtractor, ho, hd, hc, he, hsel, h1, h2, if_true,
        if_false]
  · rintro ⟨h1, h2⟩ h td err hres
    unfold NewHandler at hres
    rcases hE : initEngine env options.Config with ⟨r | td0, tr⟩
    · obtain ⟨e0, hr⟩ := initEngine_error env options.Config r (by rw [hE])
      rw [hE] at hres
      simp only [hr] at hres
      cases hres
    · rw [hE] at hres
      simp only at hres
      cases hG : env.GatewaySelector options.Config.RevaAddress with
      | some e0 => rw [hG] at hres; cases hres
      | none =>
        rw [hG] at hres
        simp only [initExtractor, h1, h2, if_false] at hres
        cases hres

/-- Witness of `NewHandler_rejects_unknown_variants`: the engine type `solr` and the
extractor type `ocr`. -/
theorem NewHandler_rejects_unknown_variants_witness :
    NewHandler startupEnvOk optionsSolr
        = (.returned none .noop (some (.errorString "unknown search engine: solr")), [])
      ∧ ∃ teardown, (NewHandler startupEnvOk optionsOcr).1
          = .returned none teardown (some (.errorString "unknown search extractor: ocr")) :=
  ⟨(NewHandler_rejects_unknown_variants startupEnvOk optionsSolr).1 (by decide),
    (NewHandler_rejects_unknown_variants startupEnvOk optionsOcr).2.1
      (Or.inl ⟨rfl, rfl⟩) rfl (by decide)⟩

/-- C20: every handler `NewHandler` returns has a result cache whose TTL is exactly one
second, set by the single `SetTTL` call of the construction and kept by every `Search`
call; when that `SetTTL` call fails `NewHandler` returns its error and no handler. -/
theorem NewHandler_cache_ttl (env : StartupEnv) (options : Options) :
    (∀ h teardown err, (NewHandler env options).1 = .returned (some h) teardown err →
        h.cache.ttl = timeSecond
          ∧ (NewHandler env options).2.filter StartupCall.isCacheSetTTL
            = [StartupCall.cacheSetTTL timeSecond]
          ∧ ∀ (senv : SearchEnv) (ctx : Ctx) (inp : SearchRequest) (out : SearchResponse)
              (trace : List Call),
              (h.service.Search senv ctx inp out { cache := h.cache, trace := trace }).2.2.cache.ttl
                = timeSecond)
      ∧ (∀ e, StartupCall.cacheSetTTL timeSecond ∈ (NewHandler env options).2 →
          env.CacheSetTTL timeSecond = some e →
          ∃ teardown, (NewHandler env options).1 = .returned none teardown (some e)) := by
  have hnoE := initEngine_no_setTTL env options.Config
  have hnoX := initExtractor_no_setTTL env options.Config
  have hmemE := initEngine_no_setTTL_mem env options.Config timeSecond
  have hmemX := initExtractor_no_setTTL_mem env options.Config timeSecond
  unfold NewHandler
  rcases hE : initEngine env options.Config with ⟨r | td0, tr⟩
  · obtain ⟨e0, hr⟩ := initEngine_error env options.Config r (by rw [hE])
    rw [hE] at hmemE
    subst hr
    refine ⟨fun h td err hres => (by cases hres), fun e hmem _ => absurd hmem hmemE⟩
  · rw [hE] at hmemE hnoE
    simp only at hmemE hnoE ⊢
    cases hG : env.GatewaySelector options.Config.RevaAddress with
    | some e0 =>
      refine ⟨fun h td err hres => (by cases hres), fun e hmem _ => ?_⟩
      simp only [List.mem_append, List.mem_singleton, hmemE, false_or] at hmem
      rcases hmem with hmem | hmem <;> cases hmem
    | none =>
      rcases hX : initExtractor env options.Config with ⟨_ | e1, tr2⟩
      · rw [hX] at hmemX hnoX
        simp only at hmemX hnoX ⊢
        cases hR : env.RawFromConfig with
        | some e2 =>
          refine ⟨fun h td err hres => (by cases hres), fun e hmem _ => ?_⟩
          simp only [List.mem_append, List.mem_cons, List.mem_singleton, List.mem_nil_iff, hmemE,
            hmemX, false_or, or_false] at hmem
          rcases hmem with hmem | hmem | hmem <;> cases hmem
        | none =>
          cases hH : env.HandleEvents with
          | some e3 =>
            refine ⟨fun h td err hres => (by cases hres), fun e hmem _ => ?_⟩
            simp only [List.mem_append, List.mem_cons, List.mem_singleton, List.mem_nil_iff, hmemE,
              hmemX, false_or, or_false] at hmem
            rcases hmem with (hmem | hmem | hmem) | hmem <;> cases hmem
          | none =>
            cases hT : env.CacheSetTTL timeSecond with
            | some e4 =>
              refine ⟨fun h td err hres => (by cases hres), fun e _ he => ?_⟩
              cases he
              exact ⟨_, rfl⟩
            | none =>
              cases hJ : env.JwtNew options.JWTSecret with
              | some e5 =>
                refine ⟨fun h td err hres => (by cases hres), fun e _ he => (by cases he)⟩
              | none =>
                refine ⟨fun h td err hres => ?_, fun e _ he => (by cases he)⟩
                simp only [StartupResult.returned.injEq, Option.some.injEq] at hres
                obtain ⟨hh, _, _⟩ := hres
                subst hh
                refine ⟨rfl, ?_, ?_⟩
                · simp only [List.filter_append, hnoE, hnoX, List.nil_append]
                  rfl
                · intro senv ctx inp out trace
                  rw [Search_preserves_ttl]
                  rfl
      · rw [hX] at hmemX
        simp only at hmemX ⊢
        refine ⟨fun h td err hres => (by cases hres), fun e hmem _ => ?_⟩
        simp only [List.mem_append, List.mem_singleton, hmemE, hmemX, false_or, or_false] at hmem
        cases hmem

/-- Witness of `NewHandler_cache_ttl`: a bleve configuration in which every constructor
succeeds, and one in which `SetTTL` fails. -/
theorem NewHandler_cache_ttl_witness :
    (∃ h teardown, (NewHandler startupEnvOk optionsBleve).1 = .returned (some h) teardown none
        ∧ h.cache.ttl = 1000000000)
      ∧ ∃ teardown, (NewHandler startupEnvTTLFails optionsBleve).1
          = .returned none teardown (some (.other "ttlcache.Error" "cache closed")) :=
  ⟨⟨_, _, rfl, ((NewHandler_cache_ttl startupEnvOk optionsBleve).1 _ _ _ rfl).1⟩,
    (NewHandler_cache_ttl startupEnvTTLFails optionsBleve).2 _ (by decide) rfl⟩

end Search

namespace Collaboration

/-! ## Lemmas on association lists -/

theorem lookup_of_mem {β : Type} (k : String) (v : β) :
    ∀ l : List (String × β), (l.map Prod.fst).Nodup → (k, v) ∈ l → l.lookup k = some v := by
  intro l
  induction l with
  | nil => intro _ h; simp at h
  | cons p rest ih =>
    intro hnd hmem
    obtain ⟨k', v'⟩ := p
    simp only [List.map_cons, List.nodup_cons, List.mem_map, Prod.exists, exists_and_right,
      exists_eq_right, not_exists] at hnd
    rcases List.mem_cons.mp hmem with heq | hrest
    · cases heq
      simp [List.lookup]
    · have hne : k ≠ k' := by
        intro h
        subst h
        exact hnd.1 v hrest
      have hb : (k == k') = false := by simpa using hne
      simp only [List.lookup, hb]
      exact ih hnd.2 hrest

theorem lookup_of_not_mem {β : Type} (k : String) :
    ∀ l : List (String × β), (∀ v, (k, v) ∉ l) → l.lookup k = none := by
  intro l
  induction l with
  | nil => intro _; rfl
  | cons p rest ih =>
    intro h
    obtain ⟨k', v'⟩ := p
    have hne : k ≠ k' := by
      intro heq
      subst heq
      exact h v' (List.mem_cons_self _ _)
    have hb : (k == k') = false := by simpa using hne
    simp only [List.lookup, hb]
    exact ih (fun v hv => h v (List.mem_cons_of_mem _ hv))

/-! ## `AppURLs` -/

/-- C17: lookup is a round trip of `Store`: for a stored map `m` (a Go map, each key
once), `GetAppURLFor(action, ext)` returns `m[action][ext]` when both keys exist, and
the empty string when the action is absent, when the map of the action is nil, or when
the extension is absent; on a fresh `AppURLs` every lookup returns the empty string. -/
theorem GetAppURLFor_after_Store (a : AppURLs) (m : URLMap) (action ext : String)
    (hkeys : (m.map Prod.fst).Nodup) :
    (∀ extensions url, (action, some extensions) ∈ m → (extensions.map Prod.fst).Nodup →
        (ext, url) ∈ extensions → (a.Store m).GetAppURLFor action ext = url)
      ∧ ((∀ v, (action, v) ∉ m) → (a.Store m).GetAppURLFor action ext = "")
      ∧ ((action, none) ∈ m → (a.Store m).GetAppURLFor action ext = "")
      ∧ (∀ extensions, (action, some extensions) ∈ m → (∀ url, (ext, url) ∉ extensions) →
          (a.Store m).GetAppURLFor action ext = "")
      ∧ NewAppURLs.GetAppURLFor action ext = "" := by
  refine ⟨?_, ?_, ?_, ?_, rfl⟩
  · intro extensions url hm hnd he
    simp only [AppURLs.GetAppURLFor, AppURLs.Store, lookup_of_mem action _ m hkeys hm,
      lookup_of_mem ext url extensions hnd he]
  · intro hm
    simp only [AppURLs.GetAppURLFor, AppURLs.Store, lookup_of_not_mem action m hm]
  · intro hm
    simp only [AppURLs.GetAppURLFor, AppURLs.Store, lookup_of_mem action _ m hkeys hm]
  · intro extensions hm he
    simp only [AppURLs.GetAppURLFor, AppURLs.Store, lookup_of_mem action _ m hkeys hm,
      lookup_of_not_mem ext extensions he]

/-- Witness of `GetAppURLFor_after_Store`: the stored edit URL of `.pdf` is found. -/
theorem GetAppURLFor_after_Store_witness :
    (NewAppURLs.Store urlsDedupTest).GetAppURLFor "edit" ".pdf" = "https://example.com/edit/pdf" :=
  (GetAppURLFor_after_Store NewAppURLs urlsDedupTest "edit" ".pdf" (by decide)).1
    [(".pdf", "https://example.com/edit/pdf"), (".txt", "https://example.com/edit/txt")]
    "https://example.com/edit/pdf" (by decide) (by decide) (by decide)

theorem mem_storedExtensions (m : URLMap) (action : String) (extensions : List (String × String))
    (ext url : String) (hm : (action, some extensions) ∈ m) (he : (ext, url) ∈ extensions) :
    ext ∈ storedExtensions m := by
  simp only [storedExtensions, List.mem_flatMap]
  exact ⟨(action, some extensions), hm, List.mem_map.mpr ⟨(ext, url), he, rfl⟩⟩

theorem storedExtensions_nil (m : URLMap)
    (h : ∀ entry ∈ m, entry.2 = none ∨ entry.2 = some []) : storedExtensions m = [] := by
  induction m with
  | nil => rfl
  | cons p rest ih =>
    have hrest := ih (fun e he => h e (List.mem_cons_of_mem _ he))
    have hp := h p (List.mem_cons_self _ _)
    simp only [storedExtensions, List.flatMap_cons] at hrest ⊢
    rw [hrest]
    rcases hp with hp | hp <;> simp [hp]

/-- C18: for every stored map, `GetMimeTypes` returns a list without repetitions that
never contains `application/octet-stream`, contains the mime type of every stored
extension whose mime type is known, however many actions list the extension, and is
empty when the extension map of every action is empty or nil. -/
theorem GetMimeTypes_properties (detect : String → String) (a : AppURLs) (m : URLMap) :
    ((a.Store m).GetMimeTypes detect).Nodup
      ∧ octetStream ∉ (a.Store m).GetMimeTypes detect
      ∧ (∀ action extensions ext url, (action, some extensions) ∈ m → (ext, url) ∈ extensions →
          detect ext ≠ octetStream → detect ext ∈ (a.Store m).GetMimeTypes detect)
      ∧ ((∀ entry ∈ m, entry.2 = none ∨ entry.2 = some []) →
          (a.Store m).GetMimeTypes detect = []) := by
  refine ⟨List.nodup_dedup _, ?_, ?_, ?_⟩
  · simp [AppURLs.GetMimeTypes, List.mem_dedup, List.mem_filter]
  · intro action extensions ext url hm he hknown
    simp only [AppURLs.GetMimeTypes, AppURLs.Store, List.mem_dedup, List.mem_filter,
      List.mem_map, decide_eq_true_eq]
    exact ⟨⟨ext, mem_storedExtensions m action extensions ext url hm he, rfl⟩, hknown⟩
  · intro h
    simp [AppURLs.GetMimeTypes, AppURLs.Store, storedExtensions_nil m h]

/-- Witness of `GetMimeTypes_properties`: `.pdf` listed under two actions is reported,
and a map of nil and empty extension maps reports nothing. -/
theorem GetMimeTypes_properties_witness :
    "application/pdf" ∈ (NewAppURLs.Store urlsDedupTest).GetMimeTypes detectSample
      ∧ ((NewAppURLs.Store urlsDedupTest).GetMimeTypes detectSample).length = 2
      ∧ (NewAppURLs.Store urlsNilTest).GetMimeTypes detectSample = [] :=
  ⟨(GetMimeTypes_properties detectSample NewAppURLs urlsDedupTest).2.2.1 "edit"
      [(".pdf", "https://example.com/edit/pdf"), (".txt", "https://example.com/edit/txt")]
      ".pdf" "https://example.com/edit/pdf" (by decide) (by decide) (by decide),
    by decide,
    (GetMimeTypes_properties detectSample NewAppURLs urlsNilTest).2.2.2 (by decide)⟩

end Collaboration

namespace Command

/-! ## The runner results -/

theorem firstRunnerError_none (results : List Result) :
    firstRunnerError results = none ↔ ∀ r ∈ results, r.RunnerError = none := by
  induction results with
  | nil => simp [firstRunnerError]
  | cons r rest ih =>
    cases hr : r.RunnerError with
    | none => simp [firstRunnerError, hr, ih]
    | some e => simp [firstRunnerError, hr]

theorem firstRunnerError_some (results : List Result) (e : Search.Err) :
    firstRunnerError results = some e ↔
      ∃ pre r post, results = pre ++ r :: post ∧ (∀ x ∈ pre, x.RunnerError = none)
        ∧ r.RunnerError = some e := by
  induction results with
  | nil => simp [firstRunnerError]
  | cons r rest ih =>
    cases hr : r.RunnerError with
    | some e' =>
      simp only [firstRunnerError, hr, Option.some.injEq]
      constructor
      · intro h
        subst h
        exact ⟨[], r, rest, rfl, by simp, hr⟩
      · rintro ⟨pre, x, post, hsplit, hpre, hx⟩
        cases pre with
        | nil =>
          simp only [List.nil_append, List.cons.injEq] at hsplit
          rw [← hsplit.1, hr] at hx
          exact Option.some.inj hx
        | cons p pre' =>
          simp only [List.cons_append, List.cons.injEq] at hsplit
          have := hpre p (List.mem_cons_self _ _)
          rw [← hsplit.1, hr] at this
          cases this
    | none =>
      simp only [firstRunnerError, hr, ih]
      constructor
      · rintro ⟨pre, x, post, hsplit, hpre, hx⟩
        refine ⟨r :: pre, x, post, by rw [hsplit]; rfl, ?_, hx⟩
        intro y hy
        rcases List.mem_cons.mp hy with rfl | hy
        · exact hr
        · exact hpre y hy
      · rintro ⟨pre, x, post, hsplit, hpre, hx⟩
        cases pre with
        | nil =>
          simp only [List.nil_append, List.cons.injEq] at hsplit
          rw [← hsplit.1, hr] at hx
          cases hx
        | cons p pre' =>
          simp only [List.cons_append, List.cons.injEq] at hsplit
          exact ⟨pre', x, post, hsplit.2, fun y hy => hpre y (List.mem_cons_of_mem _ hy), hx⟩

/-- C21: once the setup steps of the search `server` command have succeeded and the
runner group has run, the `Action` returns the first non-nil `RunnerError` in the order
of the results, and returns nil if and only if no result carries a non-nil
`RunnerError`. -/
theorem searchAction_first_runner_error (env : ActionEnv)
    (htrace : env.GetServiceTraceProvider = none) (hclient : env.NewClient = none)
    (hgrpc : env.grpcServer = none) (hdebug : env.debugServer = none) :
    (∀ e, (searchAction env).1 = some e ↔
        ∃ pre r post, env.Run = pre ++ r :: post ∧ (∀ x ∈ pre, x.RunnerError = none)
          ∧ r.RunnerError = some e)
      ∧ ((searchAction env).1 = none ↔ ∀ r ∈ env.Run, r.RunnerError = none) := by
  have h : (searchAction env).1 = firstRunnerError env.Run := by
    simp only [searchAction, htrace, hclient, hgrpc, hdebug]
  rw [h]
  exact ⟨fun e => firstRunnerError_some env.Run e, firstRunnerError_none env.Run⟩

/-- Witness of `searchAction_first_runner_error`: the gRPC runner ends cleanly, the debug
runner fails, and its error is returned. -/
theorem searchAction_first_runner_error_witness :
    (searchAction actionEnvDebugFails).1 = some (.errorString "listen: address in use") :=
  ((searchAction_first_runner_error actionEnvDebugFails rfl rfl rfl rfl).1 _).mpr
    ⟨[{ RunnerID := "search_grpc", RunnerError := none }],
      { RunnerID := "search_debug", RunnerError := some (.errorString "listen: address in use") },
      [], rfl, by decide, rfl⟩

end Command

namespace StorageUsers

/-- C22 (the code at the failing input): read by the constructor that made them, the
value under `ocis` in `StorageProviderDrivers` is `Decomposed(cfg)` while the value
under `decomposed` is `DecomposedNoEvents(cfg)`, and the value under `s3ng` in
`DataProviderDrivers` is `DecomposedS3NoEvents(cfg)` while the value under
`decomposeds3` is `DecomposedS3(cfg)`; the two other pairs agree. -/
theorem deprecated_driver_names_diverge :
    (StorageProviderDrivers namedDrivers cfg0).lookup "ocis" = some (.Decomposed cfg0)
      ∧ (StorageProviderDrivers namedDrivers cfg0).lookup "decomposed"
        = some (.DecomposedNoEvents cfg0)
      ∧ (StorageProviderDrivers namedDrivers cfg0).lookup "ocis"
        ≠ (StorageProviderDrivers namedDrivers cfg0).lookup "decomposed"
      ∧ (DataProviderDrivers namedDrivers cfg0).lookup "s3ng" = some (.DecomposedS3NoEvents cfg0)
      ∧ (DataProviderDrivers namedDrivers cfg0).lookup "decomposeds3" = some (.DecomposedS3 cfg0)
      ∧ (DataProviderDrivers namedDrivers cfg0).lookup "s3ng"
        ≠ (DataProviderDrivers namedDrivers cfg0).lookup "decomposeds3"
      ∧ (StorageProviderDrivers namedDrivers cfg0).lookup "s3ng"
        = (StorageProviderDrivers namedDrivers cfg0).lookup "decomposeds3"
      ∧ (DataProviderDrivers namedDrivers cfg0).lookup "ocis"
        = (DataProviderDrivers namedDrivers cfg0).lookup "decomposed" := by
  decide

/-- For any driver constructors: the deprecated names are aliases exactly when
`Decomposed` and `DecomposedNoEvents`, and `DecomposedS3NoEvents` and `DecomposedS3`,
give the same configuration. -/
theorem deprecated_driver_names_alias_iff {δ : Type} (d : Drivers δ) (cfg : Config) :
    ((StorageProviderDrivers d cfg).lookup "ocis" = (StorageProviderDrivers d cfg).lookup "decomposed"
        ↔ d.Decomposed cfg = d.DecomposedNoEvents cfg)
      ∧ (StorageProviderDrivers d cfg).lookup "s3ng"
        = (StorageProviderDrivers d cfg).lookup "decomposeds3"
      ∧ (DataProviderDrivers d cfg).lookup "ocis" = (DataProviderDrivers d cfg).lookup "decomposed"
      ∧ ((DataProviderDrivers d cfg).lookup "s3ng" = (DataProviderDrivers d cfg).lookup "decomposeds3"
        ↔ d.DecomposedS3NoEvents cfg = d.DecomposedS3 cfg) := by
  have e1 : (StorageProviderDrivers d cfg).lookup "ocis" = some (d.Decomposed cfg) := by
    simp [StorageProviderDrivers, List.lookup]
  have e2 : (StorageProviderDrivers d cfg).lookup "decomposed" = some (d.DecomposedNoEvents cfg) := by
    simp [StorageProviderDrivers, List.lookup]
  have e3 : (StorageProviderDrivers d cfg).lookup "s3ng" = some (d.DecomposedS3NoEvents cfg) := by
    simp [StorageProviderDrivers, List.lookup]
  have e4 : (StorageProviderDrivers d cfg).lookup "decomposeds3" = some (d.DecomposedS3NoEvents cfg) := by
    simp [StorageProviderDrivers, List.lookup]
  have e5 : (DataProviderDrivers d cfg).lookup "ocis" = some (d.Decomposed cfg) := by
    simp [DataProviderDrivers, List.lookup]
  have e6 : (DataProviderDrivers d cfg).lookup "decomposed" = some (d.Decomposed cfg) := by
    simp [DataProviderDrivers, List.lookup]
  have e7 : (DataProviderDrivers d cfg).lookup "s3ng" = some (d.DecomposedS3NoEvents cfg) := by
    simp [DataProviderDrivers, List.lookup]
  have e8 : (DataProviderDrivers d cfg).lookup "decomposeds3" = some (d.DecomposedS3 cfg) := by
    simp [DataProviderDrivers, List.lookup]
  rw [e1, e2, e3, e4, e5, e6, e7, e8]
  simp

end StorageUsers

namespace Graph

open Validation

/-! ## Lemmas on `Validate` -/

theorem validateRoles_none (lib : Lib) (roles : List String) :
    ∀ err, validateRoles lib roles err = none ↔ err = none ∧ ∀ uid ∈ roles, lib.knownRole uid = true := by
  induction roles with
  | nil => intro err; simp [validateRoles]
  | cons uid rest ih =>
    intro err
    by_cases hk : lib.knownRole uid = true
    · simp [validateRoles, hk, ih]
    · simp [validateRoles, hk, ih]

theorem validateRoles_unknownIds (lib : Lib) (roles : List String) :
    ∀ err, ((validateRoles lib roles err).map CfgErr.unknownIds).getD []
      = (err.map CfgErr.unknownIds).getD [] ++ roles.filter (fun uid => !lib.knownRole uid) := by
  induction roles with
  | nil => intro err; simp [validateRoles]
  | cons uid rest ih =>
    intro err
    by_cases hk : lib.knownRole uid = true
    · simp [validateRoles, hk, ih]
    · simp only [validateRoles, hk, ih, Bool.false_eq_true, if_false]
      cases err <;> simp [errorsJoin, CfgErr.unknownIds, hk]

theorem validateRoles_isUnknownRole (lib : Lib) (roles : List String) :
    ∀ err, (∀ a, err = some a → a.isUnknownRole = true) →
      ∀ e, validateRoles lib roles err = some e → e.isUnknownRole = true := by
  induction roles with
  | nil => intro err h e he; exact h e he
  | cons uid rest ih =>
    intro err h e he
    by_cases hk : lib.knownRole uid = true
    · simp only [validateRoles, hk, if_true] at he
      exact ih err h e he
    · simp only [validateRoles, hk, Bool.false_eq_true, if_false] at he
      refine ih _ ?_ e he
      intro a ha
      cases err with
      | none =>
        simp only [errorsJoin, Option.some.injEq] at ha
        subst ha; rfl
      | some prev =>
        simp only [errorsJoin, Option.some.injEq] at ha
        subst ha
        simp [CfgErr.isUnknownRole, h prev rfl]

/-- When the checks before the role loop pass, `Validate` returns what the loop returns. -/
theorem Validate_eq_validateRoles (lib : Lib) (cfg : Config) (h : passesEarlierChecks lib cfg) :
    Validate lib cfg = validateRoles lib cfg.AvailableRoles none := by
  obtain ⟨hjwt, hbackend, hmt, hldap, happ, hum, hid, hsecret⟩ := h
  have hcontains : ["ldap", "cs3"].contains cfg.IdentityBackend = true := by
    rcases hbackend with hb | hb <;> simp [hb]
  have hmulti : (cfg.MultiTenantEnabled && cfg.IdentityBackend != "cs3") = false := by
    cases hm : cfg.MultiTenantEnabled with
    | false => simp
    | true => simp [hmt hm]
  have hl : (if cfg.IdentityBackend = "ldap" then validateLDAPSettings lib cfg else none) = none := by
    by_cases hb : cfg.IdentityBackend = "ldap"
    · simp [hb, hldap hb]
    · simp [hb]
  have humb : (cfg.UsernameMatch = "default" || cfg.UsernameMatch = "none") = true := by
    rcases hum with hu | hu <;> simp [hu]
  unfold Validate
  rw [if_neg hjwt, hcontains, hmulti, hl]
  simp only [Bool.not_true, Bool.false_eq_true, if_false, happ, hid, hsecret, humb]

/-- When `Validate` returns nil, every check before the role loop passed. -/
theorem passes_of_Validate_none (lib : Lib) (cfg : Config) (hv : Validate lib cfg = none) :
    passesEarlierChecks lib cfg := by
  unfold Validate at hv
  by_cases h1 : cfg.JWTSecret = ""
  · rw [if_pos h1] at hv; cases hv
  rw [if_neg h1] at hv
  by_cases h2 : (!(["ldap", "cs3"].contains cfg.IdentityBackend)) = true
  · rw [if_pos h2] at hv; cases hv
  rw [if_neg h2] at hv
  by_cases h3 : (cfg.MultiTenantEnabled && cfg.IdentityBackend != "cs3") = true
  · rw [if_pos h3] at hv; cases hv
  rw [if_neg h3] at hv
  have hbackend : cfg.IdentityBackend = "ldap" ∨ cfg.IdentityBackend = "cs3" := by
    by_cases hb1 : cfg.IdentityBackend = "ldap"
    · exact Or.inl hb1
    · by_cases hb2 : cfg.IdentityBackend = "cs3"
      · exact Or.inr hb2
      · exfalso; apply h2; simp [hb1, hb2]
  have hmt : cfg.MultiTenantEnabled = true → cfg.IdentityBackend = "cs3" := by
    intro hm
    by_contra hne
    apply h3
    simp [hm, hne]
  cases hl : (if cfg.IdentityBackend = "ldap" then validateLDAPSettings lib cfg else none) with
  | some err => rw [hl] at hv; cases hv
  | none =>
    rw [hl] at hv
    simp only at hv
    by_cases h4 : cfg.ApplicationID = ""
    · rw [if_pos h4] at hv; cases hv
    rw [if_neg h4] at hv
    by_cases h5 : (!(cfg.UsernameMatch = "default" || cfg.UsernameMatch = "none")) = true
    · rw [if_pos h5] at hv; cases hv
    rw [if_neg h5] at hv
    by_cases h6 : cfg.ServiceAccountID = ""
    · rw [if_pos h6] at hv; cases hv
    rw [if_neg h6] at hv
    by_cases h7 : cfg.ServiceAccountSecret = ""
    · rw [if_pos h7] at hv; cases hv
    have hum : cfg.UsernameMatch = "default" ∨ cfg.UsernameMatch = "none" := by
      by_cases hu1 : cfg.UsernameMatch = "default"
      · exact Or.inl hu1
      · by_cases hu2 : cfg.UsernameMatch = "none"
        · exact Or.inr hu2
        · exfalso; apply h5; simp [hu1, hu2]
    refine ⟨h1, hbackend, hmt, ?_, h4, hum, h6, h7⟩
    intro hb
    rw [if_pos hb] at hl
    exact hl

/-! ## `Validate` of the graph service -/

/-- C23: the graph `Validate` returns nil if and only if the JWT secret is non-empty, the
identity backend is `ldap` or `cs3`, multi-tenancy implies the backend `cs3`, the backend
`ldap` implies that `validateLDAPSettings` succeeds, the application id is non-empty, the
username match is `default` or `none`, the service account id and secret are non-empty,
and every id in `AvailableRoles` is a known role; a multi-tenant configuration on the
`ldap` backend is always rejected. -/
theorem graph_Validate_nil_iff (lib : Lib) (cfg : Config) :
    (Validate lib cfg = none ↔
        cfg.JWTSecret ≠ "" ∧ (cfg.IdentityBackend = "ldap" ∨ cfg.IdentityBackend = "cs3")
          ∧ (cfg.MultiTenantEnabled = true → cfg.IdentityBackend = "cs3")
          ∧ (cfg.IdentityBackend = "ldap" → validateLDAPSettings lib cfg = none)
          ∧ cfg.ApplicationID ≠ ""
          ∧ (cfg.UsernameMatch = "default" ∨ cfg.UsernameMatch = "none")
          ∧ cfg.ServiceAccountID ≠ "" ∧ cfg.ServiceAccountSecret ≠ ""
          ∧ ∀ uid ∈ cfg.AvailableRoles, lib.knownRole uid = true)
      ∧ (cfg.MultiTenantEnabled = true → cfg.IdentityBackend = "ldap" → Validate lib cfg ≠ none) := by
  have main : Validate lib cfg = none ↔
      passesEarlierChecks lib cfg ∧ ∀ uid ∈ cfg.AvailableRoles, lib.knownRole uid = true := by
    constructor
    · intro hv
      have hp := passes_of_Validate_none lib cfg hv
      rw [Validate_eq_validateRoles lib cfg hp, validateRoles_none] at hv
      exact ⟨hp, hv.2⟩
    · rintro ⟨hp, hr⟩
      rw [Validate_eq_validateRoles lib cfg hp, validateRoles_none]
      exact ⟨rfl, hr⟩
  constructor
  · rw [main]
    unfold passesEarlierChecks
    constructor
    · rintro ⟨⟨a1, a2, a3, a4, a5, a6, a7, a8⟩, r⟩
      exact ⟨a1, a2, a3, a4, a5, a6, a7, a8, r⟩
    · rintro ⟨a1, a2, a3, a4, a5, a6, a7, a8, r⟩
      exact ⟨⟨a1, a2, a3, a4, a5, a6, a7, a8⟩, r⟩
  · intro hm hb hv
    have hp := (main.mp hv).1
    have hcs3 := hp.2.2.1 hm
    rw [hb] at hcs3
    exact absurd hcs3 (by decide)

/-- Witness of `graph_Validate_nil_iff`: a valid configuration is accepted and a
multi-tenant one on the `ldap` backend is rejected. -/
theorem graph_Validate_nil_iff_witness :
    Validate libSample cfgValid = none ∧ Validate libSample cfgMultiTenantLDAP ≠ none :=
  ⟨(graph_Validate_nil_iff libSample cfgValid).1.mpr
      ⟨by decide, Or.inr rfl, by decide, by decide, by decide, Or.inl rfl, by decide, by decide,
        by decide⟩,
    (graph_Validate_nil_iff libSample cfgMultiTenantLDAP).2 rfl rfl⟩

/-- C24: when the configuration passes every check before the role loop and lists one or
more unknown role ids, `Validate` returns a single error that wraps `ErrUnknownRole` and
reports exactly the unknown ids of `AvailableRoles`, one joined error each, in list
order; known ids contribute nothing. -/
theorem graph_Validate_reports_all_unknown_roles (lib : Lib) (cfg : Config)
    (hearly : passesEarlierChecks lib cfg)
    (hunknown : ∃ uid ∈ cfg.AvailableRoles, lib.knownRole uid = false) :
    ∃ e, Validate lib cfg = some e ∧ e.isUnknownRole = true
      ∧ e.unknownIds = cfg.AvailableRoles.filter (fun uid => !lib.knownRole uid) := by
  rw [Validate_eq_validateRoles lib cfg hearly]
  cases hres : validateRoles lib cfg.AvailableRoles none with
  | none =>
    exfalso
    obtain ⟨uid, hmem, hk⟩ := hunknown
    have := ((validateRoles_none lib cfg.AvailableRoles none).mp hres).2 uid hmem
    rw [hk] at this
    cases this
  | some e =>
    refine ⟨e, rfl, ?_, ?_⟩
    · exact validateRoles_isUnknownRole lib cfg.AvailableRoles none (fun a ha => by cases ha) e hres
    · have := validateRoles_unknownIds lib cfg.AvailableRoles none
      rw [hres] at this
      simpa using this

/-- Witness of `graph_Validate_reports_all_unknown_roles`: the roles `ghost`, `viewer`,
`phantom` give one error reporting `ghost` and `phantom`. -/
theorem graph_Validate_reports_all_unknown_roles_witness :
    ∃ e, Validate libSample cfgUnknownRoles = some e ∧ e.isUnknownRole = true
      ∧ e.unknownIds = ["ghost", "phantom"] :=
  graph_Validate_reports_all_unknown_roles libSample cfgUnknownRoles
    ⟨by decide, Or.inr rfl, by decide, by decide, by decide, Or.inl rfl, by decide, by decide⟩
    ⟨"ghost", by decide, rfl⟩

end Graph

namespace Groups

open Validation

/-- C25: the groups `Validate` returns nil if and only if the JWT secret is non-empty,
multi-tenancy implies the driver `null`, and the driver `ldap` implies a non-empty LDAP
bind password; with an empty JWT secret the missing-JWT error is returned whatever the
other fields are. -/
theorem groups_Validate_nil_iff (cfg : Config) :
    (Validate cfg = none ↔
        cfg.JWTSecret ≠ "" ∧ (cfg.MultiTenantEnabled = true → cfg.Driver = "null")
          ∧ (cfg.Driver = "ldap" → cfg.LDAPBindPassword ≠ ""))
      ∧ (cfg.JWTSecret = "" → Validate cfg = some (.shared "MissingJWTTokenError" cfg.ServiceName)) := by
  constructor
  · unfold Validate
    by_cases h1 : cfg.JWTSecret = ""
    · simp [h1]
    · by_cases h2 : cfg.MultiTenantEnabled = true
      · by_cases h3 : cfg.Driver = "null"
        · simp [h1, h2, h3]
        · simp [h1, h2, h3]
      · by_cases h4 : cfg.Driver = "ldap"
        · by_cases h5 : cfg.LDAPBindPassword = ""
          · simp [h1, h2, h4, h5]
          · simp [h1, h2, h4, h5]
        · simp [h1, h2, h4]
  · intro h
    simp [Validate, h]

/-- Witness of `groups_Validate_nil_iff`: an LDAP configuration with a bind password. -/
theorem groups_Validate_nil_iff_witness : Validate cfgLDAP = none :=
  (groups_Validate_nil_iff cfgLDAP).1.mpr ⟨by decide, by decide, by decide⟩

end Groups

namespace Proxy

/-! ## Lemmas on the role ids -/

theorem dedup_of_all_eq (r : String) (roleIDs : List String) (hne : roleIDs ≠ [])
    (hall : ∀ x ∈ roleIDs, x = r) : roleIDs.dedup = [r] := by
  have hnodup : roleIDs.dedup.Nodup := List.nodup_dedup _
  have hmem : ∀ x ∈ roleIDs.dedup, x = r := fun x hx => hall x (List.mem_dedup.mp hx)
  have hr : r ∈ roleIDs.dedup := by
    cases roleIDs with
    | nil => exact absurd rfl hne
    | cons a rest =>
      have ha := hall a (List.mem_cons_self _ _)
      subst ha
      exact List.mem_dedup.mpr (List.mem_cons_self _ _)
  cases hd : roleIDs.dedup with
  | nil => rw [hd] at hr; cases hr
  | cons a rest =>
    rw [hd] at hnodup hmem
    have ha := hmem a (List.mem_cons_self _ _)
    subst ha
    cases rest with
    | nil => rfl
    | cons b rest' =>
      exfalso
      have hb := hmem b (List.mem_cons_of_mem _ (List.mem_cons_self _ _))
      subst hb
      exact (List.nodup_cons.mp hnodup).1 (List.mem_cons_self _ _)

/-! ## Lemmas on the gateway call -/

theorem sentRequest_callGateway (m : createHome) (createHomeReq : CreateHomeRequest)
    (hg : m.gatewayNext = none) :
    sentRequest (m.callGateway createHomeReq).effects = some createHomeReq := by
  unfold createHome.callGateway
  simp only [hg]
  cases m.CreateHome createHomeReq with
  | error e => rfl
  | ok res =>
    cases res with
    | none => rfl
    | some r =>
      simp only
      cases r.Status with
      | none => rfl
      | some st =>
        simp only
        split_ifs <;> rfl

theorem callGateway_returns (m : createHome) (createHomeReq : CreateHomeRequest)
    (h : m.gatewayNext = none → ∀ res, m.CreateHome createHomeReq = .ok res →
      ∃ r st, res = some r ∧ r.Status = some st) :
    (m.callGateway createHomeReq).panicked = false
      ∧ (m.callGateway createHomeReq).effects.count Effect.next = 1 := by
  unfold createHome.callGateway
  cases hg : m.gatewayNext with
  | some e => exact ⟨rfl, rfl⟩
  | none =>
    simp only
    cases hc : m.CreateHome createHomeReq with
    | error e => exact ⟨rfl, rfl⟩
    | ok res =>
      obtain ⟨r, st, hres, hst⟩ := h hg res hc
      subst hres
      simp only [hst]
      split_ifs <;> exact ⟨rfl, rfl⟩

/-! ## The paths of `ServeHTTP` -/

theorem ServeHTTP_eq_no_token (m : createHome) (req : Request) (htoken : req.token = "") :
    m.ServeHTTP req
      = { effects := [Effect.spanStart (req.Method ++ " " ++ req.Path), .spanEnd, .next, .spanEnd]
          panicked := false } := by
  have hserve : (!m.shouldServe req) = true := by simp [createHome.shouldServe, htoken]
  simp only [createHome.ServeHTTP, hserve, if_true]

theorem ServeHTTP_eq_no_user (m : createHome) (req : Request) (htoken : req.token ≠ "")
    (huser : req.user = none) :
    m.ServeHTTP req
      = { effects := Effect.spanStart (req.Method ++ " " ++ req.Path)
            :: (m.callGateway { Opaque := none }).effects
          panicked := (m.callGateway { Opaque := none }).panicked } := by
  have hserve : (!m.shouldServe req) = false := by simp [createHome.shouldServe, htoken]
  simp only [createHome.ServeHTTP, hserve, huser, Bool.false_eq_true, if_false]

theorem ServeHTTP_eq_nil_user (m : createHome) (req : Request) (htoken : req.token ≠ "")
    (huser : req.user = some none) :
    m.ServeHTTP req
      = { effects := [Effect.spanStart (req.Method ++ " " ++ req.Path), .spanEnd]
          panicked := true } := by
  have hserve : (!m.shouldServe req) = false := by simp [createHome.shouldServe, htoken]
  simp only [createHome.ServeHTTP, hserve, huser, Bool.false_eq_true, if_false]

theorem ServeHTTP_eq_roles (m : createHome) (req : Request) (u : User) (roleIDs : List String)
    (htoken : req.token ≠ "") (huser : req.user = some (some u)) (hroles : u.roles = .ok roleIDs) :
    m.ServeHTTP req
      = { effects := Effect.spanStart (req.Method ++ " " ++ req.Path)
            :: (m.callGateway (m.requestFor (m.mapOrder roleIDs.dedup))).effects
          panicked := (m.callGateway (m.requestFor (m.mapOrder roleIDs.dedup))).panicked } := by
  have hserve : (!m.shouldServe req) = false := by simp [createHome.shouldServe, htoken]
  simp only [createHome.ServeHTTP, hserve, huser, createHome.getUserRoles, hroles,
    Bool.false_eq_true, if_false]

theorem ServeHTTP_eq_roles_error (m : createHome) (req : Request) (u : User) (e : Search.Err)
    (id : UserId) (htoken : req.token ≠ "") (huser : req.user = some (some u))
    (hroles : u.roles = .error e) (hid : u.Id = some id) :
    m.ServeHTTP req
      = { effects := [Effect.spanStart (req.Method ++ " " ++ req.Path),
            .logError "failed to get roles for user", .render 500 "Unauthorized", .spanEnd]
          panicked := false } := by
  have hserve : (!m.shouldServe req) = false := by simp [createHome.shouldServe, htoken]
  simp only [createHome.ServeHTTP, hserve, huser, createHome.getUserRoles, hroles, hid,
    Bool.false_eq_true, if_false]

theorem ServeHTTP_eq_roles_error_nil_id (m : createHome) (req : Request) (u : User)
    (e : Search.Err) (htoken : req.token ≠ "") (huser : req.user = some (some u))
    (hroles : u.roles = .error e) (hid : u.Id = none) :
    m.ServeHTTP req
      = { effects := [Effect.spanStart (req.Method ++ " " ++ req.Path), .spanEnd]
          panicked := true } := by
  have hserve : (!m.shouldServe req) = false := by simp [createHome.shouldServe, htoken]
  simp only [createHome.ServeHTTP, hserve, huser, createHome.getUserRoles, hroles, hid,
    Bool.false_eq_true, if_false]

/-! ## The `CreateHome` middleware -/

/-- C26: for a user whose role list holds exactly one distinct role id `r` (possibly
repeated), the request sent to `CreateHome` carries the quota `roleQuotas[r]` in decimal
as a plain opaque entry when `r` has a configured quota and no opaque when it has none;
for an empty role list no quota is attached; `checkRoleQuotaLimit` on the empty list
returns `(0, false)`. -/
theorem createHome_quota_of_single_role (m : createHome) (req : Request) (u : User)
    (roleIDs : List String)
    (horder : ∀ ids, (m.mapOrder ids).Perm ids)
    (htoken : req.token ≠ "") (huser : req.user = some (some u))
    (hroles : u.roles = .ok roleIDs)
    (hgateway : m.gatewayNext = none) :
    (∀ r, roleIDs ≠ [] → (∀ x ∈ roleIDs, x = r) →
        (∀ quota, m.roleQuotas r = some quota →
          sentRequest (m.ServeHTTP req).effects
            = some { Opaque := some [{ key := "quota", decoder := "plain", value := formatUint quota }] })
        ∧ (m.roleQuotas r = none →
          sentRequest (m.ServeHTTP req).effects = some { Opaque := none }))
      ∧ (roleIDs = [] → sentRequest (m.ServeHTTP req).effects = some { Opaque := none })
      ∧ m.checkRoleQuotaLimit [] = (0, false) := by
  have hsent : ∀ ids, m.mapOrder roleIDs.dedup = ids →
      sentRequest (m.ServeHTTP req).effects = some (m.requestFor ids) := by
    intro ids hids
    rw [ServeHTTP_eq_roles m req u roleIDs htoken huser hroles, hids]
    simp only [sentRequest]
    exact sentRequest_callGateway m _ hgateway
  refine ⟨?_, ?_, rfl⟩
  · intro r hne hall
    have hd : m.mapOrder roleIDs.dedup = [r] := by
      have := horder roleIDs.dedup
      rw [dedup_of_all_eq r roleIDs hne hall] at this ⊢
      exact List.perm_singleton.mp this
    rw [hsent [r] hd]
    constructor
    · intro quota hq
      simp [createHome.requestFor, createHome.checkRoleQuotaLimit, hq, appendPlainToOpaque]
    · intro hq
      simp [createHome.requestFor, createHome.checkRoleQuotaLimit, hq]
  · intro hnil
    have hd : m.mapOrder roleIDs.dedup = [] := by
      have := horder roleIDs.dedup
      rw [hnil] at this ⊢
      simpa using this
    rw [hsent [] hd]
    simp [createHome.requestFor, createHome.checkRoleQuotaLimit]

/-- Witness of `createHome_quota_of_single_role`: the role `user`, listed twice, has a
quota of 5 GB. -/
theorem createHome_quota_of_single_role_witness :
    sentRequest (mwSample.ServeHTTP reqUser).effects
      = some { Opaque := some [{ key := "quota", decoder := "plain", value := "5000000000" }] } :=
  ((createHome_quota_of_single_role mwSample reqUser _ ["user", "user"]
    (fun ids => List.Perm.refl ids) (by decide) rfl rfl rfl).1 "user" (by decide)
    (by decide)).1 5000000000 rfl

/-- C27 (counterexample): a `CreateHome` answer without `Status` (and with a nil error)
makes `ServeHTTP` panic after the gateway call, so for a request with a token and readable
roles the next handler is not invoked at all, and so does a nil answer; a nil user in the
context makes it panic before the gateway call; and for a user without `Id` whose roles
cannot be read, `ServeHTTP` panics before anything is logged or rendered, so no 500
response is rendered. -/
theorem createHome_nil_pointer_blocks_request :
    (mwNoStatus.ServeHTTP reqUser
        = { effects := [Effect.spanStart "GET /", .gatewayNext,
              .CreateHome (CreateHomeRequest.mk (some [OpaqueEntry.mk "quota" "plain" "5000000000"])),
              .spanEnd]
            panicked := true }
      ∧ (mwNoStatus.ServeHTTP reqUser).effects.count Effect.next = 0)
      ∧ ((mwNilResponse.ServeHTTP reqUser).panicked = true
        ∧ (mwNilResponse.ServeHTTP reqUser).effects.count Effect.next = 0)
      ∧ mwSample.ServeHTTP reqNilUser
          = { effects := [Effect.spanStart "GET /", .spanEnd], panicked := true }
      ∧ (mwSample.ServeHTTP reqBrokenRolesNoId
          = { effects := [Effect.spanStart "GET /", .spanEnd], panicked := true }
        ∧ Effect.render 500 "Unauthorized" ∉ (mwSample.ServeHTTP reqBrokenRolesNoId).effects) := by
  decide

/-- C27 (amended): take a request whose context user, if the request carries a token,
is not a nil pointer and has an `Id` when its roles cannot be read, and a gateway that
answers the `CreateHome` call of this run, if it answers without error, with a response
that carries a `Status`. Then `ServeHTTP` returns, and the next handler is invoked exactly
once, unless the request carries a token, a user is in the context and the roles of that
user cannot be read: then a 500 response is rendered and the next handler is not invoked.
A request without a token reaches the next handler without a gateway call; a gateway
selection error, a `CreateHome` transport error and a `CreateHome` status that is not OK
all leave the next handler invoked once. -/
theorem createHome_next_handler (m : createHome) (req : Request)
    (huser : req.token ≠ "" → req.user ≠ some none)
    (hid : ∀ u e, req.token ≠ "" → req.user = some (some u) → u.roles = .error e → u.Id ≠ none)
    (hstatus : ∀ createHomeReq res,
      sentRequest (m.ServeHTTP req).effects = some createHomeReq →
      m.CreateHome createHomeReq = .ok res → ∃ r st, res = some r ∧ r.Status = some st) :
    (m.ServeHTTP req).panicked = false
      ∧ ((req.token ≠ "" ∧ ∃ u e, req.user = some (some u) ∧ u.roles = .error e) →
        (m.ServeHTTP req).effects.count Effect.next = 0
          ∧ Effect.render 500 "Unauthorized" ∈ (m.ServeHTTP req).effects)
      ∧ (¬ (req.token ≠ "" ∧ ∃ u e, req.user = some (some u) ∧ u.roles = .error e) →
        (m.ServeHTTP req).effects.count Effect.next = 1)
      ∧ (req.token = "" →
        m.ServeHTTP req
          = { effects := [Effect.spanStart (req.Method ++ " " ++ req.Path), .spanEnd, .next,
                .spanEnd]
              panicked := false }) := by
  by_cases htoken : req.token = ""
  · have heq := ServeHTTP_eq_no_token m req htoken
    refine ⟨by rw [heq], fun h => absurd htoken h.1, fun _ => by rw [heq]; rfl, fun _ => heq⟩
  · cases huser0 : req.user with
    | none =>
      have heq := ServeHTTP_eq_no_user m req htoken huser0
      have hgw := callGateway_returns m { Opaque := none } (fun hg res hres =>
        hstatus _ res (by
          rw [heq]
          simp only [sentRequest]
          exact sentRequest_callGateway m _ hg) hres)
      refine ⟨by rw [heq]; exact hgw.1, ?_, ?_, fun h => absurd h htoken⟩
      · rintro ⟨_, u, e, hu, _⟩
        cases hu
      · intro _
        rw [heq]
        simp only [List.count_cons, hgw.2]
        rfl
    | some ou =>
      cases ou with
      | none => exact absurd huser0 (huser htoken)
      | some u =>
        cases hroles : u.roles with
        | error e =>
          cases hidu : u.Id with
          | none => exact absurd hidu (hid u e htoken huser0 hroles)
          | some id =>
            have heq := ServeHTTP_eq_roles_error m req u e id htoken huser0 hroles hidu
            refine ⟨by rw [heq], fun _ => ?_, fun hnot => ?_, fun h => absurd h htoken⟩
            · rw [heq]
              exact ⟨rfl, by simp⟩
            · exact absurd ⟨htoken, u, e, rfl, hroles⟩ hnot
        | ok roleIDs =>
          have heq := ServeHTTP_eq_roles m req u roleIDs htoken huser0 hroles
          have hgw := callGateway_returns m (m.requestFor (m.mapOrder roleIDs.dedup))
            (fun hg res hres =>
              hstatus _ res (by
                rw [heq]
                simp only [sentRequest]
                exact sentRequest_callGateway m _ hg) hres)
          refine ⟨by rw [heq]; exact hgw.1, ?_, ?_, fun h => absurd h htoken⟩
          · rintro ⟨_, u2, e, hu, hr⟩
            cases hu
            rw [hroles] at hr
            cases hr
          · intro _
            rw [heq]
            simp only [List.count_cons, hgw.2]
            rfl

/-- Witness of `createHome_next_handler`: with a gateway that answers with the status
`CODE_ALREADY_EXISTS`, a user with readable roles reaches the next handler once, and a
user with unreadable roles gets the 500 response. -/
theorem createHome_next_handler_witness :
    ((mwSample.ServeHTTP reqUser).panicked = false
        ∧ (mwSample.ServeHTTP reqUser).effects.count Effect.next = 1)
      ∧ (mwSample.ServeHTTP reqBrokenRoles).effects.count Effect.next = 0
      ∧ Effect.render 500 "Unauthorized" ∈ (mwSample.ServeHTTP reqBrokenRoles).effects :=
  have h := createHome_next_handler mwSample reqUser
    (fun _ hnil => by cases hnil)
    (fun u e _ hu hr => by
      cases hu
      cases hr)
    (fun _ res _ hres => by
      cases hres
      exact ⟨_, _, rfl, rfl⟩)
  have hb := createHome_next_handler mwSample reqBrokenRoles
    (fun _ hnil => by cases hnil)
    (fun u e _ hu _ hid => by
      cases hu
      cases hid)
    (fun _ res _ hres => by
      cases hres
      exact ⟨_, _, rfl, rfl⟩)
  ⟨⟨h.1, h.2.2.1 (fun hbroken => by
      obtain ⟨_, u, e, hu, hr⟩ := hbroken
      cases hu
      cases hr)⟩,
    hb.2.1 ⟨by decide, User.mk (some (UserId.mk "alice")) (.error (.errorString "not found")),
      .errorString "not found", rfl, rfl⟩⟩

end Proxy

namespace Graph

/-! ## Lemmas on `listSharedWithMe` -/

theorem FromCS3Status_none (status : Option Search.Status) (inerr : Option Search.Err) :
    FromCS3Status status inerr = none ↔ inerr = none ∧ Search.Status.GetCode status = Search.CODE_OK := by
  unfold FromCS3Status
  cases inerr with
  | some e => simp
  | none =>
    by_cases h : Search.Status.GetCode status = Search.CODE_OK <;> simp [h]

theorem expandAll_eq_map (cfg : ShareConfig) (env : ShareEnv) (items : List DriveItem) :
    expandAll cfg env items = items.map (expandItem cfg env) := by
  induction items with
  | nil => rfl
  | cons item rest ih => simp [expandAll, ih]

theorem expandAll_ocm_listing (cfg : ShareConfig) (env : ShareEnv)
    (listing : Option ListSharesResponse × Option Search.Err) (items : List DriveItem) :
    expandAll cfg { env with ListReceivedOCMShares := listing } items = expandAll cfg env items := by
  induction items with
  | nil => rfl
  | cons item rest ih => simp only [expandAll, ih]; rfl

/-- With both listings and both conversions succeeding, the result is the converted
shares, local then OCM, passed through the thumbnail loop when asked for. -/
theorem listSharedWithMe_eq_ok (cfg : ShareConfig) (env : ShareEnv) (expandThumbnails : Bool)
    (localItems ocmItems : List DriveItem)
    (hg : env.gatewayNext = none)
    (hlist : FromCS3Status (ListSharesResponse.GetStatus env.ListReceivedShares.1)
      env.ListReceivedShares.2 = none)
    (hconv : env.cs3ReceivedSharesToDriveItems (ListSharesResponse.GetShares env.ListReceivedShares.1)
      = .ok localItems)
    (hocm : cfg.IncludeOCMSharees = true → env.ListReceivedOCMShares.2 = none
      ∧ env.cs3ReceivedOCMSharesToDriveItems
          (ListSharesResponse.GetShares env.ListReceivedOCMShares.1) = .ok ocmItems)
    (hnoocm : cfg.IncludeOCMSharees = false → ocmItems = []) :
    (listSharedWithMe cfg env expandThumbnails).1
      = .ok (if expandThumbnails then (localItems ++ ocmItems).map (expandItem cfg env)
          else localItems ++ ocmItems) := by
  cases hinc : cfg.IncludeOCMSharees with
  | false =>
    have := hnoocm hinc
    subst this
    simp only [listSharedWithMe, hg, hlist, hconv, hinc, Bool.false_eq_true, if_false,
      expandAll_eq_map, List.append_nil]
  | true =>
    obtain ⟨herr, hconv2⟩ := hocm hinc
    have hcode := ((FromCS3Status_none _ _).mp hlist).2
    have hsecond : FromCS3Status (ListSharesResponse.GetStatus env.ListReceivedShares.1)
        env.ListReceivedOCMShares.2 = none := (FromCS3Status_none _ _).mpr ⟨herr, hcode⟩
    simp only [listSharedWithMe, hg, hlist, hconv, hinc, hsecond, hconv2, if_true,
      expandAll_eq_map]

/-! ## Shares received by the user -/

/-- C28 (the code at the failing input): with OCM sharees included, a local listing that
is OK and an OCM listing that answers without a transport error but with the status
`permission denied`, `listSharedWithMe` returns the drive items and no error, although
`FromCS3Status` on the OCM status gives an error; the same status on the local listing
makes it return that error and no items. -/
theorem listSharedWithMe_ignores_ocm_status :
    (listSharedWithMe shareCfg shareEnvOCMDenied false).1 = .ok [itemImage]
      ∧ FromCS3Status (ListSharesResponse.GetStatus shareEnvOCMDenied.ListReceivedOCMShares.1)
          shareEnvOCMDenied.ListReceivedOCMShares.2
        = some (.fromStatus 8 "permission denied")
      ∧ (listSharedWithMe shareCfg shareEnvLocalDenied false).1
        = .error (.fromStatus 8 "permission denied") := by
  refine ⟨rfl, rfl, rfl⟩

/-- The status of the OCM listing never reaches the result: changing it changes nothing. -/
theorem listSharedWithMe_ocm_status_unused (cfg : ShareConfig) (env : ShareEnv)
    (expandThumbnails : Bool) (shares : List ReceivedShare) (status status' : Option Search.Status)
    (err : Option Search.Err) :
    listSharedWithMe cfg
        { env with ListReceivedOCMShares := (some { Status := status, Shares := shares }, err) }
        expandThumbnails
      = listSharedWithMe cfg
        { env with ListReceivedOCMShares := (some { Status := status', Shares := shares }, err) }
        expandThumbnails := by
  unfold listSharedWithMe
  simp only [ListSharesResponse.GetShares, expandAll_ocm_listing]

/-- C29: thumbnail expansion changes nothing but thumbnails: the returned list has the
length and the order of the converted shares, local shares followed by OCM shares; with
`expandThumbnails` false no item is modified; with it true every item whose file mime
type is in `thumbnail.SupportedMimeTypes` gets exactly one thumbnail set, with the small,
medium and large URLs `<OpenCloudURL>/dav/spaces/<remote item id>?scalingup=0&preview=1&processor=thumbnail`
followed by `&x=36&y=36`, `&x=48&y=48` and `&x=96&y=96`, and every item without a mime
type or with an unsupported one is returned unchanged. -/
theorem listSharedWithMe_thumbnails (cfg : ShareConfig) (env : ShareEnv) (expandThumbnails : Bool)
    (localItems ocmItems : List DriveItem)
    (hg : env.gatewayNext = none)
    (hlist : FromCS3Status (ListSharesResponse.GetStatus env.ListReceivedShares.1)
      env.ListReceivedShares.2 = none)
    (hconv : env.cs3ReceivedSharesToDriveItems (ListSharesResponse.GetShares env.ListReceivedShares.1)
      = .ok localItems)
    (hocm : cfg.IncludeOCMSharees = true → env.ListReceivedOCMShares.2 = none
      ∧ env.cs3ReceivedOCMSharesToDriveItems
          (ListSharesResponse.GetShares env.ListReceivedOCMShares.1) = .ok ocmItems)
    (hnoocm : cfg.IncludeOCMSharees = false → ocmItems = []) :
    ∃ out, (listSharedWithMe cfg env expandThumbnails).1 = .ok out
      ∧ out.length = (localItems ++ ocmItems).length
      ∧ (expandThumbnails = false → out = localItems ++ ocmItems)
      ∧ (expandThumbnails = true → ∀ (i : Nat) (item : DriveItem),
          (localItems ++ ocmItems)[i]? = some item →
          (∀ mt, item.GetFile.MimeType = some mt → env.SupportedMimeTypes mt = true →
            out[i]? = some { item with Thumbnails :=
              [{ Small := some { Url := some (cfg.OpenCloudURL ++ "/dav/spaces/"
                    ++ RemoteItem.GetId item.RemoteItem
                    ++ "?scalingup=0&preview=1&processor=thumbnail" ++ "&x=36&y=36") }
                 Medium := some { Url := some (cfg.OpenCloudURL ++ "/dav/spaces/"
                    ++ RemoteItem.GetId item.RemoteItem
                    ++ "?scalingup=0&preview=1&processor=thumbnail" ++ "&x=48&y=48") }
                 Large := some { Url := some (cfg.OpenCloudURL ++ "/dav/spaces/"
                    ++ RemoteItem.GetId item.RemoteItem
                    ++ "?scalingup=0&preview=1&processor=thumbnail" ++ "&x=96&y=96") } }] })
          ∧ ((item.GetFile.MimeType = none
                ∨ ∃ mt, item.GetFile.MimeType = some mt ∧ env.SupportedMimeTypes mt = false) →
            out[i]? = some item)) := by
  refine ⟨_, listSharedWithMe_eq_ok cfg env expandThumbnails localItems ocmItems hg hlist hconv
    hocm hnoocm, ?_, ?_, ?_⟩
  · cases expandThumbnails <;> simp
  · intro h
    simp [h]
  · intro h i item hi
    subst h
    simp only [if_true, List.getElem?_map, hi, Option.map_some']
    constructor
    · intro mt hmt hsup
      simp only [expandItem, hmt, hsup, if_true, thumbnailSet]
    · rintro (hnone | ⟨mt, hmt, hsup⟩)
      · simp only [expandItem, hnone]
      · simp only [expandItem, hmt, hsup, Bool.false_eq_true, if_false]

/-- Witness of `listSharedWithMe_thumbnails`: the image gets its thumbnail set, the folder
is returned unchanged, in the order local then OCM. -/
theorem listSharedWithMe_thumbnails_witness :
    ∃ out, (listSharedWithMe shareCfg shareEnvOk true).1 = .ok out
      ∧ out.length = 2
      ∧ out[1]? = some itemFolder
      ∧ (out[0]?.map fun item => item.Thumbnails.map fun t => t.Small)
        = some [some (Thumbnail.mk (some
            "https://cloud.example/dav/spaces/st$sp!img?scalingup=0&preview=1&processor=thumbnail&x=36&y=36"))] :=
  have h := listSharedWithMe_thumbnails shareCfg shareEnvOk true [itemImage] [itemFolder]
    rfl rfl rfl (fun _ => ⟨rfl, rfl⟩) (fun h => by cases h)
  h.elim fun out hout =>
    ⟨out, hout.1, hout.2.1,
      (hout.2.2.2 rfl 1 itemFolder rfl).2 (Or.inl rfl),
      by
        have := (hout.2.2.2 rfl 0 itemImage rfl).1 "image/png" rfl rfl
        rw [this]
        decide⟩

end Graph
